import Mathlib

/-!
Verification of the termin-graphics GPU-resource core.

This file gives a shallow embedding, in Lean 4, of the handle/pool
allocator (`src/tc_pool.c`), the open-addressed resource map
(`tc_resource_map.c`), the resource registries (mesh, shader, texture,
material) and the GPU sync protocol (`tgfx_resource_gpu.c`), and proves
properties of the embedded definitions.

Modelling conventions used throughout:
* C unsigned 32-bit counters (`generation`, `version`) are modelled as
  `Nat` with an explicit `% 2^32` at every point where the C code
  increments them, so 32-bit wraparound is reflected faithfully.
* 64-bit hash arithmetic carries an explicit `% 2^64`.
* Heap allocation is assumed to succeed (`malloc`/`realloc` never return
  NULL in the model); the C failure branches are allocator-failure
  handling only and are noted where dropped.
* Pointers into pool slots are modelled by slot indices: the C pattern
  "obtain `tc_shader*` from a handle, then mutate through it" becomes
  "read the value at the index, transform it, write it back".
* `tc_log` output is not part of the state except where a claim is about
  logging: the release functions additionally return a `Bool` that is
  true iff the C code path executes a `tc_log(TC_LOG_WARN, ...)` call.
-/

set_option maxHeartbeats 1000000

namespace TcGraphics

/-- 2^32, the modulus of the C `uint32_t` counters. -/
def U32 : Nat := 4294967296

/-- 2^64, the modulus of the C `uint64_t` hash arithmetic. -/
def U64 : Nat := 18446744073709551616

/-- `tc_handle` from tc_handle.h: an (index, generation) pair. -/
structure tc_handle where
  index : Nat
  generation : Nat
deriving DecidableEq, Repr

/-- `TC_HANDLE_INVALID`: index = UINT32_MAX, generation = 0. -/
def TC_HANDLE_INVALID : tc_handle := ⟨U32 - 1, 0⟩

/-- `tc_handle_is_invalid`: true iff index = UINT32_MAX. -/
def tc_handle_is_invalid (h : tc_handle) : Bool := h.index == U32 - 1

/-!
## Pool (src/tc_pool.c)

`tc_pool` is generic over the item type `α` (the C code is generic via
`item_size` and raw bytes; `zero : α` models the `memset(.., 0, ..)`
zero-initialisation of slots).  `states` entries are `true` for
`TC_SLOT_OCCUPIED` and `false` for `TC_SLOT_FREE`.  The C free list is
an array with stack discipline (`free_list[free_count++]` pushes,
`free_list[--free_count]` pops), modelled as a `List` whose *last*
element is the top of the stack.
-/

structure tc_pool (α : Type) where
  data : List α
  capacity : Nat
  states : List Bool
  generations : List Nat
  free_list : List Nat
  count : Nat
deriving DecidableEq, Repr

/-- `tc_pool_init` with a positive initial capacity (`tc_pool_init` in
tc_pool.c): generations start at 1, all slots free, free list holds
`0, 1, ..., capacity-1` (so index `capacity-1` is popped first). -/
def tc_pool_init (α : Type) (zero : α) (initial_capacity : Nat) : tc_pool α :=
  { data := List.replicate initial_capacity zero
    capacity := initial_capacity
    states := List.replicate initial_capacity false
    generations := List.replicate initial_capacity 1
    free_list := List.range initial_capacity
    count := 0 }

/-- `pool_grow` (tc_pool.c): double the capacity (16 if it was 0),
zero-init the new data slots, set the new generations to 1, mark the new
slots free and push them onto the free list in increasing index order.
Allocation failure branches are dropped (allocation always succeeds in
the model). -/
def pool_grow {α : Type} (zero : α) (p : tc_pool α) : tc_pool α :=
  let new_capacity := if p.capacity = 0 then 16 else p.capacity * 2
  { data := p.data ++ List.replicate (new_capacity - p.capacity) zero
    capacity := new_capacity
    states := p.states ++ List.replicate (new_capacity - p.capacity) false
    generations := p.generations ++ List.replicate (new_capacity - p.capacity) 1
    free_list := p.free_list ++ (List.range new_capacity).drop p.capacity
    count := p.count }

/-- `tc_pool_alloc` (tc_pool.c): grow if the free list is empty, pop the
top of the free list, mark the slot occupied, zero-init its data, and
return `{index, generation[index]}` together with the updated pool. -/
def tc_pool_alloc {α : Type} (zero : α) (p : tc_pool α) : tc_handle × tc_pool α :=
  let p := if p.free_list.isEmpty then pool_grow zero p else p
  match p.free_list.getLast? with
  | none => (TC_HANDLE_INVALID, p)
  | some index =>
      (⟨index, p.generations.getD index 0⟩,
       { p with
          data := p.data.set index zero
          states := p.states.set index true
          free_list := p.free_list.dropLast
          count := p.count + 1 })

/-- `tc_pool_free_slot` (tc_pool.c): fail on out-of-range index, free
slot or generation mismatch; otherwise mark the slot free, bump its
generation (32-bit wrap), decrement the count and push the index back
onto the free list. -/
def tc_pool_free_slot {α : Type} (p : tc_pool α) (h : tc_handle) : Bool × tc_pool α :=
  if h.index ≥ p.capacity then (false, p)
  else if p.states.getD h.index false ≠ true then (false, p)
  else if p.generations.getD h.index 0 ≠ h.generation then (false, p)
  else
    (true,
     { p with
        states := p.states.set h.index false
        generations := p.generations.set h.index ((p.generations.getD h.index 0 + 1) % U32)
        free_list := p.free_list.concat h.index
        count := p.count - 1 })

/-- `tc_pool_is_valid` (tc_pool.c). -/
def tc_pool_is_valid {α : Type} (p : tc_pool α) (h : tc_handle) : Bool :=
  if h.index ≥ p.capacity then false
  else if p.states.getD h.index false ≠ true then false
  else if p.generations.getD h.index 0 ≠ h.generation then false
  else true

/-- `tc_pool_get` (tc_pool.c): `some` of the slot contents iff the
handle is valid. -/
def tc_pool_get {α : Type} [Inhabited α] (p : tc_pool α) (h : tc_handle) : Option α :=
  if tc_pool_is_valid p h then some (p.data.getD h.index default) else none

/-- Well-formedness of a pool state, established by `tc_pool_init` and
preserved by every pool operation: the parallel arrays have length
`capacity`, every free-list entry is in range, and every stored
generation is a 32-bit value. -/
def poolWF {α : Type} (p : tc_pool α) : Prop :=
  p.data.length = p.capacity ∧
  p.states.length = p.capacity ∧
  p.generations.length = p.capacity ∧
  (∀ i ∈ p.free_list, i < p.capacity) ∧
  (∀ g ∈ p.generations, g < U32)

instance poolWF_decidable {α : Type} (p : tc_pool α) : Decidable (poolWF p) := by
  unfold poolWF
  infer_instance

/-- A client-visible pool operation: the alloc/free interface of
tc_pool.c over which the pool claims quantify. -/
inductive PoolOp where
  | alloc : PoolOp
  | free (h : tc_handle) : PoolOp
deriving DecidableEq, Repr

/-- Run one pool operation (result values are discarded, the pool state
is kept). -/
def runOp {α : Type} (zero : α) (p : tc_pool α) : PoolOp → tc_pool α
  | .alloc => (tc_pool_alloc zero p).2
  | .free h => (tc_pool_free_slot p h).2

/-- Run a sequence of pool operations. -/
def runOps {α : Type} (zero : α) (p : tc_pool α) : List PoolOp → tc_pool α
  | [] => p
  | op :: rest => runOps zero (runOp zero p op) rest

/-- Number of times a run of operations bumps the generation counter of
slot `i` (i.e. number of successful frees of slot `i`; these are the
only generation writes `alloc`/`free` perform on an existing slot). -/
def countBumps {α : Type} (zero : α) (p : tc_pool α) (i : Nat) : List PoolOp → Nat
  | [] => 0
  | .alloc :: rest => countBumps zero (tc_pool_alloc zero p).2 i rest
  | .free h :: rest =>
      (if (tc_pool_free_slot p h).1 ∧ h.index = i then 1 else 0) +
        countBumps zero (tc_pool_free_slot p h).2 i rest

/-! ### List helper lemmas -/

theorem getD_append_left {α : Type} (l l2 : List α) (i : Nat) (d : α)
    (h : i < l.length) : (l ++ l2).getD i d = l.getD i d := by
  simp [List.getD, List.getElem?_append_left h]

theorem getD_set_self {α : Type} (l : List α) (i : Nat) (a d : α)
    (h : i < l.length) : (l.set i a).getD i d = a := by
  simp [List.getD, List.getElem?_set_self, h]

theorem getD_set_ne {α : Type} (l : List α) (i j : Nat) (a d : α)
    (h : i ≠ j) : (l.set i a).getD j d = l.getD j d := by
  simp [List.getD, List.getElem?_set_ne h]

theorem getD_mem {α : Type} (l : List α) (i : Nat) (d : α)
    (h : i < l.length) : l.getD i d ∈ l := by
  rw [List.getD_eq_getElem l d h]
  exact l.getElem_mem h

/-! ### Pool well-formedness preservation -/

theorem poolWF_init (α : Type) (zero : α) (n : Nat) :
    poolWF (tc_pool_init α zero n) := by
  refine ⟨by simp [tc_pool_init], by simp [tc_pool_init], by simp [tc_pool_init], ?_, ?_⟩
  · intro i hi; simpa [tc_pool_init] using hi
  · intro g hg
    have : g = 1 := List.eq_of_mem_replicate hg
    simp [this, U32]

theorem capacity_lt_grow {α : Type} (zero : α) (p : tc_pool α) :
    p.capacity < (pool_grow zero p).capacity := by
  simp only [pool_grow]
  split <;> omega

theorem poolWF_grow {α : Type} (zero : α) (p : tc_pool α) (hwf : poolWF p) :
    poolWF (pool_grow zero p) := by
  obtain ⟨hd, hs, hg, hf, hgen⟩ := hwf
  have hcap : p.capacity ≤ (if p.capacity = 0 then 16 else p.capacity * 2) := by
    split <;> omega
  refine ⟨?_, ?_, ?_, ?_, ?_⟩
  · simp [pool_grow, hd]; omega
  · simp [pool_grow, hs]; omega
  · simp [pool_grow, hg]; omega
  · intro i hi
    simp only [pool_grow, List.mem_append] at hi ⊢
    rcases hi with hi | hi
    · exact lt_of_lt_of_le (hf i hi) hcap
    · have := (List.mem_drop_iff_getElem ..).mp hi
      obtain ⟨j, hj, rfl⟩ := this
      simp only [List.getElem_range]
      simp at hj
      omega
  · intro g hgm
    simp only [pool_grow, List.mem_append] at hgm
    rcases hgm with hgm | hgm
    · exact hgen g hgm
    · have : g = 1 := List.eq_of_mem_replicate hgm
      simp [this, U32]

theorem grow_free_list_nonempty {α : Type} (zero : α) (p : tc_pool α) :
    (pool_grow zero p).free_list ≠ [] := by
  simp only [pool_grow, ne_eq, List.append_eq_nil]
  intro ⟨_, hcon⟩
  have h1 : ((List.range (if p.capacity = 0 then 16 else p.capacity * 2)).drop
      p.capacity).length = 0 := by rw [hcon]; rfl
  simp only [List.length_drop, List.length_range] at h1
  split at h1 <;> omega

theorem mem_of_getLast_eq_some {α : Type} {l : List α} {a : α}
    (h : l.getLast? = some a) : a ∈ l := by
  have hm : a ∈ l.getLast? := by simp [Option.mem_def, h]
  obtain ⟨hne, rfl⟩ := List.mem_getLast?_eq_getLast hm
  exact List.getLast_mem hne

theorem poolWF_alloc {α : Type} (zero : α) (p : tc_pool α) (hwf : poolWF p) :
    poolWF (tc_pool_alloc zero p).2 := by
  unfold tc_pool_alloc
  set q := if p.free_list.isEmpty then pool_grow zero p else p with hq
  have hwq : poolWF q := by
    rw [hq]; split
    · exact poolWF_grow zero p hwf
    · exact hwf
  obtain ⟨hd, hs, hg, hf, hgen⟩ := hwq
  cases hlast : q.free_list.getLast? with
  | none => simp only [hlast]; exact ⟨hd, hs, hg, hf, hgen⟩
  | some index =>
      simp only [hlast]
      refine ⟨by simpa using hd, by simpa using hs, by simpa using hg, ?_, by simpa using hgen⟩
      intro i hi
      simp only at hi
      exact hf i (List.dropLast_subset _ hi)

theorem poolWF_free {α : Type} (p : tc_pool α) (h : tc_handle) (hwf : poolWF p) :
    poolWF (tc_pool_free_slot p h).2 := by
  unfold tc_pool_free_slot
  obtain ⟨hd, hs, hg, hf, hgen⟩ := hwf
  split
  · exact ⟨hd, hs, hg, hf, hgen⟩
  · split
    · exact ⟨hd, hs, hg, hf, hgen⟩
    · split
      · exact ⟨hd, hs, hg, hf, hgen⟩
      · rename_i hcap _ _
        refine ⟨by simpa using hd, by simpa using hs, by simpa using hg, ?_, ?_⟩
        · intro i hi
          simp only [List.concat_eq_append, List.mem_append, List.mem_singleton] at hi
          rcases hi with hi | rfl
          · exact hf i hi
          · show h.index < p.capacity
            omega
        · intro g hgm
          simp only at hgm
          rcases List.mem_or_eq_of_mem_set hgm with hgm | rfl
          · exact hgen g hgm
          · exact Nat.mod_lt _ (by simp [U32])

theorem poolWF_runOp {α : Type} (zero : α) (p : tc_pool α) (op : PoolOp)
    (hwf : poolWF p) : poolWF (runOp zero p op) := by
  cases op with
  | alloc => exact poolWF_alloc zero p hwf
  | free h => exact poolWF_free p h hwf

/-! ### Generation tracking across operations -/

theorem capacity_le_alloc {α : Type} (zero : α) (p : tc_pool α) :
    p.capacity ≤ (tc_pool_alloc zero p).2.capacity := by
  unfold tc_pool_alloc
  set q := if p.free_list.isEmpty then pool_grow zero p else p with hq
  have hc : p.capacity ≤ q.capacity := by
    rw [hq]; split
    · exact le_of_lt (capacity_lt_grow zero p)
    · exact le_refl _
  cases hlast : q.free_list.getLast? <;> simp only [hlast] <;> exact hc

theorem capacity_free {α : Type} (p : tc_pool α) (h : tc_handle) :
    (tc_pool_free_slot p h).2.capacity = p.capacity := by
  unfold tc_pool_free_slot
  split
  · rfl
  · split
    · rfl
    · split <;> rfl

/-- `alloc` never writes a generation of an existing slot. -/
theorem gens_alloc {α : Type} (zero : α) (p : tc_pool α) (i : Nat)
    (hwf : poolWF p) (hi : i < p.capacity) :
    (tc_pool_alloc zero p).2.generations.getD i 0 = p.generations.getD i 0 := by
  unfold tc_pool_alloc
  set q := if p.free_list.isEmpty then pool_grow zero p else p with hq
  have hgq : q.generations.getD i 0 = p.generations.getD i 0 := by
    rw [hq]; split
    · simp only [pool_grow]
      exact getD_append_left _ _ i 0 (by rw [hwf.2.2.1]; exact hi)
    · rfl
  cases hlast : q.free_list.getLast? <;> simp only [hlast] <;> exact hgq

/-- A failed `free` leaves the pool unchanged. -/
theorem free_fail_eq {α : Type} (p : tc_pool α) (h : tc_handle)
    (hfail : (tc_pool_free_slot p h).1 = false) : (tc_pool_free_slot p h).2 = p := by
  unfold tc_pool_free_slot at hfail ⊢
  by_cases h1 : h.index ≥ p.capacity
  · rw [if_pos h1]
  · rw [if_neg h1] at hfail ⊢
    by_cases h2 : p.states.getD h.index false ≠ true
    · rw [if_pos h2]
    · rw [if_neg h2] at hfail ⊢
      by_cases h3 : p.generations.getD h.index 0 ≠ h.generation
      · rw [if_pos h3]
      · rw [if_neg h3] at hfail
        simp at hfail

/-- A successful `free` bumps exactly the freed slot's generation. -/
theorem free_success_gens {α : Type} (p : tc_pool α) (h : tc_handle)
    (hsucc : (tc_pool_free_slot p h).1 = true) :
    (tc_pool_free_slot p h).2.generations =
        p.generations.set h.index ((p.generations.getD h.index 0 + 1) % U32) ∧
      h.index < p.capacity ∧ p.generations.getD h.index 0 = h.generation := by
  unfold tc_pool_free_slot at hsucc ⊢
  by_cases h1 : h.index ≥ p.capacity
  · rw [if_pos h1] at hsucc; simp at hsucc
  · rw [if_neg h1] at hsucc ⊢
    by_cases h2 : p.states.getD h.index false ≠ true
    · rw [if_pos h2] at hsucc; simp at hsucc
    · rw [if_neg h2] at hsucc ⊢
      by_cases h3 : p.generations.getD h.index 0 ≠ h.generation
      · rw [if_pos h3] at hsucc; simp at hsucc
      · rw [if_neg h3]
        exact ⟨rfl, by omega, not_not.mp h3⟩

/-- Main invariant: across any run of alloc/free operations, the
generation of slot `i` advances by exactly the number of successful
frees of that slot, modulo 2^32. -/
theorem run_gens {α : Type} (zero : α) :
    ∀ (ops : List PoolOp) (p : tc_pool α) (i : Nat), poolWF p → i < p.capacity →
      (runOps zero p ops).generations.getD i 0
          = (p.generations.getD i 0 + countBumps zero p i ops) % U32
        ∧ i < (runOps zero p ops).capacity ∧ poolWF (runOps zero p ops) := by
  intro ops
  induction ops with
  | nil =>
      intro p i hwf hi
      refine ⟨?_, hi, hwf⟩
      have hlt : p.generations.getD i 0 < U32 :=
        hwf.2.2.2.2 _ (getD_mem _ _ _ (by rw [hwf.2.2.1]; exact hi))
      simp only [runOps, countBumps, Nat.add_zero]
      exact (Nat.mod_eq_of_lt hlt).symm
  | cons op rest ih =>
      intro p i hwf hi
      cases op with
      | alloc =>
          have hwf' := poolWF_alloc zero p hwf
          have hi' : i < (tc_pool_alloc zero p).2.capacity :=
            lt_of_lt_of_le hi (capacity_le_alloc zero p)
          have := ih (tc_pool_alloc zero p).2 i hwf' hi'
          refine ⟨?_, this.2.1, this.2.2⟩
          rw [show runOps zero p (PoolOp.alloc :: rest)
                = runOps zero (tc_pool_alloc zero p).2 rest from rfl,
              this.1, gens_alloc zero p i hwf hi]
          rfl
      | free h =>
          have hwf' := poolWF_free p h hwf
          have hi' : i < (tc_pool_free_slot p h).2.capacity := by
            rw [capacity_free]; exact hi
          have hmain := ih (tc_pool_free_slot p h).2 i hwf' hi'
          refine ⟨?_, hmain.2.1, hmain.2.2⟩
          rw [show runOps zero p (PoolOp.free h :: rest)
                = runOps zero (tc_pool_free_slot p h).2 rest from rfl,
              hmain.1]
          cases hres : (tc_pool_free_slot p h).1 with
          | false =>
              simp only [countBumps, hres, free_fail_eq p h hres]
              simp
          | true =>
              obtain ⟨hgens, hcap, _⟩ := free_success_gens p h hres
              simp only [countBumps, hres]
              by_cases he : h.index = i
              · subst he
                rw [hgens, getD_set_self _ _ _ _
                  (by rw [hwf.2.2.1]; exact hcap)]
                rw [Nat.mod_add_mod, Nat.add_assoc]
                simp
              · rw [hgens, getD_set_ne _ _ _ _ _ he]
                simp [he]

/-- Validity only checks the generation last, so a generation mismatch
alone already invalidates a handle. -/
theorem is_valid_false_of_gen_ne {α : Type} (p : tc_pool α) (h : tc_handle)
    (hne : p.generations.getD h.index 0 ≠ h.generation) :
    tc_pool_is_valid p h = false := by
  unfold tc_pool_is_valid
  by_cases h1 : h.index ≥ p.capacity
  · rw [if_pos h1]
  · rw [if_neg h1]
    by_cases h2 : p.states.getD h.index false ≠ true
    · rw [if_pos h2]
    · rw [if_neg h2, if_pos hne]

/-- A freshly allocated handle is valid. -/
theorem alloc_is_valid {α : Type} (zero : α) (p : tc_pool α) (hwf : poolWF p) :
    tc_pool_is_valid (tc_pool_alloc zero p).2 (tc_pool_alloc zero p).1 = true := by
  unfold tc_pool_alloc
  set q := if p.free_list.isEmpty then pool_grow zero p else p with hq
  have hwq : poolWF q := by
    rw [hq]; split
    · exact poolWF_grow zero p hwf
    · exact hwf
  have hne : q.free_list ≠ [] := by
    rw [hq]; split
    · exact grow_free_list_nonempty zero p
    · rename_i hni
      simpa [List.isEmpty_iff] using hni
  cases hlast : q.free_list.getLast? with
  | none =>
      exact absurd (List.getLast?_eq_none_iff.mp hlast) hne
  | some index =>
      simp only [hlast]
      have hidx : index < q.capacity :=
        hwq.2.2.2.1 index (mem_of_getLast_eq_some hlast)
      unfold tc_pool_is_valid
      rw [if_neg (by simpa using hidx)]
      rw [if_neg (by
        simp only [ne_eq, not_not]
        exact getD_set_self _ _ _ _ (by rw [hwq.2.1]; exact hidx))]
      rw [if_neg (by simp)]

/-!
## Claim C1

The spec claims a freed handle is invalid *forever*, across *every*
subsequent sequence of alloc/free operations.  In the C code the
per-slot generation is a `uint32_t`: after exactly 2^32 - 1 further
bumps of the same slot the counter wraps back to the freed handle's
generation and the next `alloc` of that slot revalidates the stale
handle.  The claim therefore holds precisely for runs that bump the
freed slot fewer than 2^32 - 1 further times, and fails beyond that;
`C1_counterexample` below exhibits the wraparound run explicitly.
-/

/-- A capacity-1 pool whose only slot is free with generation `g`. -/
def Pfree (g : Nat) : tc_pool Unit :=
  ⟨[()], 1, [false], [g], [0], 0⟩

/-- The same pool after its slot has been allocated. -/
def Palloc (g : Nat) : tc_pool Unit :=
  ⟨[()], 1, [true], [g], [], 1⟩

theorem alloc_Pfree (g : Nat) :
    tc_pool_alloc () (Pfree g) = (⟨0, g⟩, Palloc g) := rfl

theorem free_Palloc (g : Nat) :
    tc_pool_free_slot (Palloc g) ⟨0, g⟩ = (true, Pfree ((g + 1) % U32)) := by
  simp [tc_pool_free_slot, Palloc, Pfree, List.getD]

/-- `k` rounds of "alloc the slot, then free it with the handle that
alloc just returned" starting from slot generation `g`. -/
def cycleOps : Nat → Nat → List PoolOp
  | _, 0 => []
  | g, k+1 => PoolOp.alloc :: PoolOp.free ⟨0, g⟩ :: cycleOps ((g + 1) % U32) k

theorem runOps_append {α : Type} (zero : α) (l1 l2 : List PoolOp) :
    ∀ p : tc_pool α, runOps zero p (l1 ++ l2) = runOps zero (runOps zero p l1) l2 := by
  induction l1 with
  | nil => intro p; rfl
  | cons op rest ih => intro p; exact ih (runOp zero p op)

theorem run_cycleOps : ∀ (k g : Nat), g < U32 →
    runOps () (Pfree g) (cycleOps g k) = Pfree ((g + k) % U32) := by
  intro k
  induction k with
  | zero =>
      intro g hg
      simp [cycleOps, runOps, Nat.mod_eq_of_lt hg]
  | succ k ih =>
      intro g hg
      show runOps () (Pfree g)
        (PoolOp.alloc :: PoolOp.free ⟨0, g⟩ :: cycleOps ((g + 1) % U32) k) = _
      have h1 : runOp () (Pfree g) PoolOp.alloc = Palloc g := by
        simp [runOp, alloc_Pfree]
      have h2 : runOp () (Palloc g) (PoolOp.free ⟨0, g⟩) = Pfree ((g + 1) % U32) := by
        simp [runOp, free_Palloc]
      show runOps () (runOp () (runOp () (Pfree g) PoolOp.alloc) (PoolOp.free ⟨0, g⟩))
        (cycleOps ((g + 1) % U32) k) = _
      rw [h1, h2, ih ((g + 1) % U32) (Nat.mod_lt _ (by simp [U32]))]
      have : (g + 1) % U32 + k = ((g + 1) % U32 + k) := rfl
      rw [show ((g + 1) % U32 + k) % U32 = (g + (k + 1)) % U32 by
        rw [Nat.mod_add_mod]
        congr 1
        omega]

/-- The concrete pool, allocation and free used by the counterexample. -/
def C1_pool0 : tc_pool Unit := tc_pool_init Unit () 1

def C1_alloc0 : tc_handle × tc_pool Unit := tc_pool_alloc () C1_pool0

def C1_free0 : Bool × tc_pool Unit := tc_pool_free_slot C1_alloc0.2 C1_alloc0.1

/-- The explicit subsequent operation sequence that revalidates the
stale handle: 2^32 - 1 alloc/free rounds of slot 0, then one final
alloc. -/
def C1_stale_ops : List PoolOp := cycleOps 2 (U32 - 1) ++ [PoolOp.alloc]

/-- Claim C1, counterexample: the handle `⟨0, 1⟩` returned by the first
alloc is valid, freeing it succeeds, yet after the (astronomically long
but perfectly legal) sequence `C1_stale_ops` of alloc/free operations
the stale handle validates again — the 32-bit generation counter has
wrapped.  This refutes "is_valid(pool, h) is false for h forever,
across every subsequent sequence of alloc/free operations". -/
theorem C1_counterexample :
    tc_pool_is_valid C1_alloc0.2 C1_alloc0.1 = true ∧
    C1_free0.1 = true ∧
    tc_pool_is_valid (runOps () C1_free0.2 C1_stale_ops) C1_alloc0.1 = true := by
  refine ⟨by decide, by decide, ?_⟩
  have h0 : C1_free0.2 = Pfree 2 := by decide
  have h1 : C1_alloc0.1 = (⟨0, 1⟩ : tc_handle) := by decide
  rw [h0, h1]
  show tc_pool_is_valid (runOps () (Pfree 2) (cycleOps 2 (U32 - 1) ++ [PoolOp.alloc])) _ = true
  rw [runOps_append, run_cycleOps (U32 - 1) 2 (by norm_num [U32])]
  have h2 : (2 + (U32 - 1)) % U32 = 1 := by norm_num [U32]
  rw [h2]
  decide

/-- Claim C1 (amended): a handle returned by `tc_pool_alloc` on a
well-formed pool is valid immediately; and after a successful
`tc_pool_free_slot(pool, h)` the handle stays invalid across every
subsequent sequence of alloc/free operations that bumps slot `h.index`'s
32-bit generation counter fewer than 2^32 - 1 further times (without
that bound the claim fails by counter wraparound, see the
counterexample). -/
theorem C1_pool_handle_lifetime :
    (∀ (α : Type) (zero : α) (p : tc_pool α), poolWF p →
        tc_pool_is_valid (tc_pool_alloc zero p).2 (tc_pool_alloc zero p).1 = true) ∧
    (∀ (α : Type) (zero : α) (p : tc_pool α) (h : tc_handle) (ops : List PoolOp),
        poolWF p → (tc_pool_free_slot p h).1 = true →
        countBumps zero (tc_pool_free_slot p h).2 h.index ops < U32 - 1 →
        tc_pool_is_valid (runOps zero (tc_pool_free_slot p h).2 ops) h = false) := by
  constructor
  · intro α zero p hwf
    exact alloc_is_valid zero p hwf
  · intro α zero p h ops hwf hsucc hcnt
    obtain ⟨hgens, hcap, hgen_eq⟩ := free_success_gens p h hsucc
    have hwf' := poolWF_free p h hwf
    have hip' : h.index < (tc_pool_free_slot p h).2.capacity := by
      rw [capacity_free]; exact hcap
    have hrun := run_gens zero ops (tc_pool_free_slot p h).2 h.index hwf' hip'
    have hglt : h.generation < U32 := by
      rw [← hgen_eq]
      exact hwf.2.2.2.2 _ (getD_mem _ _ _ (by rw [hwf.2.2.1]; exact hcap))
    apply is_valid_false_of_gen_ne
    rw [hrun.1, hgens, getD_set_self _ _ _ _ (by rw [hwf.2.2.1]; exact hcap), hgen_eq,
      Nat.mod_add_mod]
    intro hcon
    have hU : U32 = 4294967296 := rfl
    rw [hU] at hcon hglt hcnt
    omega

/-- Witness for C1 at a concrete pool: allocation on a fresh 1-slot pool
yields a valid handle, and after freeing it, a further alloc does not
revalidate it. -/
theorem C1_pool_handle_lifetime_witness :
    tc_pool_is_valid (tc_pool_alloc () (tc_pool_init Unit () 1)).2
        (tc_pool_alloc () (tc_pool_init Unit () 1)).1 = true ∧
    tc_pool_is_valid
        (runOps ()
          (tc_pool_free_slot (tc_pool_alloc () (tc_pool_init Unit () 1)).2
            (tc_pool_alloc () (tc_pool_init Unit () 1)).1).2 [PoolOp.alloc])
        (tc_pool_alloc () (tc_pool_init Unit () 1)).1 = false :=
  ⟨C1_pool_handle_lifetime.1 Unit () (tc_pool_init Unit () 1) (by decide),
   C1_pool_handle_lifetime.2 Unit () (tc_pool_alloc () (tc_pool_init Unit () 1)).2
     (tc_pool_alloc () (tc_pool_init Unit () 1)).1 [PoolOp.alloc]
     (by decide) (by decide) (by decide)⟩

/-!
## ResourceMap (tc_resource_map.c)

Open-addressed hash table with tombstones.  `value` is the stored
`void*` modelled as a `Nat` (`0` models a NULL pointer; the registries
store packed indices `index + 1`, never 0).  The C probe position is
`(idx + i) & mask` with `mask = capacity - 1`; capacities are always
powers of two (16 initially, doubling on resize), for which this equals
`(idx + i) % capacity`, which is how the model writes it.  The optional
destructor callback of `tc_resource_map_new` is NULL in every registry
use and is not modelled (it only frees heap payloads, never map state).
`calloc`/`strdup` are assumed to succeed.
-/

inductive EntryState where
  | empty : EntryState
  | occupied : EntryState
  | deleted : EntryState
deriving DecidableEq, Repr

/-- `resource_entry` from tc_resource_map.c; `key = none` models the
NULL key of empty/deleted entries. -/
structure resource_entry where
  key : Option String
  value : Nat
  state : EntryState
deriving DecidableEq, Repr

def emptyEntry : resource_entry := ⟨none, 0, .empty⟩

structure tc_resource_map where
  entries : List resource_entry
  capacity : Nat
  count : Nat
  deleted : Nat
deriving DecidableEq, Repr

/-- One FNV-1a step: `hash ^= byte; hash *= 0x100000001b3` on uint64. -/
def fnv_step (h b : Nat) : Nat := ((h ^^^ b) * 1099511628211) % U64

/-- FNV-1a over a byte list from a given running hash. -/
def fnvBytes (bytes : List Nat) (h : Nat) : Nat := bytes.foldl fnv_step h

/-- The UTF-8 bytes of a string, as naturals. -/
def strBytes (s : String) : List Nat := s.toUTF8.data.toList.map (fun b => b.toNat)

/-- `hash_string` from tc_resource_map.c: FNV-1a-64 of the key bytes. -/
def hash_string (s : String) : Nat := fnvBytes (strBytes s) 14695981039346656037

/-- `tc_resource_map_new`: capacity 16, all entries empty. -/
def tc_resource_map_new : tc_resource_map :=
  ⟨List.replicate 16 emptyEntry, 16, 0, 0⟩

/-- An entry is a live binding for key `k` (the C test
`e->state == ENTRY_OCCUPIED && strcmp(e->key, uuid) == 0`). -/
def entryMatches (e : resource_entry) (k : String) : Prop :=
  e.state = .occupied ∧ e.key = some k

instance entryMatches_decidable (e : resource_entry) (k : String) :
    Decidable (entryMatches e k) := by
  unfold entryMatches
  infer_instance

/-- The probe loop of `tc_resource_map_get`: `i` is the current probe
offset, `fuel` the remaining iterations (the C loop runs `capacity`
times).  Returns the stored value, or 0 (NULL) if not found. -/
def mapGetLoop (entries : List resource_entry) (cap : Nat) (k : String) (idx : Nat) :
    Nat → Nat → Nat
  | _, 0 => 0
  | i, fuel + 1 =>
      let e := entries.getD ((idx + i) % cap) emptyEntry
      if e.state = .empty then 0
      else if entryMatches e k then e.value
      else mapGetLoop entries cap k idx (i + 1) fuel

/-- `tc_resource_map_get`. -/
def tc_resource_map_get (m : tc_resource_map) (k : String) : Nat :=
  mapGetLoop m.entries m.capacity k (hash_string k % m.capacity) 0 m.capacity

/-- `tc_resource_map_contains`: the C code tests `get(...) != NULL`. -/
def tc_resource_map_contains (m : tc_resource_map) (k : String) : Bool :=
  tc_resource_map_get m k != 0

/-- The probe loop of `tc_resource_map_remove`. -/
def mapRemoveLoop (entries : List resource_entry) (cap : Nat) (k : String) (idx : Nat) :
    Nat → Nat → Bool × List resource_entry
  | _, 0 => (false, entries)
  | i, fuel + 1 =>
      let p := (idx + i) % cap
      let e := entries.getD p emptyEntry
      if e.state = .empty then (false, entries)
      else if entryMatches e k then
        (true, entries.set p ⟨none, 0, .deleted⟩)
      else mapRemoveLoop entries cap k idx (i + 1) fuel

/-- `tc_resource_map_remove`: tombstone the entry, `count--`,
`deleted++`. -/
def tc_resource_map_remove (m : tc_resource_map) (k : String) : Bool × tc_resource_map :=
  match mapRemoveLoop m.entries m.capacity k (hash_string k % m.capacity) 0 m.capacity with
  | (true, es) => (true, { m with entries := es, count := m.count - 1, deleted := m.deleted + 1 })
  | (false, _) => (false, m)

/-- The insert loop of `map_resize`: place at the first truly empty slot
along the probe chain. -/
def resizeInsertLoop (entries : List resource_entry) (cap : Nat) (key : String)
    (value : Nat) (idx : Nat) : Nat → Nat → List resource_entry × Bool
  | _, 0 => (entries, false)
  | i, fuel + 1 =>
      let p := (idx + i) % cap
      if (entries.getD p emptyEntry).state = .empty then
        (entries.set p ⟨some key, value, .occupied⟩, true)
      else resizeInsertLoop entries cap key value idx (i + 1) fuel

/-- One reinsertion step of `map_resize`'s rehash loop. -/
def resizeStep (new_capacity : Nat) (acc : List resource_entry × Nat)
    (e : resource_entry) : List resource_entry × Nat :=
  if e.state = .occupied then
    match e.key with
    | some k =>
        match resizeInsertLoop acc.1 new_capacity k e.value
            (hash_string k % new_capacity) 0 new_capacity with
        | (es, true) => (es, acc.2 + 1)
        | (es, false) => (es, acc.2)
    | none => acc
  else acc

/-- `map_resize`: rehash every occupied entry into a fresh table,
dropping tombstones; `count` counts the reinsertions.  (An occupied
entry with a NULL key cannot arise; the model skips it.) -/
def map_resize (m : tc_resource_map) (new_capacity : Nat) : tc_resource_map :=
  let r := m.entries.foldl (resizeStep new_capacity) (List.replicate new_capacity emptyEntry, 0)
  { entries := r.1, capacity := new_capacity, count := r.2, deleted := 0 }

/-- The probe loop of `tc_resource_map_add`: remembers the first
tombstone seen and prefers it over the terminating empty slot.  Returns
(success, entries, used-a-tombstone). -/
def mapAddLoop (entries : List resource_entry) (cap : Nat) (k : String) (v : Nat)
    (idx : Nat) : Option Nat → Nat → Nat → Bool × List resource_entry × Bool
  | _, _, 0 => (false, entries, false)
  | fd, i, fuel + 1 =>
      let p := (idx + i) % cap
      let e := entries.getD p emptyEntry
      if e.state = .empty then
        match fd with
        | some d => (true, entries.set d ⟨some k, v, .occupied⟩, true)
        | none => (true, entries.set p ⟨some k, v, .occupied⟩, false)
      else if e.state = .deleted then
        mapAddLoop entries cap k v idx (fd.orElse (fun _ => some p)) (i + 1) fuel
      else
        mapAddLoop entries cap k v idx fd (i + 1) fuel

/-- The load-factor check of `tc_resource_map_add`: resize to double
capacity when `(count + deleted) * 10 > capacity * 7`. -/
def mapMaybeResize (m : tc_resource_map) : tc_resource_map :=
  if (m.count + m.deleted) * 10 > m.capacity * 7
  then map_resize m (m.capacity * 2) else m

/-- `tc_resource_map_add`: duplicate keys fail; resize at 70% load
(tombstones included); insert at the first empty slot or recycle the
first tombstone on the probe path. -/
def tc_resource_map_add (m : tc_resource_map) (k : String) (v : Nat) :
    Bool × tc_resource_map :=
  if tc_resource_map_contains m k then (false, m)
  else
    let m2 := mapMaybeResize m
    match mapAddLoop m2.entries m2.capacity k v (hash_string k % m2.capacity) none 0 m2.capacity with
    | (true, es, usedDel) =>
        (true, { m2 with
                  entries := es
                  count := m2.count + 1
                  deleted := m2.deleted - (if usedDel then 1 else 0) })
    | (false, _, _) => (false, m2)

/-- Well-formedness of a map state: parallel bookkeeping is accurate and
live keys are unique.  Established for `tc_resource_map_new` and
preserved by add/remove (the claims take it as a hypothesis). -/
def MapWF (m : tc_resource_map) : Prop :=
  m.entries.length = m.capacity ∧
  0 < m.capacity ∧
  m.count = m.entries.countP (fun e => e.state == .occupied) ∧
  m.deleted = m.entries.countP (fun e => e.state == .deleted) ∧
  (∀ i < m.entries.length, ∀ j < m.entries.length, i ≠ j →
    ¬((m.entries.getD i emptyEntry).state = .occupied ∧
      (m.entries.getD j emptyEntry).state = .occupied ∧
      (m.entries.getD i emptyEntry).key = (m.entries.getD j emptyEntry).key))

instance mapWF_decidable (m : tc_resource_map) : Decidable (MapWF m) := by
  unfold MapWF
  infer_instance

/-! ### Probe-chain reasoning -/

theorem getD_oob {α : Type} (l : List α) (i : Nat) (d : α) (h : l.length ≤ i) :
    l.getD i d = d := by
  simp [List.getD, List.getElem?_eq_none h]

/-- Probing is injective over one sweep of the table. -/
theorem probe_inj (cap idx : Nat) {j jt : Nat} (hj : j < cap) (hjt : jt < cap)
    (heq : (idx + j) % cap = (idx + jt) % cap) : j = jt := by
  have h : j ≡ jt [MOD cap] := Nat.ModEq.add_left_cancel' idx heq
  unfold Nat.ModEq at h
  rwa [Nat.mod_eq_of_lt hj, Nat.mod_eq_of_lt hjt] at h

/-- Every position of the table is on the probe chain. -/
theorem exists_probe_offset (cap idx p : Nat) (hcap : 0 < cap) (hp : p < cap) :
    ∃ j, j < cap ∧ (idx + j) % cap = p := by
  have hr : idx % cap < cap := Nat.mod_lt _ hcap
  refine ⟨if idx % cap ≤ p then p - idx % cap else p + cap - idx % cap, by split <;> omega, ?_⟩
  rw [Nat.add_mod]
  split
  · rename_i hle
    rw [Nat.mod_eq_of_lt (show p - idx % cap < cap by omega),
      show idx % cap + (p - idx % cap) = p by omega]
    exact Nat.mod_eq_of_lt hp
  · rename_i hgt
    rw [Nat.mod_eq_of_lt (show p + cap - idx % cap < cap by omega),
      show idx % cap + (p + cap - idx % cap) = p + cap by omega,
      Nat.add_mod_right]
    exact Nat.mod_eq_of_lt hp

/-- If no live binding for `k` exists anywhere, the get loop returns 0
(NULL). -/
theorem getLoop_zero_of_no_match (entries : List resource_entry) (cap : Nat)
    (k : String) (idx : Nat)
    (hno : ∀ p < entries.length, ¬ entryMatches (entries.getD p emptyEntry) k) :
    ∀ fuel i, mapGetLoop entries cap k idx i fuel = 0 := by
  intro fuel
  induction fuel with
  | zero => intro i; rfl
  | succ fuel ih =>
      intro i
      simp only [mapGetLoop]
      by_cases h1 : (entries.getD ((idx + i) % cap) emptyEntry).state = .empty
      · rw [if_pos h1]
      · rw [if_neg h1]
        have hp : (idx + i) % cap < entries.length := by
          by_contra hge
          push_neg at hge
          rw [getD_oob _ _ _ hge] at h1
          exact h1 rfl
        rw [if_neg (hno _ hp)]
        exact ih (i + 1)

/-- The get loop only looks at emptiness, matching and the matched
value of each probed entry; two tables that agree on those agree on the
result. -/
theorem getLoop_congr (entries entries2 : List resource_entry) (cap : Nat)
    (k : String) (idx : Nat)
    (hequiv : ∀ p,
      ((entries.getD p emptyEntry).state = .empty ↔
        (entries2.getD p emptyEntry).state = .empty) ∧
      (entryMatches (entries.getD p emptyEntry) k ↔
        entryMatches (entries2.getD p emptyEntry) k) ∧
      (entryMatches (entries.getD p emptyEntry) k →
        (entries.getD p emptyEntry).value = (entries2.getD p emptyEntry).value)) :
    ∀ fuel i, mapGetLoop entries cap k idx i fuel = mapGetLoop entries2 cap k idx i fuel := by
  intro fuel
  induction fuel with
  | zero => intro i; rfl
  | succ fuel ih =>
      intro i
      obtain ⟨hemp, hmat, hval⟩ := hequiv ((idx + i) % cap)
      simp only [mapGetLoop]
      by_cases h1 : (entries.getD ((idx + i) % cap) emptyEntry).state = .empty
      · rw [if_pos h1, if_pos (hemp.mp h1)]
      · rw [if_neg h1, if_neg (fun h => h1 (hemp.mpr h))]
        by_cases h2 : entryMatches (entries.getD ((idx + i) % cap) emptyEntry) k
        · rw [if_pos h2, if_pos (hmat.mp h2)]
          exact hval h2
        · rw [if_neg h2, if_neg (fun h => h2 (hmat.mpr h))]
          exact ih (i + 1)

/-- A failing remove loop does not touch the table. -/
theorem removeLoop_fail (entries : List resource_entry) (cap : Nat) (k : String)
    (idx : Nat) :
    ∀ fuel i, (mapRemoveLoop entries cap k idx i fuel).1 = false →
      (mapRemoveLoop entries cap k idx i fuel).2 = entries := by
  intro fuel
  induction fuel with
  | zero => intro i _; rfl
  | succ fuel ih =>
      intro i hfail
      simp only [mapRemoveLoop] at hfail ⊢
      by_cases h1 : (entries.getD ((idx + i) % cap) emptyEntry).state = .empty
      · rw [if_pos h1]
      · rw [if_neg h1] at hfail ⊢
        by_cases h2 : entryMatches (entries.getD ((idx + i) % cap) emptyEntry) k
        · rw [if_pos h2] at hfail
          simp at hfail
        · rw [if_neg h2] at hfail ⊢
          exact ih (i + 1) hfail

/-- A successful remove tombstones exactly one live binding of `k`. -/
theorem removeLoop_success (entries : List resource_entry) (cap : Nat) (k : String)
    (idx : Nat) :
    ∀ fuel i es, mapRemoveLoop entries cap k idx i fuel = (true, es) →
      ∃ q, q < entries.length ∧ entryMatches (entries.getD q emptyEntry) k ∧
        es = entries.set q ⟨none, 0, .deleted⟩ := by
  intro fuel
  induction fuel with
  | zero =>
      intro i es heq
      simp [mapRemoveLoop] at heq
  | succ fuel ih =>
      intro i es heq
      simp only [mapRemoveLoop] at heq
      by_cases h1 : (entries.getD ((idx + i) % cap) emptyEntry).state = .empty
      · rw [if_pos h1] at heq
        simp at heq
      · rw [if_neg h1] at heq
        by_cases h2 : entryMatches (entries.getD ((idx + i) % cap) emptyEntry) k
        · rw [if_pos h2] at heq
          simp only [Prod.mk.injEq] at heq
          refine ⟨(idx + i) % cap, ?_, h2, heq.2.symm⟩
          by_contra hge
          push_neg at hge
          rw [getD_oob _ _ _ hge] at h1
          exact h1 rfl
        · rw [if_neg h2] at heq
          exact ih (i + 1) es heq

/-- If some probed slot within the remaining fuel is empty, the add
loop succeeds. -/
theorem addLoop_success (entries : List resource_entry) (cap : Nat) (k : String)
    (v : Nat) (idx : Nat) :
    ∀ fuel i fd,
      (∃ j, j < fuel ∧ (entries.getD ((idx + i + j) % cap) emptyEntry).state = .empty) →
      (mapAddLoop entries cap k v idx fd i fuel).1 = true := by
  intro fuel
  induction fuel with
  | zero =>
      intro i fd ⟨j, hj, _⟩
      omega
  | succ fuel ih =>
      intro i fd ⟨j, hj, hemp⟩
      simp only [mapAddLoop]
      by_cases h1 : (entries.getD ((idx + i) % cap) emptyEntry).state = .empty
      · rw [if_pos h1]
        cases fd <;> rfl
      · rw [if_neg h1]
        have hj0 : j ≠ 0 := by
          intro h0
          subst h0
          rw [Nat.add_zero] at hemp
          exact h1 hemp
        have hrec : ∃ j2, j2 < fuel ∧
            (entries.getD ((idx + (i + 1) + j2) % cap) emptyEntry).state = .empty := by
          refine ⟨j - 1, by omega, ?_⟩
          rw [show idx + (i + 1) + (j - 1) = idx + i + j by omega]
          exact hemp
        by_cases h2 : (entries.getD ((idx + i) % cap) emptyEntry).state = .deleted
        · rw [if_pos h2]
          exact ih (i + 1) _ hrec
        · rw [if_neg h2]
          exact ih (i + 1) fd hrec

/-- A successful add writes the new binding at a single position on the
probe chain, and every strictly earlier chain position is non-empty. -/
theorem addLoop_insert_spec (entries : List resource_entry) (cap : Nat) (k : String)
    (v : Nat) (idx : Nat) :
    ∀ fuel i fd,
      (∀ j < i, (entries.getD ((idx + j) % cap) emptyEntry).state ≠ .empty) →
      (∀ d, fd = some d → ∃ jd, jd < i ∧ (idx + jd) % cap = d ∧
          (entries.getD d emptyEntry).state = .deleted) →
      ∀ es ud, mapAddLoop entries cap k v idx fd i fuel = (true, es, ud) →
      ∃ jt, jt < i + fuel ∧ es = entries.set ((idx + jt) % cap) ⟨some k, v, .occupied⟩ ∧
        ∀ j < jt, (entries.getD ((idx + j) % cap) emptyEntry).state ≠ .empty := by
  intro fuel
  induction fuel with
  | zero =>
      intro i fd _ _ es ud heq
      simp [mapAddLoop] at heq
  | succ fuel ih =>
      intro i fd hpre hfd es ud heq
      simp only [mapAddLoop] at heq
      by_cases h1 : (entries.getD ((idx + i) % cap) emptyEntry).state = .empty
      · rw [if_pos h1] at heq
        cases hfde : fd with
        | some d =>
            rw [hfde] at heq
            simp only [Prod.mk.injEq] at heq
            obtain ⟨jd, hjd, hd, _⟩ := hfd d hfde
            refine ⟨jd, by omega, ?_, fun j hj => hpre j (by omega)⟩
            rw [hd]
            exact heq.2.1.symm
        | none =>
            rw [hfde] at heq
            simp only [Prod.mk.injEq] at heq
            exact ⟨i, by omega, heq.2.1.symm, fun j hj => hpre j hj⟩
      · rw [if_neg h1] at heq
        have hpre' : ∀ j < i + 1,
            (entries.getD ((idx + j) % cap) emptyEntry).state ≠ .empty := by
          intro j hj
          rcases Nat.lt_succ_iff_lt_or_eq.mp hj with hj | rfl
          · exact hpre j hj
          · exact h1
        by_cases h2 : (entries.getD ((idx + i) % cap) emptyEntry).state = .deleted
        · rw [if_pos h2] at heq
          have hfd' : ∀ d, fd.orElse (fun _ => some ((idx + i) % cap)) = some d →
              ∃ jd, jd < i + 1 ∧ (idx + jd) % cap = d ∧
                (entries.getD d emptyEntry).state = .deleted := by
            intro d hd
            cases hfde : fd with
            | some d0 =>
                rw [hfde] at hd
                have hdd : d0 = d := by simpa [Option.orElse] using hd
                obtain ⟨jd, hjd, hrest⟩ := hfd d (hdd ▸ hfde)
                exact ⟨jd, by omega, hrest⟩
            | none =>
                rw [hfde] at hd
                have hdd : (idx + i) % cap = d := by simpa [Option.orElse] using hd
                exact ⟨i, by omega, hdd, hdd ▸ h2⟩
          obtain ⟨jt, hjt, hes, hjpre⟩ := ih (i + 1) _ hpre' hfd' es ud heq
          exact ⟨jt, by omega, hes, hjpre⟩
        · rw [if_neg h2] at heq
          have hfd' : ∀ d, fd = some d → ∃ jd, jd < i + 1 ∧ (idx + jd) % cap = d ∧
              (entries.getD d emptyEntry).state = .deleted := by
            intro d hd
            obtain ⟨jd, hjd, hrest⟩ := hfd d hd
            exact ⟨jd, by omega, hrest⟩
          obtain ⟨jt, hjt, hes, hjpre⟩ := ih (i + 1) fd hpre' hfd' es ud heq
          exact ⟨jt, by omega, hes, hjpre⟩

/-- If a live binding of `k` with value `v` sits at chain offset `jt`
and every earlier chain slot is non-empty and not a `k` binding, the
get loop returns `v`. -/
theorem getLoop_finds (entries : List resource_entry) (cap : Nat) (k : String)
    (idx v : Nat) :
    ∀ fuel i jt, jt < fuel →
      entryMatches (entries.getD ((idx + i + jt) % cap) emptyEntry) k →
      (entries.getD ((idx + i + jt) % cap) emptyEntry).value = v →
      (∀ j < jt, (entries.getD ((idx + i + j) % cap) emptyEntry).state ≠ .empty ∧
        ¬ entryMatches (entries.getD ((idx + i + j) % cap) emptyEntry) k) →
      mapGetLoop entries cap k idx i fuel = v := by
  intro fuel
  induction fuel with
  | zero => intro i jt hjt; omega
  | succ fuel ih =>
      intro i jt hjt hmatch hval hpre
      simp only [mapGetLoop]
      by_cases hjt0 : jt = 0
      · subst hjt0
        rw [Nat.add_zero] at hmatch hval
        rw [if_neg (by rw [hmatch.1]; simp), if_pos hmatch]
        exact hval
      · obtain ⟨hne, hnm⟩ := hpre 0 (by omega)
        rw [Nat.add_zero] at hne hnm
        rw [if_neg hne, if_neg hnm]
        apply ih (i + 1) (jt - 1) (by omega)
        · rw [show idx + (i + 1) + (jt - 1) = idx + i + jt by omega]
          exact hmatch
        · rw [show idx + (i + 1) + (jt - 1) = idx + i + jt by omega]
          exact hval
        · intro j hj
          rw [show idx + (i + 1) + j = idx + i + (j + 1) by omega]
          exact hpre (j + 1) (by omega)

/-! ### Counting lemmas -/

theorem set_oob {α : Type} (l : List α) (q : Nat) (e : α) (h : l.length ≤ q) :
    l.set q e = l := by
  induction l generalizing q with
  | nil => rfl
  | cons a l ih =>
      cases q with
      | zero => simp at h
      | succ q =>
          simp only [List.set]
          rw [ih q (by simpa using h)]

theorem countP_set_eq (p : resource_entry → Bool) (e : resource_entry) :
    ∀ (l : List resource_entry) (q : Nat), q < l.length →
      (l.set q e).countP p + (if p (l.getD q emptyEntry) then 1 else 0) =
        l.countP p + (if p e then 1 else 0) := by
  intro l
  induction l with
  | nil => intro q hq; simp at hq
  | cons a l ih =>
      intro q hq
      cases q with
      | zero =>
          simp only [List.set, List.countP_cons, List.getD_cons_zero]
          omega
      | succ q =>
          simp only [List.set, List.countP_cons, List.getD_cons_succ]
          have := ih q (by simpa using hq)
          omega

theorem countP_set_le (p : resource_entry → Bool) (e : resource_entry)
    (l : List resource_entry) (q : Nat) :
    (l.set q e).countP p ≤ l.countP p + 1 := by
  by_cases hq : q < l.length
  · have heq := countP_set_eq p e l q hq
    have h1 : (if p (l.getD q emptyEntry) then 1 else 0) ≤ 1 := by split <;> omega
    have h2 : (if p e then 1 else 0) ≤ 1 := by split <;> omega
    omega
  · rw [set_oob l q e (by omega)]
    omega

/-- Slot states partition the table. -/
theorem state_partition :
    ∀ l : List resource_entry,
      l.countP (fun e => e.state == .occupied) +
        l.countP (fun e => e.state == .deleted) +
        l.countP (fun e => e.state == .empty) = l.length := by
  intro l
  induction l with
  | nil => rfl
  | cons a l ih =>
      simp only [List.countP_cons, List.length_cons]
      cases ha : a.state <;> simp [ha] <;> omega

/-- A positive empty-count yields an empty slot at a concrete index. -/
theorem exists_empty_slot (l : List resource_entry)
    (h : 0 < l.countP (fun e => e.state == .empty)) :
    ∃ p, p < l.length ∧ (l.getD p emptyEntry).state = .empty := by
  obtain ⟨e, hmem, hp⟩ := List.countP_pos_iff.mp h
  obtain ⟨i, hi, rfl⟩ := List.mem_iff_getElem.mp hmem
  refine ⟨i, hi, ?_⟩
  rw [List.getD_eq_getElem l emptyEntry hi]
  simpa using hp

/-! ### Resize lemmas -/

/-- The rehash insert loop either changes nothing (and reports false)
or writes the binding over one empty slot (and reports true). -/
theorem resizeInsertLoop_spec (entries : List resource_entry) (cap : Nat)
    (key : String) (v idx : Nat) :
    ∀ fuel i,
      resizeInsertLoop entries cap key v idx i fuel = (entries, false) ∨
      ∃ t, (entries.getD t emptyEntry).state = .empty ∧
        resizeInsertLoop entries cap key v idx i fuel =
          (entries.set t ⟨some key, v, .occupied⟩, true) := by
  intro fuel
  induction fuel with
  | zero => intro i; exact Or.inl rfl
  | succ fuel ih =>
      intro i
      simp only [resizeInsertLoop]
      by_cases h1 : (entries.getD ((idx + i) % cap) emptyEntry).state = .empty
      · rw [if_pos h1]
        exact Or.inr ⟨(idx + i) % cap, h1, rfl⟩
      · rw [if_neg h1]
        exact ih (i + 1)

/-- One resize step: the table length is preserved, the running count
grows by at most 1 and only for occupied entries, and the occupied/
deleted counts stay bounded by the running count. -/
theorem resizeStep_facts (cap : Nat) (acc : List resource_entry × Nat)
    (e : resource_entry) :
    (resizeStep cap acc e).1.length = acc.1.length ∧
    (resizeStep cap acc e).2 ≤ acc.2 + (if e.state == .occupied then 1 else 0) ∧
    ((resizeStep cap acc e).1.countP (fun x => x.state == .occupied) +
        (resizeStep cap acc e).1.countP (fun x => x.state == .deleted) ≤
      acc.1.countP (fun x => x.state == .occupied) +
        acc.1.countP (fun x => x.state == .deleted) +
        ((resizeStep cap acc e).2 - acc.2)) ∧
    acc.2 ≤ (resizeStep cap acc e).2 := by
  unfold resizeStep
  by_cases ho : e.state = .occupied
  · rw [if_pos ho]
    cases hk : e.key with
    | none => simp [ho]
    | some k =>
        dsimp only
        rcases resizeInsertLoop_spec acc.1 cap k e.value (hash_string k % cap) cap 0 with
          hspec | ⟨t, htemp, hspec⟩
        · rw [hspec]
          dsimp only
          simp [ho]
        · rw [hspec]
          dsimp only
          refine ⟨List.length_set .., by simp [ho], ?_, by simp⟩
          by_cases ht : t < acc.1.length
          · have hocc := countP_set_eq (fun x => x.state == .occupied)
              ⟨some k, e.value, .occupied⟩ acc.1 t ht
            have hdel := countP_set_eq (fun x => x.state == .deleted)
              ⟨some k, e.value, .occupied⟩ acc.1 t ht
            simp only [htemp] at hocc hdel
            simp only [show ((⟨some k, e.value, .occupied⟩ : resource_entry).state ==
              EntryState.occupied) = true by rfl] at hocc
            simp only [show ((⟨some k, e.value, .occupied⟩ : resource_entry).state ==
              EntryState.deleted) = false by rfl] at hdel
            simp only [show (EntryState.empty == EntryState.occupied) = false by rfl] at hocc
            simp only [show (EntryState.empty == EntryState.deleted) = false by rfl] at hdel
            simp only [if_true, if_false] at hocc hdel
            omega
          · rw [set_oob _ _ _ (by omega)]
            omega
  · rw [if_neg ho]
    have : (e.state == EntryState.occupied) = false := by
      cases he : e.state <;> simp_all
    simp [this]

/-- Facts about the full rehash fold, by induction over the source
entries. -/
theorem resize_fold_facts (cap : Nat) :
    ∀ (l : List resource_entry) (acc : List resource_entry × Nat),
      (l.foldl (resizeStep cap) acc).1.length = acc.1.length ∧
      (l.foldl (resizeStep cap) acc).2 ≤
        acc.2 + l.countP (fun e => e.state == .occupied) ∧
      ((l.foldl (resizeStep cap) acc).1.countP (fun x => x.state == .occupied) +
          (l.foldl (resizeStep cap) acc).1.countP (fun x => x.state == .deleted) ≤
        acc.1.countP (fun x => x.state == .occupied) +
          acc.1.countP (fun x => x.state == .deleted) +
          ((l.foldl (resizeStep cap) acc).2 - acc.2)) ∧
      acc.2 ≤ (l.foldl (resizeStep cap) acc).2 := by
  intro l
  induction l with
  | nil => intro acc; simp
  | cons e l ih =>
      intro acc
      simp only [List.foldl_cons, List.countP_cons]
      obtain ⟨hL1, hL2, hL3, hL4⟩ := resizeStep_facts cap acc e
      obtain ⟨hI1, hI2, hI3, hI4⟩ := ih (resizeStep cap acc e)
      refine ⟨by rw [hI1, hL1], by omega, by omega, by omega⟩

/-- Any live `k` binding in the rehashed table comes from a live `k`
binding among the source entries. -/
theorem resize_fold_matches (cap : Nat) (k : String) (src : List resource_entry) :
    ∀ (l : List resource_entry) (acc : List resource_entry × Nat),
      (∀ e ∈ l, e ∈ src) →
      (∀ p, entryMatches (acc.1.getD p emptyEntry) k →
        ∃ e ∈ src, e.state = .occupied ∧ e.key = some k) →
      ∀ p, entryMatches ((l.foldl (resizeStep cap) acc).1.getD p emptyEntry) k →
        ∃ e ∈ src, e.state = .occupied ∧ e.key = some k := by
  intro l
  induction l with
  | nil =>
      intro acc _ hinv p
      exact hinv p
  | cons e l ih =>
      intro acc hsub hinv
      simp only [List.foldl_cons]
      apply ih (resizeStep cap acc e) (fun x hx => hsub x (List.mem_cons_of_mem e hx))
      intro p hp
      unfold resizeStep at hp
      by_cases ho : e.state = .occupied
      · rw [if_pos ho] at hp
        cases hk : e.key with
        | none =>
            rw [hk] at hp
            exact hinv p hp
        | some k0 =>
            rw [hk] at hp
            dsimp only at hp
            rcases resizeInsertLoop_spec acc.1 cap k0 e.value (hash_string k0 % cap) cap 0 with
              hspec | ⟨t, _, hspec⟩
            · rw [hspec] at hp
              dsimp only at hp
              exact hinv p hp
            · rw [hspec] at hp
              dsimp only at hp
              by_cases hpt : p = t
              · subst hpt
                by_cases hlt : p < acc.1.length
                · rw [getD_set_self _ _ _ _ hlt] at hp
                  have : k0 = k := by
                    have := hp.2
                    simpa using this
                  exact ⟨e, hsub e (List.mem_cons_self e l), ho, by rw [hk, this]⟩
                · rw [set_oob _ _ _ (by omega)] at hp
                  exact hinv p hp
              · rw [getD_set_ne _ _ _ _ _ (fun hh => hpt hh.symm)] at hp
                exact hinv p hp
      · rw [if_neg ho] at hp
        exact hinv p hp

theorem getD_replicate {α : Type} (n : Nat) (a : α) (p : Nat) :
    (List.replicate n a).getD p a = a := by
  by_cases hp : p < n
  · rw [List.getD_eq_getElem _ _ (by simpa using hp)]
    simp
  · exact getD_oob _ _ _ (by simpa using hp)

/-- After the optional resize, the table still has an empty slot, no
live `k` binding (given the original had none), and accurate shape. -/
theorem maybeResize_facts (m : tc_resource_map) (k : String)
    (hlen : m.entries.length = m.capacity) (hcap : 0 < m.capacity)
    (hcount : m.count = m.entries.countP (fun e => e.state == .occupied))
    (hdel : m.deleted = m.entries.countP (fun e => e.state == .deleted))
    (hno : ∀ p < m.entries.length, ¬ entryMatches (m.entries.getD p emptyEntry) k) :
    (mapMaybeResize m).entries.length = (mapMaybeResize m).capacity ∧
    0 < (mapMaybeResize m).capacity ∧
    (∃ p, p < (mapMaybeResize m).entries.length ∧
      ((mapMaybeResize m).entries.getD p emptyEntry).state = .empty) ∧
    (∀ p < (mapMaybeResize m).entries.length,
      ¬ entryMatches ((mapMaybeResize m).entries.getD p emptyEntry) k) := by
  unfold mapMaybeResize
  split
  · rename_i hload
    unfold map_resize
    dsimp only
    obtain ⟨hF1, hF2, hF3, hF4⟩ := resize_fold_facts (m.capacity * 2) m.entries
      (List.replicate (m.capacity * 2) emptyEntry, 0)
    set r := m.entries.foldl (resizeStep (m.capacity * 2))
      (List.replicate (m.capacity * 2) emptyEntry, 0) with hrdef
    have hrep_occ : (List.replicate (m.capacity * 2) emptyEntry).countP
        (fun x => x.state == .occupied) = 0 :=
      List.countP_eq_zero.mpr (fun e he => by
        rw [List.eq_of_mem_replicate he]; decide)
    have hrep_del : (List.replicate (m.capacity * 2) emptyEntry).countP
        (fun x => x.state == .deleted) = 0 :=
      List.countP_eq_zero.mpr (fun e he => by
        rw [List.eq_of_mem_replicate he]; decide)
    have hlen2 : r.1.length = m.capacity * 2 := by
      rw [hF1]
      simp
    refine ⟨hlen2, by omega, ?_, ?_⟩
    · -- an empty slot exists in the rehashed table
      have hocc_le : m.entries.countP (fun e => e.state == .occupied) ≤ m.entries.length :=
        List.countP_le_length _
      have hbound : r.1.countP (fun x => x.state == .occupied) +
          r.1.countP (fun x => x.state == .deleted) < m.capacity * 2 := by
        have := hF3
        rw [hrep_occ, hrep_del] at this
        omega
      have hpart := state_partition r.1
      rw [hlen2] at hpart
      obtain ⟨p, hp, hpe⟩ := exists_empty_slot r.1 (by omega)
      exact ⟨p, hp, hpe⟩
    · intro p hp hm
      have := resize_fold_matches (m.capacity * 2) k m.entries m.entries
        (List.replicate (m.capacity * 2) emptyEntry, 0) (fun e he => he)
        (by
          intro p2 hp2
          rw [getD_replicate] at hp2
          exact absurd hp2.1 (by simp [emptyEntry]))
        p hm
      obtain ⟨e, hmem, hocc, hkey⟩ := this
      obtain ⟨i, hi, rfl⟩ := List.mem_iff_getElem.mp hmem
      apply hno i hi
      rw [List.getD_eq_getElem _ _ hi]
      exact ⟨hocc, hkey⟩
  · rename_i hload
    push_neg at hload
    refine ⟨hlen, hcap, ?_, hno⟩
    have hpart := state_partition m.entries
    rw [hlen] at hpart
    obtain ⟨p, hp, hpe⟩ := exists_empty_slot m.entries (by omega)
    exact ⟨p, hp, hpe⟩

/-- Core of a successful add: the loop succeeds and a subsequent get
of the same key returns the stored value. -/
theorem addLoop_core (entries : List resource_entry) (cap : Nat) (k : String) (v : Nat)
    (hlen : entries.length = cap) (hcap : 0 < cap)
    (hempty : ∃ p, p < entries.length ∧ (entries.getD p emptyEntry).state = .empty)
    (hno : ∀ p < entries.length, ¬ entryMatches (entries.getD p emptyEntry) k) :
    (mapAddLoop entries cap k v (hash_string k % cap) none 0 cap).1 = true ∧
    mapGetLoop (mapAddLoop entries cap k v (hash_string k % cap) none 0 cap).2.1 cap k
      (hash_string k % cap) 0 cap = v := by
  set idx := hash_string k % cap with hidx
  obtain ⟨p, hp, hpe⟩ := hempty
  obtain ⟨j, hj, hpj⟩ := exists_probe_offset cap idx p hcap (hlen ▸ hp)
  have hsucc : (mapAddLoop entries cap k v idx none 0 cap).1 = true := by
    apply addLoop_success
    refine ⟨j, hj, ?_⟩
    rw [show idx + 0 + j = idx + j by omega, hpj]
    exact hpe
  rcases hr : mapAddLoop entries cap k v idx none 0 cap with ⟨b, es, ud⟩
  rw [hr] at hsucc
  simp only at hsucc
  subst hsucc
  obtain ⟨jt, hjt, hes, hpre⟩ := addLoop_insert_spec entries cap k v idx cap 0 none
    (fun j2 hj2 => absurd hj2 (by omega)) (fun d hd => by simp at hd) es ud hr
  rw [Nat.zero_add] at hjt
  have htlt : (idx + jt) % cap < cap := Nat.mod_lt _ hcap
  constructor
  · rfl
  · dsimp only
    apply getLoop_finds es cap k idx v cap 0 jt (by omega)
    · rw [show idx + 0 + jt = idx + jt by omega, hes,
        getD_set_self _ _ _ _ (by rw [hlen]; exact htlt)]
      exact ⟨rfl, rfl⟩
    · rw [show idx + 0 + jt = idx + jt by omega, hes,
        getD_set_self _ _ _ _ (by rw [hlen]; exact htlt)]
    · intro j2 hj2
      rw [show idx + 0 + j2 = idx + j2 by omega]
      have hne_t : (idx + jt) % cap ≠ (idx + j2) % cap := by
        intro hc
        exact absurd (probe_inj cap idx hjt (by omega) hc) (by omega)
      rw [hes, getD_set_ne _ _ _ _ _ hne_t]
      have hjlt : (idx + j2) % cap < entries.length := by
        rw [hlen]
        exact Nat.mod_lt _ hcap
      exact ⟨hpre j2 hj2, hno _ hjlt⟩

/-- A successful add of an absent key makes the key retrievable. -/
theorem map_add_found (m : tc_resource_map) (k : String) (v : Nat)
    (hlen : m.entries.length = m.capacity) (hcap : 0 < m.capacity)
    (hcount : m.count = m.entries.countP (fun e => e.state == .occupied))
    (hdel : m.deleted = m.entries.countP (fun e => e.state == .deleted))
    (hno : ∀ p < m.entries.length, ¬ entryMatches (m.entries.getD p emptyEntry) k) :
    (tc_resource_map_add m k v).1 = true ∧
    tc_resource_map_get (tc_resource_map_add m k v).2 k = v := by
  have hget0 : tc_resource_map_get m k = 0 := by
    unfold tc_resource_map_get
    exact getLoop_zero_of_no_match m.entries m.capacity k _ hno m.capacity 0
  have hcont : tc_resource_map_contains m k = false := by
    simp [tc_resource_map_contains, hget0]
  obtain ⟨h1, h2, h3, h4⟩ := maybeResize_facts m k hlen hcap hcount hdel hno
  obtain ⟨hs, hg⟩ := addLoop_core (mapMaybeResize m).entries (mapMaybeResize m).capacity
    k v h1 h2 h3 h4
  unfold tc_resource_map_add
  rw [hcont]
  simp only [Bool.false_eq_true, if_false]
  rcases hr : mapAddLoop (mapMaybeResize m).entries (mapMaybeResize m).capacity k v
    (hash_string k % (mapMaybeResize m).capacity) none 0 (mapMaybeResize m).capacity with
    ⟨b, es, ud⟩
  rw [hr] at hs hg
  simp only at hs
  subst hs
  dsimp only
  exact ⟨rfl, hg⟩

/-- Claim C9: removing key `k` from a well-formed resource map marks
its entry as a tombstone (not empty), so the probe chain of every other
key `k2` is intact and `get(map, k2)` is unchanged; after a successful
removal, `add(map, k, v)` succeeds again and a subsequent `get(map, k)`
returns `v`. -/
theorem C9_map_remove_tombstone :
    ∀ (m : tc_resource_map) (k k2 : String) (v : Nat), MapWF m → k ≠ k2 →
      tc_resource_map_get (tc_resource_map_remove m k).2 k2 = tc_resource_map_get m k2 ∧
      ((tc_resource_map_remove m k).1 = true →
        (tc_resource_map_add (tc_resource_map_remove m k).2 k v).1 = true ∧
        tc_resource_map_get (tc_resource_map_add (tc_resource_map_remove m k).2 k v).2 k = v) := by
  intro m k k2 v hwf hne
  obtain ⟨hlen, hcap, hcount, hdel, huniq⟩ := hwf
  unfold tc_resource_map_remove
  rcases hr : mapRemoveLoop m.entries m.capacity k (hash_string k % m.capacity) 0
    m.capacity with ⟨b, es⟩
  cases b with
  | false =>
      dsimp only
      exact ⟨rfl, fun h => by simp at h⟩
  | true =>
      obtain ⟨q, hq, hmq, hesq⟩ := removeLoop_success _ _ _ _ _ _ _ hr
      dsimp only
      constructor
      · -- get of any other key is unchanged
        unfold tc_resource_map_get
        dsimp only
        apply getLoop_congr
        intro p
        by_cases hpq : p = q
        · subst hpq
          rw [hesq, getD_set_self _ _ _ _ hq]
          refine ⟨⟨fun h => absurd h (by decide), fun h => absurd (hmq.1.symm.trans h) (by decide)⟩,
            ⟨fun h => absurd h.1 (by decide), fun h => ?_⟩,
            fun h => absurd h.1 (by decide)⟩
          exact absurd (Option.some_inj.mp (hmq.2.symm.trans h.2)) hne
        · rw [hesq, getD_set_ne _ _ _ _ _ (fun hh => hpq hh.symm)]
          exact ⟨Iff.rfl, Iff.rfl, fun _ => rfl⟩
      · intro _
        apply map_add_found
        · dsimp only
          rw [hesq]
          rw [List.length_set]
          exact hlen
        · exact hcap
        · dsimp only
          rw [hesq]
          have hset := countP_set_eq (fun e => e.state == .occupied)
            ⟨none, 0, .deleted⟩ m.entries q hq
          have hc1 : ((fun (e : resource_entry) => e.state == EntryState.occupied)
              (m.entries.getD q emptyEntry) = true) := by
            simpa using hmq.1
          have hc2 : ¬((fun (e : resource_entry) => e.state == EntryState.occupied)
              (⟨none, 0, .deleted⟩ : resource_entry) = true) := by decide
          rw [if_pos hc1, if_neg hc2] at hset
          omega
        · dsimp only
          rw [hesq]
          have hset := countP_set_eq (fun e => e.state == .deleted)
            ⟨none, 0, .deleted⟩ m.entries q hq
          have hc1 : ¬((fun (e : resource_entry) => e.state == EntryState.deleted)
              (m.entries.getD q emptyEntry) = true) := by
            intro hcon
            simp only [beq_iff_eq] at hcon
            rw [hmq.1] at hcon
            exact absurd hcon (by decide)
          have hc2 : ((fun (e : resource_entry) => e.state == EntryState.deleted)
              (⟨none, 0, .deleted⟩ : resource_entry) = true) := by decide
          rw [if_neg hc1, if_pos hc2] at hset
          omega
        · dsimp only
          intro p hp hm
          rw [hesq] at hm hp
          rw [List.length_set] at hp
          by_cases hpq : p = q
          · subst hpq
            rw [getD_set_self _ _ _ _ hq] at hm
            exact absurd hm.1 (by simp)
          · rw [getD_set_ne _ _ _ _ _ (fun hh => hpq hh.symm)] at hm
            exact huniq p hp q hq hpq ⟨hm.1, hmq.1, hm.2.trans hmq.2.symm⟩

/-- Witness for C9 at a concrete two-entry map. -/
theorem C9_map_remove_tombstone_witness :
    tc_resource_map_get
        (tc_resource_map_remove
          (tc_resource_map_add (tc_resource_map_add tc_resource_map_new "a" 1).2 "b" 2).2
          "a").2 "b" =
      tc_resource_map_get
        (tc_resource_map_add (tc_resource_map_add tc_resource_map_new "a" 1).2 "b" 2).2 "b" ∧
    ((tc_resource_map_remove
        (tc_resource_map_add (tc_resource_map_add tc_resource_map_new "a" 1).2 "b" 2).2
        "a").1 = true →
      (tc_resource_map_add
        (tc_resource_map_remove
          (tc_resource_map_add (tc_resource_map_add tc_resource_map_new "a" 1).2 "b" 2).2
          "a").2 "a" 3).1 = true ∧
      tc_resource_map_get
        (tc_resource_map_add
          (tc_resource_map_remove
            (tc_resource_map_add (tc_resource_map_add tc_resource_map_new "a" 1).2 "b" 2).2
            "a").2 "a" 3).2 "a" = 3) :=
  C9_map_remove_tombstone
    (tc_resource_map_add (tc_resource_map_add tc_resource_map_new "a" 1).2 "b" 2).2
    "a" "b" 3 (by decide) (by decide)

/-!
## CPU resource structures

`tc_resource_header` (tc_resource.h), `tc_texture` (tc_texture.h),
`tc_mesh` (tc_mesh.h), `tc_shader` (tc_shader.h),
`tgfx_vertex_layout` (tgfx_types.h).  Raw byte/pixel blobs are
`List Nat` (one Nat per byte); a NULL data pointer is `none`.  The C
`uint8` transform flags are `Bool` (the code only tests them against
zero).  The lazy-load callback of the header is not part of the model
(no modelled operation invokes it; `tc_mesh_ensure_loaded` is outside
the claims).
-/

structure tc_resource_header where
  uuid : String
  name : Option String
  version : Nat
  ref_count : Nat
  pool_index : Nat
  is_loaded : Bool
deriving DecidableEq, Repr

/-- `tgfx_vertex_layout`: stride plus the attribute table (carried as
opaque payload `(name, size, type, location)`; no modelled operation
inspects it). -/
structure tc_vertex_layout where
  stride : Nat
  attrib_count : Nat
  attribs : List (String × Nat × Nat × Nat)
deriving DecidableEq, Repr

def TC_TEXTURE_DEPTH24 : Nat := 6

structure tc_texture where
  header : tc_resource_header
  data : Option (List Nat)
  width : Nat
  height : Nat
  channels : Nat
  format : Nat
  flip_x : Bool
  flip_y : Bool
  transpose : Bool
  mipmap : Bool
  clamp : Bool
  compare_mode : Bool
  source_path : Option String
deriving DecidableEq, Repr

structure tc_mesh where
  header : tc_resource_header
  vertices : Option (List Nat)
  vertex_count : Nat
  indices : Option (List Nat)
  index_count : Nat
  layout : tc_vertex_layout
  draw_mode : Nat
deriving DecidableEq, Repr

structure tc_shader where
  vertex_source : Option String
  fragment_source : Option String
  geometry_source : Option String
  source_hash : String
  version : Nat
  ref_count : Nat
  uuid : String
  name : Option String
  source_path : Option String
  is_variant : Bool
  variant_op : Nat
  original_handle : tc_handle
  original_version : Nat
  features : Nat
  pool_index : Nat
deriving DecidableEq, Repr

/-!
## GPU context slots and vtable (tc_gpu_share_group.h, tc_gpu_context.h,
tgfx_gpu_ops.h)

The sync functions of tgfx_resource_gpu.c resolve the current context
and its slots; the model passes the resolved slot directly
(`none` models "no context set / slot lookup failed", which the C code
treats identically: log an error and fail).  The vtable's function
pointers are `Option`s (NULL-checked by the C code); the `void`-typed
delete callbacks only need a presence flag plus the logged call.  Every
function additionally returns the exact list of vtable calls it makes,
in order, so "zero GPU work" claims are statements about that list.
-/

structure tc_gpu_slot where
  gl_id : Nat
  version : Int
deriving DecidableEq, Repr

structure tc_gpu_mesh_data_slot where
  vbo : Nat
  ebo : Nat
  version : Int
deriving DecidableEq, Repr

structure tc_gpu_vao_slot where
  vao : Nat
  bound_vbo : Nat
  bound_ebo : Nat
deriving DecidableEq, Repr

/-- The C cast `(int32_t)tex->header.version` of a `uint32_t` value. -/
def int32_of_u32 (v : Nat) : Int :=
  if v % U32 < 2147483648 then ((v % U32 : Nat) : Int)
  else ((v % U32 : Nat) : Int) - (U32 : Int)

inductive GpuCall where
  | texture_upload (data : List Nat) (w h c : Nat) (mipmap clamp : Bool)
  | depth_texture_upload (data : List Nat) (w h : Nat) (cmp : Bool)
  | texture_delete (id : Nat)
  | shader_compile (v f : String) (g : Option String)
  | shader_delete (id : Nat)
  | mesh_upload (vertices : List Nat) (vcount : Nat) (indices : Option (List Nat))
      (icount : Nat) (layout : tc_vertex_layout)
  | mesh_create_vao (layout : tc_vertex_layout) (vbo ebo : Nat)
  | mesh_delete (id : Nat)
  | buffer_delete (id : Nat)
deriving DecidableEq, Repr

/-- `tgfx_gpu_ops` vtable.  `mesh_upload` returns (vao, out_vbo,
out_ebo) — the C signature outputs the buffer ids through pointers. -/
structure tgfx_gpu_ops where
  texture_upload : Option (List Nat → Nat → Nat → Nat → Bool → Bool → Nat)
  depth_texture_upload : Option (List Nat → Nat → Nat → Bool → Nat)
  texture_delete_present : Bool
  shader_compile : Option (String → String → Option String → Nat)
  shader_delete_present : Bool
  mesh_upload : Option (List Nat → Nat → Option (List Nat) → Nat → tc_vertex_layout →
      Nat × Nat × Nat)
  mesh_create_vao : Option (tc_vertex_layout → Nat → Nat → Nat)
  mesh_delete_present : Bool
  buffer_delete_present : Bool

/-- `tc_texture_upload_gpu` (tgfx_resource_gpu.c): returns
(result, updated context slot, vtable calls made). -/
def tc_texture_upload_gpu (ops? : Option tgfx_gpu_ops) (tex : tc_texture)
    (slot? : Option tc_gpu_slot) : Bool × Option tc_gpu_slot × List GpuCall :=
  match tex.data with
  | none => (false, slot?, [])
  | some data =>
    match ops? with
    | none => (false, slot?, [])
    | some ops =>
      match slot? with
      | none => (false, none, [])
      | some slot =>
        if slot.gl_id ≠ 0 ∧ slot.version = int32_of_u32 tex.header.version then
          (true, some slot, [])
        else
          let del : List GpuCall :=
            if slot.gl_id ≠ 0 ∧ ops.texture_delete_present
            then [.texture_delete slot.gl_id] else []
          if tex.format = TC_TEXTURE_DEPTH24 then
            match ops.depth_texture_upload with
            | none => (false, some slot, del)
            | some f =>
                let gpu_id := f data tex.width tex.height tex.compare_mode
                let calls := del ++ [.depth_texture_upload data tex.width tex.height
                  tex.compare_mode]
                if gpu_id = 0 then (false, some slot, calls)
                else (true, some ⟨gpu_id, int32_of_u32 tex.header.version⟩, calls)
          else
            match ops.texture_upload with
            | none => (false, some slot, del)
            | some f =>
                let gpu_id := f data tex.width tex.height tex.channels tex.mipmap tex.clamp
                let calls := del ++ [.texture_upload data tex.width tex.height tex.channels
                  tex.mipmap tex.clamp]
                if gpu_id = 0 then (false, some slot, calls)
                else (true, some ⟨gpu_id, int32_of_u32 tex.header.version⟩, calls)

/-- `strstr(src, "#include") != NULL`. -/
def strstr_include (s : String) : Bool := decide ("#include".data.IsInfix s.data)

/-- Source preprocessing as done by `tc_shader_compile_gpu`: invoke the
global preprocessor only when it is set and the source contains an
include marker, keeping the original on a NULL result. -/
def ppApply (pp : Option (String → String → Option String)) (name src : String) : String :=
  match pp with
  | none => src
  | some f => if strstr_include src then (f src name).getD src else src

/-- `tc_shader_compile_gpu` (tgfx_resource_gpu.c).  `pp` is the
module-global `g_shader_preprocess` (NULL until installed). -/
def tc_shader_compile_gpu (ops? : Option tgfx_gpu_ops)
    (pp : Option (String → String → Option String)) (shader : tc_shader)
    (slot? : Option tc_gpu_slot) : Nat × Option tc_gpu_slot × List GpuCall :=
  match ops? with
  | none => (0, slot?, [])
  | some ops =>
    match ops.shader_compile with
    | none => (0, slot?, [])
    | some compile =>
      match slot? with
      | none => (0, none, [])
      | some slot =>
        if slot.gl_id ≠ 0 ∧ slot.version = int32_of_u32 shader.version then
          (slot.gl_id, some slot, [])
        else
          match shader.vertex_source, shader.fragment_source with
          | some vsrc, some fsrc =>
              let del : List GpuCall :=
                if slot.gl_id ≠ 0 ∧ ops.shader_delete_present
                then [.shader_delete slot.gl_id] else []
              let shader_name := shader.name.getD shader.uuid
              let vertex_src := ppApply pp shader_name vsrc
              let fragment_src := ppApply pp shader_name fsrc
              let geometry_src := shader.geometry_source.map (ppApply pp shader_name)
              let program := compile vertex_src fragment_src geometry_src
              let calls := del ++ [.shader_compile vertex_src fragment_src geometry_src]
              if program = 0 then (0, some slot, calls)
              else (program, some ⟨program, int32_of_u32 shader.version⟩, calls)
          | _, _ => (0, some slot, [])

/-- `tc_mesh_upload_gpu` (tgfx_resource_gpu.c): returns (vao, updated
shared VBO/EBO slot, updated per-context VAO slot, vtable calls). -/
def tc_mesh_upload_gpu (ops? : Option tgfx_gpu_ops) (mesh : tc_mesh)
    (shared? : Option tc_gpu_mesh_data_slot) (vao_slot? : Option tc_gpu_vao_slot) :
    Nat × Option tc_gpu_mesh_data_slot × Option tc_gpu_vao_slot × List GpuCall :=
  match mesh.vertices with
  | none => (0, shared?, vao_slot?, [])
  | some verts =>
    match ops? with
    | none => (0, shared?, vao_slot?, [])
    | some ops =>
      match ops.mesh_upload with
      | none => (0, shared?, vao_slot?, [])
      | some upload =>
        match shared?, vao_slot? with
        | some shared, some vao_slot =>
            if shared.vbo ≠ 0 ∧ shared.version = int32_of_u32 mesh.header.version then
              -- VBO/EBO data is current
              if vao_slot.vao ≠ 0 ∧ vao_slot.bound_vbo = shared.vbo ∧
                  vao_slot.bound_ebo = shared.ebo then
                (vao_slot.vao, some shared, some vao_slot, [])
              else
                let del : List GpuCall :=
                  if vao_slot.vao ≠ 0 ∧ ops.mesh_delete_present
                  then [.mesh_delete vao_slot.vao] else []
                match ops.mesh_create_vao with
                | none => (0, some shared, some vao_slot, del)
                | some create =>
                    let vao := create mesh.layout shared.vbo shared.ebo
                    let calls := del ++ [.mesh_create_vao mesh.layout shared.vbo shared.ebo]
                    if vao = 0 then (0, some shared, some vao_slot, calls)
                    else (vao, some shared, some ⟨vao, shared.vbo, shared.ebo⟩, calls)
            else
              -- full path: delete per-context VAO, delete shared buffers, re-upload
              let delVao : List GpuCall :=
                if vao_slot.vao ≠ 0 ∧ ops.mesh_delete_present
                then [.mesh_delete vao_slot.vao] else []
              let vao_slot1 : tc_gpu_vao_slot :=
                if vao_slot.vao ≠ 0 ∧ ops.mesh_delete_present then ⟨0, 0, 0⟩ else vao_slot
              let delVbo : List GpuCall :=
                if shared.vbo ≠ 0 ∧ ops.buffer_delete_present
                then [.buffer_delete shared.vbo] else []
              let delEbo : List GpuCall :=
                if shared.ebo ≠ 0 ∧ ops.buffer_delete_present
                then [.buffer_delete shared.ebo] else []
              let shared1 : tc_gpu_mesh_data_slot := ⟨0, 0, shared.version⟩
              let r := upload verts mesh.vertex_count mesh.indices mesh.index_count mesh.layout
              let calls := delVao ++ delVbo ++ delEbo ++
                [.mesh_upload verts mesh.vertex_count mesh.indices mesh.index_count mesh.layout]
              if r.1 = 0 then (0, some shared1, some vao_slot1, calls)
              else (r.1, some ⟨r.2.1, r.2.2, int32_of_u32 mesh.header.version⟩,
                some ⟨r.1, r.2.1, r.2.2⟩, calls)
        | _, _ => (0, shared?, vao_slot?, [])

/-- A concrete fully-populated backend vtable, used by the witnesses. -/
def sampleOps : tgfx_gpu_ops where
  texture_upload := some fun _ _ _ _ _ _ => 101
  depth_texture_upload := some fun _ _ _ _ => 102
  texture_delete_present := true
  shader_compile := some fun _ _ _ => 201
  shader_delete_present := true
  mesh_upload := some fun _ _ _ _ _ => (301, 302, 303)
  mesh_create_vao := some fun _ _ _ => 304
  mesh_delete_present := true
  buffer_delete_present := true

def sampleLayout : tc_vertex_layout := ⟨12, 1, [("position", 3, 0, 0)]⟩

def sampleHeader (uuid : String) : tc_resource_header := ⟨uuid, none, 1, 0, 0, true⟩

/-- Claim C10: uploading a texture whose data pointer is NULL, or a
mesh whose vertices pointer is NULL, fails with no vtable calls and no
slot mutation — the data check precedes every other step, so this holds
even when the cached slot is current. -/
theorem C10_null_data_no_gpu_work :
    (∀ (ops : Option tgfx_gpu_ops) (tex : tc_texture) (slot : Option tc_gpu_slot),
        tex.data = none → tc_texture_upload_gpu ops tex slot = (false, slot, [])) ∧
    (∀ (ops : Option tgfx_gpu_ops) (mesh : tc_mesh) (shared : Option tc_gpu_mesh_data_slot)
        (vao : Option tc_gpu_vao_slot), mesh.vertices = none →
        tc_mesh_upload_gpu ops mesh shared vao = (0, shared, vao, [])) := by
  constructor
  · intro ops tex slot hd
    unfold tc_texture_upload_gpu
    rw [hd]
  · intro ops mesh shared vao hv
    unfold tc_mesh_upload_gpu
    rw [hv]

/-- Witness for C10: a NULL-data texture and a declared-but-unloaded
mesh, each with a current-looking cached slot, fail without calls. -/
theorem C10_null_data_no_gpu_work_witness :
    tc_texture_upload_gpu (some sampleOps)
        ⟨sampleHeader "t", none, 2, 2, 4, 0, false, true, false, false, false, false, none⟩
        (some ⟨7, 1⟩) = (false, some ⟨7, 1⟩, []) ∧
    tc_mesh_upload_gpu (some sampleOps)
        ⟨sampleHeader "m", none, 0, none, 0, sampleLayout, 0⟩
        (some ⟨5, 6, 1⟩) (some ⟨4, 5, 6⟩) = (0, some ⟨5, 6, 1⟩, some ⟨4, 5, 6⟩, []) :=
  ⟨C10_null_data_no_gpu_work.1 (some sampleOps)
      ⟨sampleHeader "t", none, 2, 2, 4, 0, false, true, false, false, false, false, none⟩
      (some ⟨7, 1⟩) rfl,
   C10_null_data_no_gpu_work.2 (some sampleOps)
      ⟨sampleHeader "m", none, 0, none, 0, sampleLayout, 0⟩
      (some ⟨5, 6, 1⟩) (some ⟨4, 5, 6⟩) rfl⟩

/-! ### Upload idempotence helpers -/

/-- A texture upload that reports success leaves the context slot
holding a non-zero id stamped with the texture's version. -/
theorem texture_upload_success (ops : tgfx_gpu_ops) (tex : tc_texture)
    (slot slot2 : tc_gpu_slot) (calls : List GpuCall)
    (h : tc_texture_upload_gpu (some ops) tex (some slot) = (true, some slot2, calls)) :
    tex.data ≠ none ∧ slot2.gl_id ≠ 0 ∧ slot2.version = int32_of_u32 tex.header.version ∧
      (¬(slot.gl_id ≠ 0 ∧ slot.version = int32_of_u32 tex.header.version) → calls ≠ []) := by
  unfold tc_texture_upload_gpu at h
  cases htd : tex.data with
  | none => rw [htd] at h; simp at h
  | some data =>
      rw [htd] at h
      dsimp only at h
      by_cases hcache : slot.gl_id ≠ 0 ∧ slot.version = int32_of_u32 tex.header.version
      · rw [if_pos hcache] at h
        simp only [Prod.mk.injEq, Option.some_inj] at h
        obtain ⟨-, hs, -⟩ := h
        subst hs
        exact ⟨by simp, hcache.1, hcache.2, fun hc => absurd hcache hc⟩
      · rw [if_neg hcache] at h
        by_cases hfmt : tex.format = TC_TEXTURE_DEPTH24
        · rw [if_pos hfmt] at h
          cases hdu : ops.depth_texture_upload with
          | none => rw [hdu] at h; simp at h
          | some f =>
              rw [hdu] at h
              dsimp only at h
              by_cases hz : f data tex.width tex.height tex.compare_mode = 0
              · rw [if_pos hz] at h; simp at h
              · rw [if_neg hz] at h
                simp only [Prod.mk.injEq, Option.some_inj] at h
                obtain ⟨-, hs, hc⟩ := h
                subst hs
                exact ⟨by simp, hz, rfl, fun _ => by simp [← hc]⟩
        · rw [if_neg hfmt] at h
          cases htu : ops.texture_upload with
          | none => rw [htu] at h; simp at h
          | some f =>
              rw [htu] at h
              dsimp only at h
              by_cases hz : f data tex.width tex.height tex.channels tex.mipmap tex.clamp = 0
              · rw [if_pos hz] at h; simp at h
              · rw [if_neg hz] at h
                simp only [Prod.mk.injEq, Option.some_inj] at h
                obtain ⟨-, hs, hc⟩ := h
                subst hs
                exact ⟨by simp, hz, rfl, fun _ => by simp [← hc]⟩

/-- A texture upload against a current slot returns immediately with no
vtable calls. -/
theorem texture_upload_cached (ops : tgfx_gpu_ops) (tex : tc_texture)
    (slot : tc_gpu_slot) (data : List Nat) (hd : tex.data = some data)
    (h1 : slot.gl_id ≠ 0) (h2 : slot.version = int32_of_u32 tex.header.version) :
    tc_texture_upload_gpu (some ops) tex (some slot) = (true, some slot, []) := by
  unfold tc_texture_upload_gpu
  rw [hd]
  dsimp only
  rw [if_pos ⟨h1, h2⟩]

/-- A shader compile that returns a non-zero program leaves the slot
holding that program stamped with the shader's version. -/
theorem shader_compile_success (ops : tgfx_gpu_ops)
    (pp : Option (String → String → Option String)) (shader : tc_shader)
    (slot slot2 : tc_gpu_slot) (prog : Nat) (calls : List GpuCall)
    (h : tc_shader_compile_gpu (some ops) pp shader (some slot) = (prog, some slot2, calls))
    (hp : prog ≠ 0) :
    (∃ c, ops.shader_compile = some c) ∧
    slot2.gl_id = prog ∧ slot2.version = int32_of_u32 shader.version ∧
      (¬(slot.gl_id ≠ 0 ∧ slot.version = int32_of_u32 shader.version) → calls ≠ []) := by
  unfold tc_shader_compile_gpu at h
  dsimp only at h
  cases hsc : ops.shader_compile with
  | none =>
      rw [hsc] at h
      simp only [Prod.mk.injEq] at h
      exact absurd h.1.symm hp
  | some compile =>
      rw [hsc] at h
      dsimp only at h
      refine ⟨⟨compile, rfl⟩, ?_⟩
      by_cases hcache : slot.gl_id ≠ 0 ∧ slot.version = int32_of_u32 shader.version
      · rw [if_pos hcache] at h
        simp only [Prod.mk.injEq, Option.some_inj] at h
        obtain ⟨hp2, hs, -⟩ := h
        subst hs
        exact ⟨hp2, hcache.2, fun hc => absurd hcache hc⟩
      · rw [if_neg hcache] at h
        cases hvs : shader.vertex_source with
        | none =>
            rw [hvs] at h
            simp only [Prod.mk.injEq] at h
            exact absurd h.1.symm hp
        | some vsrc =>
            rw [hvs] at h
            cases hfs : shader.fragment_source with
            | none =>
                rw [hfs] at h
                simp only [Prod.mk.injEq] at h
                exact absurd h.1.symm hp
            | some fsrc =>
                rw [hfs] at h
                dsimp only at h
                by_cases hz : compile (ppApply pp (shader.name.getD shader.uuid) vsrc)
                    (ppApply pp (shader.name.getD shader.uuid) fsrc)
                    (shader.geometry_source.map (ppApply pp (shader.name.getD shader.uuid))) = 0
                · rw [if_pos hz] at h
                  simp only [Prod.mk.injEq] at h
                  exact absurd h.1.symm hp
                · rw [if_neg hz] at h
                  simp only [Prod.mk.injEq, Option.some_inj] at h
                  obtain ⟨hp2, hs, hc⟩ := h
                  subst hs
                  exact ⟨by rw [hp2], rfl, fun _ => by simp [← hc]⟩

/-- A shader compile against a current slot returns the cached program
with no vtable calls. -/
theorem shader_compile_cached (ops : tgfx_gpu_ops)
    (pp : Option (String → String → Option String)) (shader : tc_shader)
    (slot : tc_gpu_slot) (compile : String → String → Option String → Nat)
    (hsc : ops.shader_compile = some compile)
    (h1 : slot.gl_id ≠ 0) (h2 : slot.version = int32_of_u32 shader.version) :
    tc_shader_compile_gpu (some ops) pp shader (some slot) = (slot.gl_id, some slot, []) := by
  unfold tc_shader_compile_gpu
  dsimp only
  rw [hsc]
  dsimp only
  rw [if_pos ⟨h1, h2⟩]

/-- A mesh upload that returns a non-zero VAO leaves the shared slot
stamped with the mesh's version and a VAO slot bound to the shared
buffer ids. -/
theorem mesh_upload_success (ops : tgfx_gpu_ops) (mesh : tc_mesh)
    (shared shared2 : tc_gpu_mesh_data_slot) (vs vs2 : tc_gpu_vao_slot)
    (vao : Nat) (calls : List GpuCall)
    (h : tc_mesh_upload_gpu (some ops) mesh (some shared) (some vs) =
      (vao, some shared2, some vs2, calls))
    (hv : vao ≠ 0) :
    (∃ verts, mesh.vertices = some verts) ∧ (∃ up, ops.mesh_upload = some up) ∧
    shared2.version = int32_of_u32 mesh.header.version ∧
    vs2.vao = vao ∧ vs2.bound_vbo = shared2.vbo ∧ vs2.bound_ebo = shared2.ebo ∧
    (¬(shared.vbo ≠ 0 ∧ shared.version = int32_of_u32 mesh.header.version ∧ vs.vao ≠ 0 ∧
        vs.bound_vbo = shared.vbo ∧ vs.bound_ebo = shared.ebo) → calls ≠ []) := by
  unfold tc_mesh_upload_gpu at h
  cases hverts : mesh.vertices with
  | none =>
      rw [hverts] at h
      simp only [Prod.mk.injEq] at h
      exact absurd h.1.symm hv
  | some verts =>
      rw [hverts] at h
      dsimp only at h
      cases hup : ops.mesh_upload with
      | none =>
          rw [hup] at h
          simp only [Prod.mk.injEq] at h
          exact absurd h.1.symm hv
      | some upload =>
          rw [hup] at h
          dsimp only at h
          refine ⟨⟨verts, rfl⟩, ⟨upload, rfl⟩, ?_⟩
          by_cases hdc : shared.vbo ≠ 0 ∧ shared.version = int32_of_u32 mesh.header.version
          · rw [if_pos hdc] at h
            by_cases hvk : vs.vao ≠ 0 ∧ vs.bound_vbo = shared.vbo ∧ vs.bound_ebo = shared.ebo
            · rw [if_pos hvk] at h
              simp only [Prod.mk.injEq, Option.some_inj] at h
              obtain ⟨hv1, hs1, hs2, -⟩ := h
              subst hs1
              subst hs2
              exact ⟨hdc.2, by rw [← hv1], hvk.2.1, hvk.2.2,
                fun hc => absurd ⟨hdc.1, hdc.2, hvk.1, hvk.2.1, hvk.2.2⟩ hc⟩
            · rw [if_neg hvk] at h
              cases hcv : ops.mesh_create_vao with
              | none =>
                  rw [hcv] at h
                  simp only [Prod.mk.injEq] at h
                  exact absurd h.1.symm hv
              | some create =>
                  rw [hcv] at h
                  dsimp only at h
                  by_cases hz : create mesh.layout shared.vbo shared.ebo = 0
                  · rw [if_pos hz] at h
                    simp only [Prod.mk.injEq] at h
                    exact absurd h.1.symm hv
                  · rw [if_neg hz] at h
                    simp only [Prod.mk.injEq, Option.some_inj] at h
                    obtain ⟨hv1, hs1, hs2, hc⟩ := h
                    subst hs1
                    subst hs2
                    exact ⟨hdc.2, by rw [← hv1], rfl, rfl, fun _ => by simp [← hc]⟩
          · rw [if_neg hdc] at h
            by_cases hz : (upload verts mesh.vertex_count mesh.indices mesh.index_count
                mesh.layout).1 = 0
            · rw [if_pos hz] at h
              simp only [Prod.mk.injEq] at h
              exact absurd h.1.symm hv
            · rw [if_neg hz] at h
              simp only [Prod.mk.injEq, Option.some_inj] at h
              obtain ⟨hv1, hs1, hs2, hc⟩ := h
              subst hs1
              subst hs2
              exact ⟨rfl, by rw [← hv1], rfl, rfl, fun _ => by simp [← hc]⟩

/-- A mesh upload against current shared data and a matching VAO slot
returns the cached VAO with no vtable calls. -/
theorem mesh_upload_cached (ops : tgfx_gpu_ops) (mesh : tc_mesh)
    (shared : tc_gpu_mesh_data_slot) (vs : tc_gpu_vao_slot) (verts : List Nat)
    (upload : List Nat → Nat → Option (List Nat) → Nat → tc_vertex_layout → Nat × Nat × Nat)
    (hverts : mesh.vertices = some verts) (hup : ops.mesh_upload = some upload)
    (h1 : shared.vbo ≠ 0) (h2 : shared.version = int32_of_u32 mesh.header.version)
    (h3 : vs.vao ≠ 0) (h4 : vs.bound_vbo = shared.vbo) (h5 : vs.bound_ebo = shared.ebo) :
    tc_mesh_upload_gpu (some ops) mesh (some shared) (some vs) =
      (vs.vao, some shared, some vs, []) := by
  unfold tc_mesh_upload_gpu
  rw [hverts]
  dsimp only
  rw [hup]
  dsimp only
  rw [if_pos ⟨h1, h2⟩, if_pos ⟨h3, h4, h5⟩]

/-- Claim C3: for each resource kind, after a successful ensure-upload
call the context slot caches a non-zero id stamped with the resource's
version, and a second call with no intervening mutation returns the
same cached result with an empty vtable-call list; the first call's
call list is non-empty whenever the slot was not already current. -/
theorem C3_upload_idempotent :
    (∀ (ops : tgfx_gpu_ops) (tex : tc_texture) (slot slot2 : tc_gpu_slot)
        (calls : List GpuCall),
        tc_texture_upload_gpu (some ops) tex (some slot) = (true, some slot2, calls) →
        (¬(slot.gl_id ≠ 0 ∧ slot.version = int32_of_u32 tex.header.version) → calls ≠ []) ∧
        slot2.gl_id ≠ 0 ∧ slot2.version = int32_of_u32 tex.header.version ∧
        tc_texture_upload_gpu (some ops) tex (some slot2) = (true, some slot2, [])) ∧
    (∀ (ops : tgfx_gpu_ops) (pp : Option (String → String → Option String))
        (shader : tc_shader) (slot slot2 : tc_gpu_slot) (prog : Nat) (calls : List GpuCall),
        tc_shader_compile_gpu (some ops) pp shader (some slot) = (prog, some slot2, calls) →
        prog ≠ 0 →
        (¬(slot.gl_id ≠ 0 ∧ slot.version = int32_of_u32 shader.version) → calls ≠ []) ∧
        slot2.gl_id = prog ∧ slot2.version = int32_of_u32 shader.version ∧
        tc_shader_compile_gpu (some ops) pp shader (some slot2) = (prog, some slot2, [])) ∧
    (∀ (ops : tgfx_gpu_ops) (mesh : tc_mesh) (shared shared2 : tc_gpu_mesh_data_slot)
        (vs vs2 : tc_gpu_vao_slot) (vao : Nat) (calls : List GpuCall),
        tc_mesh_upload_gpu (some ops) mesh (some shared) (some vs) =
          (vao, some shared2, some vs2, calls) →
        vao ≠ 0 → shared2.vbo ≠ 0 →
        (¬(shared.vbo ≠ 0 ∧ shared.version = int32_of_u32 mesh.header.version ∧ vs.vao ≠ 0 ∧
            vs.bound_vbo = shared.vbo ∧ vs.bound_ebo = shared.ebo) → calls ≠ []) ∧
        tc_mesh_upload_gpu (some ops) mesh (some shared2) (some vs2) =
          (vao, some shared2, some vs2, [])) := by
  refine ⟨?_, ?_, ?_⟩
  · intro ops tex slot slot2 calls h
    obtain ⟨hdata, hid, hver, hcalls⟩ := texture_upload_success ops tex slot slot2 calls h
    cases htd : tex.data with
    | none => exact absurd htd hdata
    | some data =>
        exact ⟨hcalls, hid, hver, texture_upload_cached ops tex slot2 data htd hid hver⟩
  · intro ops pp shader slot slot2 prog calls h hp
    obtain ⟨⟨compile, hsc⟩, hid, hver, hcalls⟩ :=
      shader_compile_success ops pp shader slot slot2 prog calls h hp
    refine ⟨hcalls, hid, hver, ?_⟩
    have := shader_compile_cached ops pp shader slot2 compile hsc (by rw [hid]; exact hp) hver
    rw [hid] at this
    exact this
  · intro ops mesh shared shared2 vs vs2 vao calls h hv hvbo
    obtain ⟨⟨verts, hverts⟩, ⟨upload, hup⟩, hver, hvao, hbv, hbe, hcalls⟩ :=
      mesh_upload_success ops mesh shared shared2 vs vs2 vao calls h hv
    refine ⟨hcalls, ?_⟩
    have := mesh_upload_cached ops mesh shared2 vs2 verts upload hverts hup hvbo hver
      (by rw [hvao]; exact hv) hbv hbe
    rw [hvao] at this
    exact this

/-- Witness for C3: a fresh texture, shader and mesh uploaded through
the sample backend; the second calls return the cached results with no
vtable calls. -/
theorem C3_upload_idempotent_witness :
    tc_texture_upload_gpu (some sampleOps)
        ⟨sampleHeader "t", some [1, 2, 3, 4], 1, 1, 4, 0, false, true, false, false, false,
          false, none⟩ (some ⟨101, 1⟩) = (true, some ⟨101, 1⟩, []) ∧
    tc_shader_compile_gpu (some sampleOps) none
        ⟨some "v", some "f", none, "", 1, 0, "s", none, none, false, 0,
          TC_HANDLE_INVALID, 0, 0, 0⟩ (some ⟨201, 1⟩) = (201, some ⟨201, 1⟩, []) ∧
    tc_mesh_upload_gpu (some sampleOps)
        ⟨sampleHeader "m", some [0, 0, 0], 1, some [0], 1, sampleLayout, 0⟩
        (some ⟨302, 303, 1⟩) (some ⟨301, 302, 303⟩) =
      (301, some ⟨302, 303, 1⟩, some ⟨301, 302, 303⟩, []) := by
  refine ⟨?_, ?_, ?_⟩
  · exact (C3_upload_idempotent.1 sampleOps
      ⟨sampleHeader "t", some [1, 2, 3, 4], 1, 1, 4, 0, false, true, false, false, false,
        false, none⟩ ⟨0, -1⟩ ⟨101, 1⟩ [GpuCall.texture_upload [1, 2, 3, 4] 1 1 4 false false]
      (by decide)).2.2.2
  · exact (C3_upload_idempotent.2.1 sampleOps none
      ⟨some "v", some "f", none, "", 1, 0, "s", none, none, false, 0,
        TC_HANDLE_INVALID, 0, 0, 0⟩ ⟨0, -1⟩ ⟨201, 1⟩ 201
      [GpuCall.shader_compile "v" "f" none] (by decide) (by decide)).2.2.2
  · exact (C3_upload_idempotent.2.2 sampleOps
      ⟨sampleHeader "m", some [0, 0, 0], 1, some [0], 1, sampleLayout, 0⟩
      ⟨0, 0, -1⟩ ⟨302, 303, 1⟩ ⟨0, 0, 0⟩ ⟨301, 302, 303⟩ 301
      [GpuCall.mesh_upload [0, 0, 0] 1 (some [0]) 1 sampleLayout]
      (by decide) (by decide) (by decide)).2

/-- Claim C2: the two mesh staleness paths of `tc_mesh_upload_gpu`.
When the shared VBO/EBO data is current but the context's VAO slot is
missing or bound to different buffer ids, only the VAO is rebuilt via
`mesh_create_vao` (plus a delete of the stale VAO if one existed) — no
buffer upload happens and the shared slot is untouched.  When the
shared data is stale, the full path runs (delete old VAO, delete old
VBO/EBO, `mesh_upload`, new VAO) and the new ids and version are
stamped on both the shared slot and the VAO slot.  Consequently, with
two contexts in one share group, building the VAO in context B after an
upload in context A makes exactly one `mesh_create_vao` call and no
other call at all. -/
theorem C2_mesh_vao_rebuild_paths :
    (∀ (ops : tgfx_gpu_ops) (mesh : tc_mesh) (shared : tc_gpu_mesh_data_slot)
        (vs : tc_gpu_vao_slot) (verts : List Nat)
        (upload : List Nat → Nat → Option (List Nat) → Nat → tc_vertex_layout →
          Nat × Nat × Nat)
        (create : tc_vertex_layout → Nat → Nat → Nat) (v : Nat),
        mesh.vertices = some verts → ops.mesh_upload = some upload →
        ops.mesh_create_vao = some create →
        shared.vbo ≠ 0 → shared.version = int32_of_u32 mesh.header.version →
        ¬(vs.vao ≠ 0 ∧ vs.bound_vbo = shared.vbo ∧ vs.bound_ebo = shared.ebo) →
        create mesh.layout shared.vbo shared.ebo = v → v ≠ 0 →
        tc_mesh_upload_gpu (some ops) mesh (some shared) (some vs) =
          (v, some shared, some ⟨v, shared.vbo, shared.ebo⟩,
            (if vs.vao ≠ 0 ∧ ops.mesh_delete_present
             then [GpuCall.mesh_delete vs.vao] else []) ++
              [GpuCall.mesh_create_vao mesh.layout shared.vbo shared.ebo])) ∧
    (∀ (ops : tgfx_gpu_ops) (mesh : tc_mesh) (shared : tc_gpu_mesh_data_slot)
        (vs : tc_gpu_vao_slot) (verts : List Nat)
        (upload : List Nat → Nat → Option (List Nat) → Nat → tc_vertex_layout →
          Nat × Nat × Nat)
        (vao vbo ebo : Nat),
        mesh.vertices = some verts → ops.mesh_upload = some upload →
        ¬(shared.vbo ≠ 0 ∧ shared.version = int32_of_u32 mesh.header.version) →
        upload verts mesh.vertex_count mesh.indices mesh.index_count mesh.layout =
          (vao, vbo, ebo) →
        vao ≠ 0 →
        tc_mesh_upload_gpu (some ops) mesh (some shared) (some vs) =
          (vao, some ⟨vbo, ebo, int32_of_u32 mesh.header.version⟩, some ⟨vao, vbo, ebo⟩,
            (if vs.vao ≠ 0 ∧ ops.mesh_delete_present
             then [GpuCall.mesh_delete vs.vao] else []) ++
            (if shared.vbo ≠ 0 ∧ ops.buffer_delete_present
             then [GpuCall.buffer_delete shared.vbo] else []) ++
            (if shared.ebo ≠ 0 ∧ ops.buffer_delete_present
             then [GpuCall.buffer_delete shared.ebo] else []) ++
              [GpuCall.mesh_upload verts mesh.vertex_count mesh.indices mesh.index_count
                mesh.layout])) ∧
    (∀ (ops : tgfx_gpu_ops) (mesh : tc_mesh) (verts : List Nat)
        (upload : List Nat → Nat → Option (List Nat) → Nat → tc_vertex_layout →
          Nat × Nat × Nat)
        (create : tc_vertex_layout → Nat → Nat → Nat) (vao vbo ebo v2 : Nat),
        mesh.vertices = some verts → ops.mesh_upload = some upload →
        ops.mesh_create_vao = some create →
        upload verts mesh.vertex_count mesh.indices mesh.index_count mesh.layout =
          (vao, vbo, ebo) →
        vao ≠ 0 → vbo ≠ 0 → create mesh.layout vbo ebo = v2 → v2 ≠ 0 →
        -- context A: first upload into a fresh share group
        tc_mesh_upload_gpu (some ops) mesh (some ⟨0, 0, -1⟩) (some ⟨0, 0, 0⟩) =
          (vao, some ⟨vbo, ebo, int32_of_u32 mesh.header.version⟩, some ⟨vao, vbo, ebo⟩,
            [GpuCall.mesh_upload verts mesh.vertex_count mesh.indices mesh.index_count
              mesh.layout]) ∧
        -- context B: same shared slot, fresh per-context VAO slot
        tc_mesh_upload_gpu (some ops) mesh
            (some ⟨vbo, ebo, int32_of_u32 mesh.header.version⟩) (some ⟨0, 0, 0⟩) =
          (v2, some ⟨vbo, ebo, int32_of_u32 mesh.header.version⟩, some ⟨v2, vbo, ebo⟩,
            [GpuCall.mesh_create_vao mesh.layout vbo ebo])) := by
  have hab : ∀ (ops : tgfx_gpu_ops) (mesh : tc_mesh) (shared : tc_gpu_mesh_data_slot)
      (vs : tc_gpu_vao_slot) (verts : List Nat)
      (upload : List Nat → Nat → Option (List Nat) → Nat → tc_vertex_layout →
        Nat × Nat × Nat)
      (create : tc_vertex_layout → Nat → Nat → Nat) (v : Nat),
      mesh.vertices = some verts → ops.mesh_upload = some upload →
      ops.mesh_create_vao = some create →
      shared.vbo ≠ 0 → shared.version = int32_of_u32 mesh.header.version →
      ¬(vs.vao ≠ 0 ∧ vs.bound_vbo = shared.vbo ∧ vs.bound_ebo = shared.ebo) →
      create mesh.layout shared.vbo shared.ebo = v → v ≠ 0 →
      tc_mesh_upload_gpu (some ops) mesh (some shared) (some vs) =
        (v, some shared, some ⟨v, shared.vbo, shared.ebo⟩,
          (if vs.vao ≠ 0 ∧ ops.mesh_delete_present
           then [GpuCall.mesh_delete vs.vao] else []) ++
            [GpuCall.mesh_create_vao mesh.layout shared.vbo shared.ebo]) := by
    intro ops mesh shared vs verts upload create v hverts hup hcv hvbo hver hvk hcr hv0
    unfold tc_mesh_upload_gpu
    rw [hverts]
    dsimp only
    rw [hup]
    dsimp only
    rw [if_pos ⟨hvbo, hver⟩, if_neg hvk, hcv]
    dsimp only
    rw [hcr, if_neg hv0]
  have hfull : ∀ (ops : tgfx_gpu_ops) (mesh : tc_mesh) (shared : tc_gpu_mesh_data_slot)
      (vs : tc_gpu_vao_slot) (verts : List Nat)
      (upload : List Nat → Nat → Option (List Nat) → Nat → tc_vertex_layout →
        Nat × Nat × Nat)
      (vao vbo ebo : Nat),
      mesh.vertices = some verts → ops.mesh_upload = some upload →
      ¬(shared.vbo ≠ 0 ∧ shared.version = int32_of_u32 mesh.header.version) →
      upload verts mesh.vertex_count mesh.indices mesh.index_count mesh.layout =
        (vao, vbo, ebo) →
      vao ≠ 0 →
      tc_mesh_upload_gpu (some ops) mesh (some shared) (some vs) =
        (vao, some ⟨vbo, ebo, int32_of_u32 mesh.header.version⟩, some ⟨vao, vbo, ebo⟩,
          (if vs.vao ≠ 0 ∧ ops.mesh_delete_present
           then [GpuCall.mesh_delete vs.vao] else []) ++
          (if shared.vbo ≠ 0 ∧ ops.buffer_delete_present
           then [GpuCall.buffer_delete shared.vbo] else []) ++
          (if shared.ebo ≠ 0 ∧ ops.buffer_delete_present
           then [GpuCall.buffer_delete shared.ebo] else []) ++
            [GpuCall.mesh_upload verts mesh.vertex_count mesh.indices mesh.index_count
              mesh.layout]) := by
    intro ops mesh shared vs verts upload vao vbo ebo hverts hup hdc hupr hv0
    unfold tc_mesh_upload_gpu
    rw [hverts]
    dsimp only
    rw [hup]
    dsimp only
    rw [if_neg hdc, hupr]
    dsimp only
    rw [if_neg hv0]
  refine ⟨hab, hfull, ?_⟩
  intro ops mesh verts upload create vao vbo ebo v2 hverts hup hcv hupr hv0 hvbo hcr hv2
  constructor
  · have := hfull ops mesh ⟨0, 0, -1⟩ ⟨0, 0, 0⟩ verts upload vao vbo ebo hverts hup
      (by simp) hupr hv0
    simpa using this
  · have := hab ops mesh ⟨vbo, ebo, int32_of_u32 mesh.header.version⟩ ⟨0, 0, 0⟩ verts
      upload create v2 hverts hup hcv hvbo rfl (by simp) hcr hv2
    simpa using this

/-- Witness for C2 at the sample backend: the full-upload path in a
fresh context A, then the VAO-only path in context B. -/
theorem C2_mesh_vao_rebuild_paths_witness :
    tc_mesh_upload_gpu (some sampleOps)
        ⟨sampleHeader "m", some [0, 0, 0], 1, some [0], 1, sampleLayout, 0⟩
        (some ⟨0, 0, -1⟩) (some ⟨0, 0, 0⟩) =
      (301, some ⟨302, 303, 1⟩, some ⟨301, 302, 303⟩,
        [GpuCall.mesh_upload [0, 0, 0] 1 (some [0]) 1 sampleLayout]) ∧
    tc_mesh_upload_gpu (some sampleOps)
        ⟨sampleHeader "m", some [0, 0, 0], 1, some [0], 1, sampleLayout, 0⟩
        (some ⟨302, 303, 1⟩) (some ⟨0, 0, 0⟩) =
      (304, some ⟨302, 303, 1⟩, some ⟨304, 302, 303⟩,
        [GpuCall.mesh_create_vao sampleLayout 302 303]) := by
  have h := C2_mesh_vao_rebuild_paths.2.2 sampleOps
    ⟨sampleHeader "m", some [0, 0, 0], 1, some [0], 1, sampleLayout, 0⟩
    [0, 0, 0] (fun _ _ _ _ _ => (301, 302, 303)) (fun _ _ _ => 304)
    301 302 303 304 rfl rfl rfl rfl (by decide) (by decide) rfl (by decide)
  exact ⟨h.1, by simpa using h.2⟩

/-!
## Registry support (tc_registry_utils.h, appended inside
src/include/tgfx/tc_pool.h)

The registry helpers live in the `tc_registry_utils.h` section appended
at the end of `src/include/tgfx/tc_pool.h`: the resource maps store
`void*` but the registries need `uint32_t` pool indices, so an index is
packed as `index + 1` (NULL, i.e. 0, means "not found"), and
`tc_generate_prefixed_uuid` snprintf-formats `"%s-%016llx"` from a
per-registry counter, post-incrementing it.
-/

/-- `tc_pack_index` of tc_registry_utils.h (appended in tc_pool.h):
pack a pool index as a non-NULL `void*`, `(void*)(uintptr_t)(index + 1)`,
so 0 means "absent". -/
def tc_pack_index (i : Nat) : Nat := i + 1

/-- `tc_has_index` of tc_registry_utils.h: a packed value is present iff
non-NULL (`ptr != NULL`). -/
def tc_has_index (p : Nat) : Bool := p != 0

/-- `tc_unpack_index` of tc_registry_utils.h: unpack `index + 1` back to
the index (`(uint32_t)((uintptr_t)ptr - 1)`; callers check
`tc_has_index` first, so the argument is positive in use). -/
def tc_unpack_index (p : Nat) : Nat := p - 1

def hexDigit (n : Nat) : Char :=
  if n < 10 then Char.ofNat (48 + n) else Char.ofNat (87 + n)

/-- 16 lowercase hex digits of a 64-bit value (`%016llx`). -/
def hex16 (n : Nat) : String :=
  String.mk ((List.range 16).map (fun i => hexDigit (n / 16 ^ (15 - i) % 16)))

/-- `tc_generate_prefixed_uuid` of tc_registry_utils.h (appended in
tc_pool.h): `snprintf(out, n, "%s-%016llx", prefix, (*counter)++)`, i.e.
`<prefix>-<16 lowercase hex digits>` of the counter, which is then
advanced; the snprintf truncation to the destination buffer is applied
at the call sites via `uuidTrunc`. -/
def tc_generate_prefixed_uuid (pfx : String) (counter : Nat) : String × Nat :=
  (pfx ++ "-" ++ hex16 counter, counter + 1)

/-- The C `strncpy(dst, src, 39)` truncation of a UUID into the 40-byte
header field (modelled on characters; registry keys are ASCII). -/
def uuidTrunc (s : String) : String := String.mk (s.data.take 39)

/-- `fnv1a_string` of tc_shader_registry.c: fold FNV-1a over a possibly
NULL string, starting from the running hash. -/
def fnv1a_string (s : Option String) (h : Nat) : Nat :=
  match s with
  | none => h
  | some s => fnvBytes (strBytes s) h

/-- `tc_shader_compute_hash`: FNV-1a over the three sources joined with
`"::"` separators, printed as 16 hex chars. -/
def tc_shader_compute_hash (v f g : Option String) : String :=
  hex16 (fnv1a_string g (fnv1a_string (some "::")
    (fnv1a_string f (fnv1a_string (some "::")
      (fnv1a_string v 14695981039346656037)))))

/-- `dup_string` of tc_shader_registry.c: NULL for NULL or empty
input. -/
def dup_string (s : Option String) : Option String :=
  match s with
  | none => none
  | some s => if s = "" then none else some s

/-- The all-zero shader produced by `memset(shader, 0, ...)`. -/
def zeroShader : tc_shader :=
  ⟨none, none, none, "", 0, 0, "", none, none, false, 0, ⟨0, 0⟩, 0, 0, 0⟩

instance : Inhabited tc_shader := ⟨zeroShader⟩

def zeroHeader : tc_resource_header := ⟨"", none, 0, 0, 0, false⟩

def zeroMesh : tc_mesh := ⟨zeroHeader, none, 0, none, 0, ⟨0, 0, []⟩, 0⟩

instance : Inhabited tc_mesh := ⟨zeroMesh⟩

def zeroTexture : tc_texture :=
  ⟨zeroHeader, none, 0, 0, 0, 0, false, false, false, false, false, false, none⟩

instance : Inhabited tc_texture := ⟨zeroTexture⟩

/-- `tc_material`: the claims only exercise the header and the phase
shader references, so a phase is represented by its shader handle (the
render state / uniform tables of a phase never affect the modelled
operations). -/
structure tc_material where
  header : tc_resource_header
  phases : List tc_handle
deriving DecidableEq, Repr

def zeroMaterial : tc_material := ⟨zeroHeader, []⟩

instance : Inhabited tc_material := ⟨zeroMaterial⟩

/-- Write one pool slot through a `tc_xxx*` pointer (pointers into the
pool are modelled by slot indices). -/
def pool_write {α : Type} (p : tc_pool α) (i : Nat) (x : α) : tc_pool α :=
  { p with data := p.data.set i x }

/-- Read one pool slot through a pointer (slot index). -/
def pool_read {α : Type} [Inhabited α] (p : tc_pool α) (i : Nat) : α :=
  p.data.getD i default

/-!
## Shader registry (tc_shader_registry.c)

Global state (`g_shader_pool`, `g_uuid_to_index`, `g_hash_to_index`,
`g_next_uuid`) becomes an explicit `ShaderRegistry` value threaded
through the operations; the model represents the registry after
`tc_shader_init` (the `g_initialized` lazy-init guards are therefore
always satisfied).  Functions taking a `tc_shader*` take the pool slot
index instead; the linear pointer-scan of `tc_shader_set_sources`
(which recovers the slot index of the passed pointer) therefore
resolves to that index directly when the slot is occupied.  Release
functions also return a `Bool` that is true iff a `TC_LOG_WARN` call is
executed. -/

structure ShaderRegistry where
  pool : tc_pool tc_shader
  uuid_to_index : tc_resource_map
  hash_to_index : tc_resource_map
  next_uuid : Nat
deriving DecidableEq, Repr

/-- `tc_shader_init`: 64-slot pool, fresh maps, counter 1. -/
def tc_shader_init : ShaderRegistry :=
  ⟨tc_pool_init tc_shader zeroShader 64, tc_resource_map_new, tc_resource_map_new, 1⟩

/-- `tc_shader_contains`. -/
def tc_shader_contains (reg : ShaderRegistry) (uuid : String) : Bool :=
  tc_resource_map_contains reg.uuid_to_index uuid

/-- `tc_shader_find`: uuid map lookup, unpack, bounds and occupancy
checks, then handle with the slot's current generation. -/
def tc_shader_find (reg : ShaderRegistry) (uuid : String) : tc_handle :=
  let ptr := tc_resource_map_get reg.uuid_to_index uuid
  if ¬ tc_has_index ptr then TC_HANDLE_INVALID
  else
    let index := tc_unpack_index ptr
    if index ≥ reg.pool.capacity then TC_HANDLE_INVALID
    else if reg.pool.states.getD index false ≠ true then TC_HANDLE_INVALID
    else ⟨index, reg.pool.generations.getD index 0⟩

/-- `tc_shader_find_by_hash`. -/
def tc_shader_find_by_hash (reg : ShaderRegistry) (source_hash : String) : tc_handle :=
  let ptr := tc_resource_map_get reg.hash_to_index source_hash
  if ¬ tc_has_index ptr then TC_HANDLE_INVALID
  else
    let index := tc_unpack_index ptr
    if index ≥ reg.pool.capacity then TC_HANDLE_INVALID
    else if reg.pool.states.getD index false ≠ true then TC_HANDLE_INVALID
    else ⟨index, reg.pool.generations.getD index 0⟩

/-- `tc_shader_get`. -/
def tc_shader_get (reg : ShaderRegistry) (h : tc_handle) : Option tc_shader :=
  tc_pool_get reg.pool h

/-- `tc_shader_is_valid`. -/
def tc_shader_is_valid (reg : ShaderRegistry) (h : tc_handle) : Bool :=
  tc_pool_is_valid reg.pool h

/-- The slot-initialisation part of `tc_shader_create` after the pool
allocation succeeded. -/
def shader_create_with (reg : ShaderRegistry) (final_uuid : String) (next : Nat) :
    tc_handle × ShaderRegistry :=
  let r := tc_pool_alloc zeroShader reg.pool
  if tc_handle_is_invalid r.1 then
    (TC_HANDLE_INVALID, { reg with pool := r.2, next_uuid := next })
  else
    let s : tc_shader := { zeroShader with
      uuid := uuidTrunc final_uuid
      version := 1
      ref_count := 0
      pool_index := r.1.index
      original_handle := TC_HANDLE_INVALID }
    let pool2 := pool_write r.2 r.1.index s
    let ar := tc_resource_map_add reg.uuid_to_index s.uuid (tc_pack_index r.1.index)
    if ar.1 then
      (r.1, { reg with pool := pool2, uuid_to_index := ar.2, next_uuid := next })
    else
      (TC_HANDLE_INVALID,
       { reg with
          pool := (tc_pool_free_slot pool2 r.1).2
          uuid_to_index := ar.2
          next_uuid := next })

/-- `tc_shader_create`: duplicate caller-supplied uuid fails; an absent
or empty uuid is generated from the counter. -/
def tc_shader_create (reg : ShaderRegistry) (uuid : Option String) :
    tc_handle × ShaderRegistry :=
  match uuid with
  | some u =>
      if u ≠ "" then
        if tc_shader_contains reg u then (TC_HANDLE_INVALID, reg)
        else shader_create_with reg u reg.next_uuid
      else
        let g := tc_generate_prefixed_uuid "shader" reg.next_uuid
        shader_create_with reg g.1 g.2
  | none =>
      let g := tc_generate_prefixed_uuid "shader" reg.next_uuid
      shader_create_with reg g.1 g.2

/-- `tc_shader_destroy`: remove from the uuid map, remove the content
hash (when set), free the source strings, free the pool slot. -/
def tc_shader_destroy (reg : ShaderRegistry) (h : tc_handle) : Bool × ShaderRegistry :=
  match tc_shader_get reg h with
  | none => (false, reg)
  | some s =>
      let umap := (tc_resource_map_remove reg.uuid_to_index s.uuid).2
      let hmap := if s.source_hash ≠ ""
                  then (tc_resource_map_remove reg.hash_to_index s.source_hash).2
                  else reg.hash_to_index
      let s1 := { s with
        vertex_source := none
        fragment_source := none
        geometry_source := none }
      let pool1 := pool_write reg.pool h.index s1
      let fr := tc_pool_free_slot pool1 h
      (fr.1, { reg with pool := fr.2, uuid_to_index := umap, hash_to_index := hmap })

/-- `tc_shader_set_sources` through a pointer to slot `i`: no-op when
the content hash is unchanged; otherwise re-key the hash map, replace
the sources, set name/path when non-empty, and bump the version. -/
def tc_shader_set_sources (reg : ShaderRegistry) (i : Nat)
    (vertex_source fragment_source geometry_source name source_path : Option String) :
    Bool × ShaderRegistry :=
  let s := pool_read reg.pool i
  let new_hash := tc_shader_compute_hash vertex_source fragment_source geometry_source
  if s.source_hash ≠ "" ∧ s.source_hash = new_hash then (false, reg)
  else
    let hmap1 := if s.source_hash ≠ ""
                 then (tc_resource_map_remove reg.hash_to_index s.source_hash).2
                 else reg.hash_to_index
    let s1 := { s with
      vertex_source := dup_string vertex_source
      fragment_source := dup_string fragment_source
      geometry_source := dup_string geometry_source
      source_hash := new_hash }
    -- the C code scans the pool for the slot whose address equals the
    -- passed pointer; that slot is `i` itself whenever it is occupied
    let hmap2 := if new_hash ≠ "" ∧ reg.pool.states.getD i false = true
                 then (tc_resource_map_add hmap1 new_hash (tc_pack_index i)).2
                 else hmap1
    let s2 := match name with
      | some n => if n ≠ "" then { s1 with name := some n } else s1
      | none => s1
    let s3 := match source_path with
      | some sp => if sp ≠ "" then { s2 with source_path := some sp } else s2
      | none => s2
    let s4 := { s3 with version := (s3.version + 1) % U32 }
    (true, { reg with pool := pool_write reg.pool i s4, hash_to_index := hmap2 })

/-- `tc_shader_from_sources`: uuid-directed update-or-create, or
content-hash deduplication when no uuid is given. -/
def tc_shader_from_sources (reg : ShaderRegistry)
    (vertex_source fragment_source geometry_source name source_path uuid : Option String) :
    tc_handle × ShaderRegistry :=
  match vertex_source, fragment_source with
  | some _, some _ =>
      let hashPath : tc_handle × ShaderRegistry :=
        let hsh := tc_shader_compute_hash vertex_source fragment_source geometry_source
        let existing := tc_shader_find_by_hash reg hsh
        if ¬ tc_handle_is_invalid existing then (existing, reg)
        else
          let cr := tc_shader_create reg none
          if tc_handle_is_invalid cr.1 then cr
          else
            let ss := tc_shader_set_sources cr.2 cr.1.index vertex_source fragment_source
              geometry_source name source_path
            if ss.1 then (cr.1, ss.2)
            else (TC_HANDLE_INVALID, (tc_shader_destroy ss.2 cr.1).2)
      match uuid with
      | some u =>
          if u ≠ "" then
            let existing := tc_shader_find reg u
            if ¬ tc_handle_is_invalid existing then
              let ss := tc_shader_set_sources reg existing.index vertex_source
                fragment_source geometry_source name source_path
              (existing, ss.2)
            else
              let cr := tc_shader_create reg (some u)
              if tc_handle_is_invalid cr.1 then cr
              else
                let ss := tc_shader_set_sources cr.2 cr.1.index vertex_source
                  fragment_source geometry_source name source_path
                if ss.1 then (cr.1, ss.2)
                else (TC_HANDLE_INVALID, (tc_shader_destroy ss.2 cr.1).2)
          else hashPath
      | none => hashPath
  | _, _ => (TC_HANDLE_INVALID, reg)

/-- `tc_shader_add_ref` through a pointer to slot `i` (`uint32`
increment). -/
def tc_shader_add_ref (reg : ShaderRegistry) (i : Nat) : ShaderRegistry :=
  let s := pool_read reg.pool i
  { reg with pool := pool_write reg.pool i { s with ref_count := (s.ref_count + 1) % U32 } }

/-- `tc_shader_release` through a pointer to slot `i`.  Returns
(destroyed, registry, warned): `warned` is true iff the
`already at ref_count=0` warning is logged. -/
def tc_shader_release (reg : ShaderRegistry) (i : Nat) :
    Bool × ShaderRegistry × Bool :=
  let s := pool_read reg.pool i
  if s.ref_count = 0 then (false, reg, true)
  else
    let s1 := { s with ref_count := s.ref_count - 1 }
    let reg1 := { reg with pool := pool_write reg.pool i s1 }
    if s1.ref_count = 0 then
      let h := tc_shader_find reg1 s1.uuid
      if ¬ tc_handle_is_invalid h then
        (true, (tc_shader_destroy reg1 h).2, false)
      else (true, reg1, false)
    else (false, reg1, false)

/-- `tc_shader_set_variant_info` through a pointer to slot `i`: no-op
(with a warning) when the original handle is stale, else record the
variant lineage and snapshot the original's version. -/
def tc_shader_set_variant_info (reg : ShaderRegistry) (i : Nat)
    (original : tc_handle) (op : Nat) : ShaderRegistry :=
  let s := pool_read reg.pool i
  match tc_shader_get reg original with
  | none => reg
  | some orig =>
      let s1 := { s with
        is_variant := true
        variant_op := op
        original_handle := original
        original_version := orig.version }
      { reg with pool := pool_write reg.pool i s1 }

/-- `tc_shader_variant_is_stale`: false for invalid handles and
non-variants; true iff the original no longer resolves or its version
moved past the snapshot. -/
def tc_shader_variant_is_stale (reg : ShaderRegistry) (variant : tc_handle) : Bool :=
  match tc_shader_get reg variant with
  | none => false
  | some v =>
      if ¬ v.is_variant then false
      else
        match tc_shader_get reg v.original_handle with
        | none => true
        | some orig => orig.version != v.original_version

/-!
## Mesh registry (tc_mesh_registry.c, tc_mesh.c)
-/

structure MeshRegistry where
  pool : tc_pool tc_mesh
  uuid_to_index : tc_resource_map
  next_uuid : Nat
deriving DecidableEq, Repr

/-- `tc_mesh_init`. -/
def tc_mesh_init : MeshRegistry :=
  ⟨tc_pool_init tc_mesh zeroMesh 64, tc_resource_map_new, 1⟩

def tc_mesh_contains (reg : MeshRegistry) (uuid : String) : Bool :=
  tc_resource_map_contains reg.uuid_to_index uuid

/-- `tc_mesh_find`. -/
def tc_mesh_find (reg : MeshRegistry) (uuid : String) : tc_handle :=
  let ptr := tc_resource_map_get reg.uuid_to_index uuid
  if ¬ tc_has_index ptr then TC_HANDLE_INVALID
  else
    let index := tc_unpack_index ptr
    if index ≥ reg.pool.capacity then TC_HANDLE_INVALID
    else if reg.pool.states.getD index false ≠ true then TC_HANDLE_INVALID
    else ⟨index, reg.pool.generations.getD index 0⟩

/-- `tc_mesh_get`. -/
def tc_mesh_get (reg : MeshRegistry) (h : tc_handle) : Option tc_mesh :=
  tc_pool_get reg.pool h

/-- `tc_mesh_is_valid`. -/
def tc_mesh_is_valid (reg : MeshRegistry) (h : tc_handle) : Bool :=
  tc_pool_is_valid reg.pool h

/-- The slot-initialisation part of `tc_mesh_create` after the pool
allocation succeeded: version 1, marked loaded. -/
def mesh_create_with (reg : MeshRegistry) (final_uuid : String) (next : Nat) :
    tc_handle × MeshRegistry :=
  let r := tc_pool_alloc zeroMesh reg.pool
  if tc_handle_is_invalid r.1 then
    (TC_HANDLE_INVALID, { reg with pool := r.2, next_uuid := next })
  else
    let m : tc_mesh := { zeroMesh with header := { zeroHeader with
      uuid := uuidTrunc final_uuid
      version := 1
      ref_count := 0
      pool_index := r.1.index
      is_loaded := true } }
    let pool2 := pool_write r.2 r.1.index m
    let ar := tc_resource_map_add reg.uuid_to_index m.header.uuid (tc_pack_index r.1.index)
    if ar.1 then
      (r.1, { reg with pool := pool2, uuid_to_index := ar.2, next_uuid := next })
    else
      (TC_HANDLE_INVALID,
       { reg with
          pool := (tc_pool_free_slot pool2 r.1).2
          uuid_to_index := ar.2
          next_uuid := next })

/-- `tc_mesh_create`. -/
def tc_mesh_create (reg : MeshRegistry) (uuid : Option String) :
    tc_handle × MeshRegistry :=
  match uuid with
  | some u =>
      if u ≠ "" then
        if tc_mesh_contains reg u then (TC_HANDLE_INVALID, reg)
        else mesh_create_with reg u reg.next_uuid
      else
        let g := tc_generate_prefixed_uuid "mesh" reg.next_uuid
        mesh_create_with reg g.1 g.2
  | none =>
      let g := tc_generate_prefixed_uuid "mesh" reg.next_uuid
      mesh_create_with reg g.1 g.2

/-- `tc_mesh_declare`: return the mesh if the uuid already exists, else
create an *unloaded* placeholder with version 0. -/
def tc_mesh_declare (reg : MeshRegistry) (uuid : String) (name : Option String) :
    tc_handle × MeshRegistry :=
  let existing := tc_mesh_find reg uuid
  if ¬ tc_handle_is_invalid existing then (existing, reg)
  else
    let r := tc_pool_alloc zeroMesh reg.pool
    if tc_handle_is_invalid r.1 then
      (TC_HANDLE_INVALID, { reg with pool := r.2 })
    else
      let hdr : tc_resource_header := { zeroHeader with
        uuid := uuidTrunc uuid
        version := 0
        ref_count := 0
        pool_index := r.1.index
        is_loaded := false }
      let hdr2 := match name with
        | some n => if n ≠ "" then { hdr with name := some n } else hdr
        | none => hdr
      let m : tc_mesh := { zeroMesh with header := hdr2 }
      let pool2 := pool_write r.2 r.1.index m
      let ar := tc_resource_map_add reg.uuid_to_index m.header.uuid
        (tc_pack_index r.1.index)
      if ar.1 then
        (r.1, { reg with pool := pool2, uuid_to_index := ar.2 })
      else
        (TC_HANDLE_INVALID,
         { reg with pool := (tc_pool_free_slot pool2 r.1).2, uuid_to_index := ar.2 })

/-- `tc_mesh_destroy`: remove from the uuid map, free the vertex/index
payload, free the pool slot. -/
def tc_mesh_destroy (reg : MeshRegistry) (h : tc_handle) : Bool × MeshRegistry :=
  match tc_mesh_get reg h with
  | none => (false, reg)
  | some m =>
      let umap := (tc_resource_map_remove reg.uuid_to_index m.header.uuid).2
      let m1 := { m with vertices := none, indices := none }
      let pool1 := pool_write reg.pool h.index m1
      let fr := tc_pool_free_slot pool1 h
      (fr.1, { reg with pool := fr.2, uuid_to_index := umap })

/-- `tc_mesh_remove`: find by uuid, then destroy. -/
def tc_mesh_remove (reg : MeshRegistry) (uuid : String) : Bool × MeshRegistry :=
  let h := tc_mesh_find reg uuid
  if tc_handle_is_invalid h then (false, reg)
  else tc_mesh_destroy reg h

/-- `tc_mesh_add_ref` (tc_mesh.c) through a pointer to slot `i`. -/
def tc_mesh_add_ref (reg : MeshRegistry) (i : Nat) : MeshRegistry :=
  let m := pool_read reg.pool i
  let m1 := { m with header := { m.header with ref_count := (m.header.ref_count + 1) % U32 } }
  { reg with pool := pool_write reg.pool i m1 }

/-- `tc_mesh_release` (tc_mesh.c) through a pointer to slot `i`:
returns (destroyed, registry, warned). -/
def tc_mesh_release (reg : MeshRegistry) (i : Nat) : Bool × MeshRegistry × Bool :=
  let m := pool_read reg.pool i
  if m.header.ref_count = 0 then (false, reg, true)
  else
    let m1 := { m with header := { m.header with ref_count := m.header.ref_count - 1 } }
    let reg1 := { reg with pool := pool_write reg.pool i m1 }
    if m1.header.ref_count = 0 then
      (true, (tc_mesh_remove reg1 m1.header.uuid).2, false)
    else (false, reg1, false)

/-- `tc_mesh_set_vertices` on a mesh value: copy (or zero-fill) the
vertex blob, store the layout, bump the version.  The C failure
branches are NULL-pointer/allocation failures only. -/
def tc_mesh_set_vertices (mesh : tc_mesh) (data : Option (List Nat))
    (vertex_count : Nat) (layout : tc_vertex_layout) : Bool × tc_mesh :=
  let data_size := vertex_count * layout.stride
  let new_vertices : Option (List Nat) :=
    if data_size > 0 then
      match data with
      | some d => some (d.take data_size)
      | none => some (List.replicate data_size 0)
    else none
  (true, { mesh with
    vertices := new_vertices
    vertex_count := vertex_count
    layout := layout
    header := { mesh.header with version := (mesh.header.version + 1) % U32 } })

/-- `tc_mesh_set_indices` on a mesh value. -/
def tc_mesh_set_indices (mesh : tc_mesh) (data : Option (List Nat))
    (index_count : Nat) : Bool × tc_mesh :=
  let data_size := index_count
  let new_indices : Option (List Nat) :=
    if data_size > 0 then
      match data with
      | some d => some (d.take data_size)
      | none => some (List.replicate data_size 0)
    else none
  (true, { mesh with
    indices := new_indices
    index_count := index_count
    header := { mesh.header with version := (mesh.header.version + 1) % U32 } })

/-- `tc_mesh_set_data` on a mesh value: replace both buffers and the
layout, set the interned name when given, bump the version once, mark
loaded. -/
def tc_mesh_set_data (mesh : tc_mesh) (vertices : Option (List Nat))
    (vertex_count : Nat) (layout : tc_vertex_layout) (indices : Option (List Nat))
    (index_count : Nat) (name : Option String) : Bool × tc_mesh :=
  let mesh := match name with
    | some n => { mesh with header := { mesh.header with name := some n } }
    | none => mesh
  let vertex_size := vertex_count * layout.stride
  let new_vertices : Option (List Nat) :=
    if vertex_size > 0 then
      match vertices with
      | some d => some (d.take vertex_size)
      | none => some (List.replicate vertex_size 0)
    else none
  let index_size := index_count
  let new_indices : Option (List Nat) :=
    if index_size > 0 then
      match indices with
      | some d => some (d.take index_size)
      | none => some (List.replicate index_size 0)
    else none
  (true, { mesh with
    vertices := new_vertices
    vertex_count := vertex_count
    layout := layout
    indices := new_indices
    index_count := index_count
    header := { mesh.header with
      version := (mesh.header.version + 1) % U32
      is_loaded := true } })

/-- `tc_mesh_set_data` called through a `tc_mesh*` obtained from the
registry (pointer = slot index, result written back in place). -/
def tc_mesh_set_data_at (reg : MeshRegistry) (i : Nat) (vertices : Option (List Nat))
    (vertex_count : Nat) (layout : tc_vertex_layout) (indices : Option (List Nat))
    (index_count : Nat) (name : Option String) : Bool × MeshRegistry :=
  let r := tc_mesh_set_data (pool_read reg.pool i) vertices vertex_count layout
    indices index_count name
  (r.1, { reg with pool := pool_write reg.pool i r.2 })

/-- `tc_mesh_get_vertices` export accessor. -/
def tc_mesh_get_vertices (reg : MeshRegistry) (h : tc_handle) : Option (List Nat) :=
  match tc_mesh_get reg h with
  | some m => m.vertices
  | none => none

/-- `tc_mesh_get_vertex_count`. -/
def tc_mesh_get_vertex_count (reg : MeshRegistry) (h : tc_handle) : Nat :=
  match tc_mesh_get reg h with
  | some m => m.vertex_count
  | none => 0

/-- `tc_mesh_get_indices`. -/
def tc_mesh_get_indices (reg : MeshRegistry) (h : tc_handle) : Option (List Nat) :=
  match tc_mesh_get reg h with
  | some m => m.indices
  | none => none

/-- `tc_mesh_get_index_count`. -/
def tc_mesh_get_index_count (reg : MeshRegistry) (h : tc_handle) : Nat :=
  match tc_mesh_get reg h with
  | some m => m.index_count
  | none => 0

/-!
## Texture registry (tc_texture_registry.c, release in tc_texture_registry.c)
-/

structure TextureRegistry where
  pool : tc_pool tc_texture
  uuid_to_index : tc_resource_map
  next_uuid : Nat
deriving DecidableEq, Repr

def tc_texture_init : TextureRegistry :=
  ⟨tc_pool_init tc_texture zeroTexture 64, tc_resource_map_new, 1⟩

def tc_texture_contains (reg : TextureRegistry) (uuid : String) : Bool :=
  tc_resource_map_contains reg.uuid_to_index uuid

/-- `tc_texture_find`. -/
def tc_texture_find (reg : TextureRegistry) (uuid : String) : tc_handle :=
  let ptr := tc_resource_map_get reg.uuid_to_index uuid
  if ¬ tc_has_index ptr then TC_HANDLE_INVALID
  else
    let index := tc_unpack_index ptr
    if index ≥ reg.pool.capacity then TC_HANDLE_INVALID
    else if reg.pool.states.getD index false ≠ true then TC_HANDLE_INVALID
    else ⟨index, reg.pool.generations.getD index 0⟩

def tc_texture_get (reg : TextureRegistry) (h : tc_handle) : Option tc_texture :=
  tc_pool_get reg.pool h

def tc_texture_is_valid (reg : TextureRegistry) (h : tc_handle) : Bool :=
  tc_pool_is_valid reg.pool h

/-- The slot-initialisation part of `tc_texture_create`: version 1 and
`flip_y` defaulted on. -/
def texture_create_with (reg : TextureRegistry) (final_uuid : String) (next : Nat) :
    tc_handle × TextureRegistry :=
  let r := tc_pool_alloc zeroTexture reg.pool
  if tc_handle_is_invalid r.1 then
    (TC_HANDLE_INVALID, { reg with pool := r.2, next_uuid := next })
  else
    let t : tc_texture := { zeroTexture with
      header := { zeroHeader with
        uuid := uuidTrunc final_uuid
        version := 1
        ref_count := 0
        pool_index := r.1.index }
      flip_y := true }
    let pool2 := pool_write r.2 r.1.index t
    let ar := tc_resource_map_add reg.uuid_to_index t.header.uuid (tc_pack_index r.1.index)
    if ar.1 then
      (r.1, { reg with pool := pool2, uuid_to_index := ar.2, next_uuid := next })
    else
      (TC_HANDLE_INVALID,
       { reg with
          pool := (tc_pool_free_slot pool2 r.1).2
          uuid_to_index := ar.2
          next_uuid := next })

/-- `tc_texture_create`. -/
def tc_texture_create (reg : TextureRegistry) (uuid : Option String) :
    tc_handle × TextureRegistry :=
  match uuid with
  | some u =>
      if u ≠ "" then
        if tc_texture_contains reg u then (TC_HANDLE_INVALID, reg)
        else texture_create_with reg u reg.next_uuid
      else
        let g := tc_generate_prefixed_uuid "tex" reg.next_uuid
        texture_create_with reg g.1 g.2
  | none =>
      let g := tc_generate_prefixed_uuid "tex" reg.next_uuid
      texture_create_with reg g.1 g.2

/-- `tc_texture_add_ref` on a texture value (tc_texture_registry.c
increments through the pointer). -/
def tc_texture_add_ref (tex : tc_texture) : tc_texture :=
  { tex with header := { tex.header with ref_count := (tex.header.ref_count + 1) % U32 } }

/-- `tc_texture_release` on a texture value: decrement when positive
and report whether the count is now zero.  It takes no registry and
performs no destruction and no logging. -/
def tc_texture_release (tex : tc_texture) : Bool × tc_texture :=
  let t1 := if tex.header.ref_count > 0 then
      { tex with header := { tex.header with ref_count := tex.header.ref_count - 1 } }
    else tex
  (t1.header.ref_count == 0, t1)

/-- `tc_texture_release` called through a pointer into the registry
pool (the caller pattern): only the pooled struct changes. -/
def tc_texture_release_at (reg : TextureRegistry) (i : Nat) : Bool × TextureRegistry :=
  let r := tc_texture_release (pool_read reg.pool i)
  (r.1, { reg with pool := pool_write reg.pool i r.2 })

/-!
## Material registry (tc_material_registry.c)
-/

structure MaterialRegistry where
  pool : tc_pool tc_material
  uuid_to_index : tc_resource_map
  next_uuid : Nat
deriving DecidableEq, Repr

def tc_material_init : MaterialRegistry :=
  ⟨tc_pool_init tc_material zeroMaterial 64, tc_resource_map_new, 1⟩

/-- `tc_material_find`. -/
def tc_material_find (reg : MaterialRegistry) (uuid : String) : tc_handle :=
  let ptr := tc_resource_map_get reg.uuid_to_index uuid
  if ¬ tc_has_index ptr then TC_HANDLE_INVALID
  else
    let index := tc_unpack_index ptr
    if index ≥ reg.pool.capacity then TC_HANDLE_INVALID
    else if reg.pool.states.getD index false ≠ true then TC_HANDLE_INVALID
    else ⟨index, reg.pool.generations.getD index 0⟩

/-- `tc_material_contains`. -/
def tc_material_contains_uuid (reg : MaterialRegistry) (uuid : String) : Bool :=
  ¬ tc_handle_is_invalid (tc_material_find reg uuid)

def tc_material_get (reg : MaterialRegistry) (h : tc_handle) : Option tc_material :=
  if tc_handle_is_invalid h then none else tc_pool_get reg.pool h

def tc_material_is_valid (reg : MaterialRegistry) (h : tc_handle) : Bool :=
  if tc_handle_is_invalid h then false else tc_pool_is_valid reg.pool h

/-- The slot-initialisation part of `tc_material_create`: version 1,
named, marked loaded. -/
def material_create_with (reg : MaterialRegistry) (final_uuid name : String)
    (next : Nat) : tc_handle × MaterialRegistry :=
  let r := tc_pool_alloc zeroMaterial reg.pool
  if tc_handle_is_invalid r.1 then
    (TC_HANDLE_INVALID, { reg with pool := r.2, next_uuid := next })
  else
    let m : tc_material := { zeroMaterial with
      header := { zeroHeader with
        uuid := uuidTrunc final_uuid
        name := some name
        version := 1
        ref_count := 0
        is_loaded := true } }
    let pool2 := pool_write r.2 r.1.index m
    let ar := tc_resource_map_add reg.uuid_to_index m.header.uuid (tc_pack_index r.1.index)
    if ar.1 then
      (r.1, { reg with pool := pool2, uuid_to_index := ar.2, next_uuid := next })
    else
      (TC_HANDLE_INVALID,
       { reg with
          pool := (tc_pool_free_slot pool2 r.1).2
          uuid_to_index := ar.2
          next_uuid := next })

/-- `tc_material_create`: a non-empty name is required. -/
def tc_material_create (reg : MaterialRegistry) (uuid : Option String)
    (name : Option String) : tc_handle × MaterialRegistry :=
  match name with
  | none => (TC_HANDLE_INVALID, reg)
  | some n =>
      if n = "" then (TC_HANDLE_INVALID, reg)
      else
        match uuid with
        | some u =>
            if u ≠ "" then
              if tc_material_contains_uuid reg u then (TC_HANDLE_INVALID, reg)
              else material_create_with reg u n reg.next_uuid
            else
              let g := tc_generate_prefixed_uuid "mat" reg.next_uuid
              material_create_with reg g.1 n g.2
        | none =>
            let g := tc_generate_prefixed_uuid "mat" reg.next_uuid
            material_create_with reg g.1 n g.2

/-- `material_release_shaders`: release each phase's shader reference
(threading the shader registry, which the C code reaches through its
globals). -/
def material_release_shaders (sreg : ShaderRegistry) (mat : tc_material) :
    ShaderRegistry :=
  mat.phases.foldl
    (fun acc hs =>
      match tc_shader_get acc hs with
      | some _ => (tc_shader_release acc hs.index).2.1
      | none => acc)
    sreg

/-- `tc_material_destroy`: release the phase shader references, remove
from the uuid map, free the pool slot. -/
def tc_material_destroy (sreg : ShaderRegistry) (reg : MaterialRegistry)
    (h : tc_handle) : Bool × ShaderRegistry × MaterialRegistry :=
  match tc_material_get reg h with
  | none => (false, sreg, reg)
  | some m =>
      let sreg1 := material_release_shaders sreg m
      let umap := (tc_resource_map_remove reg.uuid_to_index m.header.uuid).2
      let fr := tc_pool_free_slot reg.pool h
      (true, sreg1, { reg with pool := fr.2, uuid_to_index := umap })

/-- `tc_material_add_ref` through a pointer to slot `i`. -/
def tc_material_add_ref (reg : MaterialRegistry) (i : Nat) : MaterialRegistry :=
  let m := pool_read reg.pool i
  let m1 := { m with header := { m.header with ref_count := (m.header.ref_count + 1) % U32 } }
  { reg with pool := pool_write reg.pool i m1 }

/-- `tc_material_release` through a pointer to slot `i`: returns
(destroyed, shader registry, material registry, warned).  The zero-ref
branch returns false with *no* logging. -/
def tc_material_release (sreg : ShaderRegistry) (reg : MaterialRegistry) (i : Nat) :
    Bool × ShaderRegistry × MaterialRegistry × Bool :=
  let m := pool_read reg.pool i
  if m.header.ref_count = 0 then (false, sreg, reg, false)
  else
    let m1 := { m with header := { m.header with ref_count := m.header.ref_count - 1 } }
    let reg1 := { reg with pool := pool_write reg.pool i m1 }
    if m1.header.ref_count = 0 then
      let h := tc_material_find reg1 m1.header.uuid
      if ¬ tc_handle_is_invalid h then
        let d := tc_material_destroy sreg reg1 h
        (true, d.2.1, d.2.2, false)
      else (true, sreg, reg1, false)
    else (false, sreg, reg1, false)

/-!
## Pool access lemmas shared by the registry claims
-/

theorem pool_get_some_iff {α : Type} [Inhabited α] (p : tc_pool α) (h : tc_handle) (x : α) :
    tc_pool_get p h = some x ↔
      (tc_pool_is_valid p h = true ∧ p.data.getD h.index default = x) := by
  unfold tc_pool_get
  cases hv : tc_pool_is_valid p h <;> simp [hv]

theorem pool_get_none_iff {α : Type} [Inhabited α] (p : tc_pool α) (h : tc_handle) :
    tc_pool_get p h = none ↔ tc_pool_is_valid p h = false := by
  unfold tc_pool_get
  cases hv : tc_pool_is_valid p h <;> simp [hv]

theorem pool_write_is_valid {α : Type} (p : tc_pool α) (j : Nat) (y : α) (h : tc_handle) :
    tc_pool_is_valid (pool_write p j y) h = tc_pool_is_valid p h := rfl

theorem pool_get_write_ne {α : Type} [Inhabited α] (p : tc_pool α) (j : Nat) (y : α)
    (h : tc_handle) (hne : h.index ≠ j) :
    tc_pool_get (pool_write p j y) h = tc_pool_get p h := by
  have hd : (pool_write p j y).data.getD h.index default = p.data.getD h.index default :=
    getD_set_ne p.data j h.index y default (Ne.symm hne)
  unfold tc_pool_get
  rw [pool_write_is_valid, hd]

theorem pool_get_write_self {α : Type} [Inhabited α] (p : tc_pool α) (j : Nat) (y : α)
    (h : tc_handle) (hv : tc_pool_is_valid p h = true) (hi : h.index = j)
    (hlen : j < p.data.length) :
    tc_pool_get (pool_write p j y) h = some y := by
  have hd : (pool_write p j y).data.getD h.index default = y := by
    rw [hi]; exact getD_set_self p.data j y default hlen
  unfold tc_pool_get
  rw [pool_write_is_valid, hd]
  simp [hv]

/-- When the content hash actually changes (or was never set),
`tc_shader_set_sources` succeeds, touches only the addressed pool slot
and the hash map, and bumps that slot's version by one (32-bit wrap). -/
theorem set_sources_spec (reg : ShaderRegistry) (j : Nat) (vs fs gs n sp : Option String)
    (hguard : ¬((pool_read reg.pool j).source_hash ≠ "" ∧
        (pool_read reg.pool j).source_hash = tc_shader_compute_hash vs fs gs)) :
    (tc_shader_set_sources reg j vs fs gs n sp).1 = true ∧
    ∃ s4 hm,
      (tc_shader_set_sources reg j vs fs gs n sp).2 =
        { reg with pool := pool_write reg.pool j s4, hash_to_index := hm } ∧
      s4.version = ((pool_read reg.pool j).version + 1) % U32 := by
  simp only [tc_shader_set_sources]
  rw [if_neg hguard]
  refine ⟨rfl, _, _, rfl, ?_⟩
  rcases sp with _ | pp <;> rcases n with _ | nn <;> dsimp only <;> split_ifs <;> rfl

/-- C8: for a shader `v` marked as a variant, `tc_shader_variant_is_stale`
is true iff the recorded original handle no longer resolves or the
original's version differs from the snapshot taken by
`tc_shader_set_variant_info`; and mutating only the original's sources
(via `tc_shader_set_sources` at the original's slot) flips the result
from false to true while leaving the variant's slot untouched. -/
theorem C8_shader_variant_staleness
    (reg : ShaderRegistry) (h : tc_handle) (v : tc_shader)
    (hv : tc_shader_get reg h = some v) (hvar : v.is_variant = true) :
    (tc_shader_variant_is_stale reg h = true ↔
      (tc_shader_is_valid reg v.original_handle = false ∨
        ∃ orig, tc_shader_get reg v.original_handle = some orig ∧
          orig.version ≠ v.original_version)) ∧
    (∀ vs fs gs n sp orig,
      tc_shader_get reg v.original_handle = some orig →
      orig.version = v.original_version →
      orig.version < U32 →
      h.index ≠ v.original_handle.index →
      v.original_handle.index < reg.pool.data.length →
      orig.source_hash ≠ tc_shader_compute_hash vs fs gs →
      tc_shader_variant_is_stale reg h = false ∧
      tc_shader_get ((tc_shader_set_sources reg v.original_handle.index
          vs fs gs n sp).2) h = some v ∧
      tc_shader_variant_is_stale ((tc_shader_set_sources reg v.original_handle.index
          vs fs gs n sp).2) h = true) := by
  have hstale : tc_shader_variant_is_stale reg h =
      (match tc_shader_get reg v.original_handle with
       | none => true
       | some orig => orig.version != v.original_version) := by
    unfold tc_shader_variant_is_stale
    rw [hv]
    dsimp only
    rw [hvar]
    simp
  constructor
  · rw [hstale]
    cases ho : tc_shader_get reg v.original_handle with
    | none =>
        dsimp only
        constructor
        · intro _
          left
          exact (pool_get_none_iff reg.pool v.original_handle).1 ho
        · intro _
          rfl
    | some orig =>
        have hvalid : tc_pool_is_valid reg.pool v.original_handle = true :=
          ((pool_get_some_iff reg.pool v.original_handle orig).1 ho).1
        dsimp only
        constructor
        · intro hb
          right
          exact ⟨orig, rfl, by simpa using hb⟩
        · rintro (hinv | ⟨o, hoo, hne⟩)
          · have hinv' : tc_pool_is_valid reg.pool v.original_handle = false := hinv
            rw [hvalid] at hinv'
            exact Bool.noConfusion hinv'
          · have he := Option.some.inj hoo
            subst he
            simp only [bne_iff_ne, ne_eq]
            exact hne
  · intro vs fs gs n sp orig ho hver hlt hidx hlen hhash
    have horigval : tc_pool_is_valid reg.pool v.original_handle = true :=
      ((pool_get_some_iff reg.pool v.original_handle orig).1 ho).1
    have hread : pool_read reg.pool v.original_handle.index = orig :=
      ((pool_get_some_iff reg.pool v.original_handle orig).1 ho).2
    have hguard : ¬((pool_read reg.pool v.original_handle.index).source_hash ≠ "" ∧
        (pool_read reg.pool v.original_handle.index).source_hash =
          tc_shader_compute_hash vs fs gs) := by
      rw [hread]
      rintro ⟨-, he⟩
      exact hhash he
    obtain ⟨hret, s4, hm, hreg, hver4⟩ :=
      set_sources_spec reg v.original_handle.index vs fs gs n sp hguard
    rw [hread] at hver4
    have hvernew : s4.version ≠ v.original_version := by
      rw [hver4, ← hver]
      simp only [U32] at hlt ⊢
      omega
    have hget2 : tc_shader_get ((tc_shader_set_sources reg v.original_handle.index
        vs fs gs n sp).2) h = some v := by
      rw [hreg]
      show tc_pool_get (pool_write reg.pool v.original_handle.index s4) h = some v
      rw [pool_get_write_ne reg.pool v.original_handle.index s4 h hidx]
      exact hv
    have hgetorig : tc_shader_get ((tc_shader_set_sources reg v.original_handle.index
        vs fs gs n sp).2) v.original_handle = some s4 := by
      rw [hreg]
      exact pool_get_write_self reg.pool v.original_handle.index s4 v.original_handle
        horigval rfl hlen
    refine ⟨?_, hget2, ?_⟩
    · rw [hstale, ho]
      simp [hver]
    · simp only [tc_shader_variant_is_stale, hget2, hvar, hgetorig]
      simp [hvernew]

/-- If the tombstoning probe loop fails, the lookup probe loop (same
probe sequence, same tests) returns NULL. -/
theorem removeLoop_false_getLoop_zero (entries : List resource_entry) (cap : Nat)
    (k : String) (idx : Nat) :
    ∀ fuel i, (mapRemoveLoop entries cap k idx i fuel).1 = false →
      mapGetLoop entries cap k idx i fuel = 0 := by
  intro fuel
  induction fuel with
  | zero => intro i _; rfl
  | succ fuel ih =>
      intro i hf
      simp only [mapRemoveLoop] at hf
      simp only [mapGetLoop]
      by_cases h1 : (entries.getD ((idx + i) % cap) emptyEntry).state = .empty
      · rw [if_pos h1]
      · rw [if_neg h1] at hf ⊢
        by_cases h2 : entryMatches (entries.getD ((idx + i) % cap) emptyEntry) k
        · rw [if_pos h2] at hf
          exact absurd hf (by simp)
        · rw [if_neg h2] at hf ⊢
          exact ih (i + 1) hf

/-- After `tc_resource_map_remove(map, k)` on a well-formed map, the key
no longer resolves: `tc_resource_map_get(map, k)` is NULL, whether or
not the removal found the key. -/
theorem map_remove_get_self (m : tc_resource_map) (k : String) (hWF : MapWF m) :
    tc_resource_map_get (tc_resource_map_remove m k).2 k = 0 := by
  obtain ⟨hlen, hcap, hcnt, hdel, huniq⟩ := hWF
  unfold tc_resource_map_remove
  cases hr : mapRemoveLoop m.entries m.capacity k (hash_string k % m.capacity) 0 m.capacity with
  | mk b es =>
      cases b with
      | false =>
          dsimp only
          unfold tc_resource_map_get
          exact removeLoop_false_getLoop_zero m.entries m.capacity k _ m.capacity 0
            (by rw [hr])
      | true =>
          dsimp only
          obtain ⟨q, hq, hmatch, hes⟩ :=
            removeLoop_success m.entries m.capacity k _ m.capacity 0 es hr
          unfold tc_resource_map_get
          apply getLoop_zero_of_no_match
          intro p hp
          subst hes
          rw [List.length_set] at hp
          by_cases hpq : p = q
          · subst hpq
            rw [getD_set_self _ _ _ _ hq]
            simp [entryMatches]
          · rw [getD_set_ne _ _ _ _ _ (Ne.symm hpq)]
            rintro ⟨hst, hkey⟩
            exact huniq p hp q hq hpq ⟨hst, hmatch.1, by rw [hkey, hmatch.2]⟩

/-- `tc_shader_release` on a zero-ref shader: no-op plus warning. -/
theorem shader_release_zero (reg : ShaderRegistry) (i : Nat)
    (h0 : (pool_read reg.pool i).ref_count = 0) :
    tc_shader_release reg i = (false, reg, true) := by
  simp only [tc_shader_release]
  rw [if_pos h0]

/-- `tc_shader_release` with at least two references: pure decrement of
the slot's count, no destruction, no warning. -/
theorem shader_release_decrement (reg : ShaderRegistry) (i : Nat)
    (h2 : 2 ≤ (pool_read reg.pool i).ref_count) :
    tc_shader_release reg i =
      (false,
       { reg with pool := pool_write reg.pool i ({ pool_read reg.pool i with
           ref_count := (pool_read reg.pool i).ref_count - 1 }) },
       false) := by
  simp only [tc_shader_release]
  split_ifs with h1 hz hv
  · exact absurd h1 (by omega)
  · omega
  · omega
  · rfl

/-- `tc_shader_release` on the last reference reports destruction and
does not warn. -/
theorem shader_release_one (reg : ShaderRegistry) (i : Nat)
    (h1 : (pool_read reg.pool i).ref_count = 1) :
    (tc_shader_release reg i).1 = true ∧ (tc_shader_release reg i).2.2 = false := by
  simp only [tc_shader_release]
  split_ifs with hz hd hv
  · omega
  · exact ⟨rfl, rfl⟩
  · exact ⟨rfl, rfl⟩
  · omega

/-- `k` iterated `tc_shader_add_ref` calls on slot `i` add `k` to that
slot's reference count (as long as the 32-bit counter does not wrap). -/
theorem shader_add_ref_iterate (reg : ShaderRegistry) (i : Nat) :
    ∀ k, i < reg.pool.data.length →
      (pool_read reg.pool i).ref_count + k < U32 →
      pool_read ((fun r => tc_shader_add_ref r i)^[k] reg).pool i =
        { pool_read reg.pool i with
            ref_count := (pool_read reg.pool i).ref_count + k } ∧
      ((fun r => tc_shader_add_ref r i)^[k] reg).pool.data.length =
        reg.pool.data.length := by
  intro k
  induction k with
  | zero =>
      intro hlen hk
      exact ⟨rfl, rfl⟩
  | succ k ih =>
      intro hlen hk
      obtain ⟨ih1, ih2⟩ := ih hlen (by omega)
      rw [Function.iterate_succ_apply']
      have hlen' : i < ((fun r => tc_shader_add_ref r i)^[k] reg).pool.data.length := by
        rw [ih2]; exact hlen
      have hstep : pool_read
          (tc_shader_add_ref ((fun r => tc_shader_add_ref r i)^[k] reg) i).pool i =
          { pool_read ((fun r => tc_shader_add_ref r i)^[k] reg).pool i with
              ref_count :=
                ((pool_read ((fun r => tc_shader_add_ref r i)^[k] reg).pool i).ref_count
                  + 1) % U32 } :=
        getD_set_self _ i _ default hlen'
      have hmod : ((pool_read reg.pool i).ref_count + k + 1) % U32 =
          (pool_read reg.pool i).ref_count + (k + 1) := by
        rw [Nat.mod_eq_of_lt (by omega)]
        omega
      constructor
      · rw [hstep, ih1]
        dsimp only
        rw [hmod]
      · show (((fun r => tc_shader_add_ref r i)^[k] reg).pool.data.set i _).length =
          reg.pool.data.length
        rw [List.length_set]
        exact ih2

/-- `j` iterated `tc_shader_release` calls on slot `i` subtract `j` from
that slot's reference count while the count stays positive (no
destruction is reached). -/
theorem shader_release_iterate (reg : ShaderRegistry) (i : Nat) :
    ∀ j, i < reg.pool.data.length →
      j < (pool_read reg.pool i).ref_count →
      pool_read ((fun r => (tc_shader_release r i).2.1)^[j] reg).pool i =
        { pool_read reg.pool i with
            ref_count := (pool_read reg.pool i).ref_count - j } ∧
      ((fun r => (tc_shader_release r i).2.1)^[j] reg).pool.data.length =
        reg.pool.data.length := by
  intro j
  induction j with
  | zero =>
      intro hlen hj
      exact ⟨rfl, rfl⟩
  | succ j ih =>
      intro hlen hj
      obtain ⟨ih1, ih2⟩ := ih hlen (by omega)
      rw [Function.iterate_succ_apply']
      have hlen' : i < ((fun r => (tc_shader_release r i).2.1)^[j] reg).pool.data.length := by
        rw [ih2]; exact hlen
      have h2 : 2 ≤ (pool_read ((fun r => (tc_shader_release r i).2.1)^[j] reg).pool i).ref_count := by
        rw [ih1]
        dsimp only
        omega
      have hdec := shader_release_decrement ((fun r => (tc_shader_release r i).2.1)^[j] reg) i h2
      constructor
      · rw [hdec]
        dsimp only
        have hset : (((fun r => (tc_shader_release r i).2.1)^[j] reg).pool.data.set i
            ({ pool_read ((fun r => (tc_shader_release r i).2.1)^[j] reg).pool i with
                ref_count :=
                  (pool_read ((fun r => (tc_shader_release r i).2.1)^[j] reg).pool i).ref_count
                    - 1 })).getD i default =
            { pool_read ((fun r => (tc_shader_release r i).2.1)^[j] reg).pool i with
                ref_count :=
                  (pool_read ((fun r => (tc_shader_release r i).2.1)^[j] reg).pool i).ref_count
                    - 1 } :=
          getD_set_self _ i _ default hlen'
        rw [show pool_read (pool_write ((fun r => (tc_shader_release r i).2.1)^[j] reg).pool i
            ({ pool_read ((fun r => (tc_shader_release r i).2.1)^[j] reg).pool i with
                ref_count :=
                  (pool_read ((fun r => (tc_shader_release r i).2.1)^[j] reg).pool i).ref_count
                    - 1 })) i =
            { pool_read ((fun r => (tc_shader_release r i).2.1)^[j] reg).pool i with
                ref_count :=
                  (pool_read ((fun r => (tc_shader_release r i).2.1)^[j] reg).pool i).ref_count
                    - 1 } from hset]
        rw [ih1]
        dsimp only
        rw [Nat.sub_sub]
      · rw [hdec]
        show ((((fun r => (tc_shader_release r i).2.1)^[j] reg).pool.data.set i _)).length =
          reg.pool.data.length
        rw [List.length_set]
        exact ih2

/-- C4: amended release semantics per resource kind.  Shader and mesh
release decrement the count, warn (and change nothing) on a zero-ref
call, and report destruction exactly when the count reaches zero —
after `n` add_refs from zero, the first `n-1` releases return false and
the `n`-th returns true; for a shader in a coherent registry the
destroying release frees the pool slot and un-maps the uuid.  Material
release has the same decrement/destroy discipline but its zero-ref
branch is silent (no warning is logged).  Texture release never
destroys anything: it only decrements the struct's count and reports
whether the count is now zero, leaving slot states, pool count and the
uuid map untouched. -/
theorem C4_release_semantics :
    (∀ reg : ShaderRegistry, ∀ i : Nat, (pool_read reg.pool i).ref_count = 0 →
      tc_shader_release reg i = (false, reg, true)) ∧
    (∀ reg : ShaderRegistry, ∀ i : Nat, 2 ≤ (pool_read reg.pool i).ref_count →
      tc_shader_release reg i =
        (false, { reg with pool := pool_write reg.pool i ({ pool_read reg.pool i with
            ref_count := (pool_read reg.pool i).ref_count - 1 }) }, false)) ∧
    (∀ reg : ShaderRegistry, ∀ i : Nat, (pool_read reg.pool i).ref_count = 1 →
      (tc_shader_release reg i).1 = true ∧ (tc_shader_release reg i).2.2 = false) ∧
    (∀ reg : ShaderRegistry, ∀ i : Nat,
      (pool_read reg.pool i).ref_count = 1 →
      i < reg.pool.data.length →
      i < reg.pool.states.length →
      i < reg.pool.capacity →
      i ≠ U32 - 1 →
      reg.pool.states.getD i false = true →
      tc_resource_map_get reg.uuid_to_index (pool_read reg.pool i).uuid = tc_pack_index i →
      MapWF reg.uuid_to_index →
      (tc_shader_release reg i).2.1.pool.states.getD i false = false ∧
      tc_resource_map_get (tc_shader_release reg i).2.1.uuid_to_index
        (pool_read reg.pool i).uuid = 0) ∧
    (∀ reg : ShaderRegistry, ∀ i n : Nat, 1 ≤ n → n < U32 →
      i < reg.pool.data.length →
      (pool_read reg.pool i).ref_count = 0 →
      (∀ j, j < n - 1 →
        (tc_shader_release ((fun r => (tc_shader_release r i).2.1)^[j]
          ((fun r => tc_shader_add_ref r i)^[n] reg)) i).1 = false ∧
        (tc_shader_release ((fun r => (tc_shader_release r i).2.1)^[j]
          ((fun r => tc_shader_add_ref r i)^[n] reg)) i).2.2 = false) ∧
      (tc_shader_release ((fun r => (tc_shader_release r i).2.1)^[n - 1]
        ((fun r => tc_shader_add_ref r i)^[n] reg)) i).1 = true) ∧
    (∀ reg : MeshRegistry, ∀ i : Nat, (pool_read reg.pool i).header.ref_count = 0 →
      tc_mesh_release reg i = (false, reg, true)) ∧
    (∀ reg : MeshRegistry, ∀ i : Nat, 2 ≤ (pool_read reg.pool i).header.ref_count →
      tc_mesh_release reg i =
        (false, { reg with pool := pool_write reg.pool i ({ pool_read reg.pool i with header := { (pool_read reg.pool i).header with ref_count := (pool_read reg.pool i).header.ref_count - 1 } }) }, false)) ∧
    (∀ reg : MeshRegistry, ∀ i : Nat, (pool_read reg.pool i).header.ref_count = 1 →
      (tc_mesh_release reg i).1 = true ∧ (tc_mesh_release reg i).2.2 = false) ∧
    (∀ sreg : ShaderRegistry, ∀ reg : MaterialRegistry, ∀ i : Nat,
      (pool_read reg.pool i).header.ref_count = 0 →
      tc_material_release sreg reg i = (false, sreg, reg, false)) ∧
    (∀ sreg : ShaderRegistry, ∀ reg : MaterialRegistry, ∀ i : Nat,
      2 ≤ (pool_read reg.pool i).header.ref_count →
      tc_material_release sreg reg i =
        (false, sreg, { reg with pool := pool_write reg.pool i ({ pool_read reg.pool i with header := { (pool_read reg.pool i).header with ref_count := (pool_read reg.pool i).header.ref_count - 1 } }) }, false)) ∧
    (∀ sreg : ShaderRegistry, ∀ reg : MaterialRegistry, ∀ i : Nat,
      (pool_read reg.pool i).header.ref_count = 1 →
      (tc_material_release sreg reg i).1 = true ∧
      (tc_material_release sreg reg i).2.2.2 = false) ∧
    (∀ tex : tc_texture, tex.header.ref_count = 0 →
      tc_texture_release tex = (true, tex)) ∧
    (∀ tex : tc_texture, tex.header.ref_count = 1 →
      tc_texture_release tex = (true, { tex with header := { tex.header with ref_count := 0 } })) ∧
    (∀ tex : tc_texture, 2 ≤ tex.header.ref_count →
      tc_texture_release tex = (false, { tex with header := { tex.header with ref_count := tex.header.ref_count - 1 } })) ∧
    (∀ reg : TextureRegistry, ∀ i : Nat,
      (tc_texture_release_at reg i).2.pool.states = reg.pool.states ∧
      (tc_texture_release_at reg i).2.pool.count = reg.pool.count ∧
      (tc_texture_release_at reg i).2.uuid_to_index = reg.uuid_to_index) := by
  refine ⟨?_, ?_, ?_, ?_, ?_, ?_, ?_, ?_, ?_, ?_, ?_, ?_, ?_, ?_, ?_⟩
  · exact shader_release_zero
  · exact shader_release_decrement
  · exact shader_release_one
  · intro reg i h1 hdlen hslen hcap hiu hstate hmget hWF
    have hval : tc_pool_is_valid reg.pool ⟨i, reg.pool.generations.getD i 0⟩ = true := by
      unfold tc_pool_is_valid
      dsimp only
      rw [if_neg (by omega : ¬ i ≥ reg.pool.capacity),
        if_neg (by rw [hstate]; exact fun hne => hne rfl),
        if_neg (fun hne => hne rfl)]
    have hfind : tc_shader_find
        { reg with
            pool := pool_write reg.pool i ({ pool_read reg.pool i with ref_count := (pool_read reg.pool i).ref_count - 1 }) }
        (pool_read reg.pool i).uuid = (⟨i, reg.pool.generations.getD i 0⟩ : tc_handle) := by
      unfold tc_shader_find
      dsimp only [pool_write]
      rw [hmget]
      rw [if_neg (by simp [tc_has_index, tc_pack_index])]
      simp only [tc_unpack_index, tc_pack_index, Nat.add_sub_cancel]
      rw [if_neg (by omega : ¬ i ≥ reg.pool.capacity)]
      rw [if_neg (by rw [hstate]; exact fun hne => hne rfl)]
    have hget1 : tc_shader_get
        { reg with
            pool := pool_write reg.pool i ({ pool_read reg.pool i with ref_count := (pool_read reg.pool i).ref_count - 1 }) }
        (⟨i, reg.pool.generations.getD i 0⟩ : tc_handle) =
        some ({ pool_read reg.pool i with ref_count := (pool_read reg.pool i).ref_count - 1 }) := by
      show tc_pool_get (pool_write reg.pool i _) _ = _
      exact pool_get_write_self reg.pool i _ _ hval rfl hdlen
    simp only [tc_shader_release]
    rw [if_neg (by omega : ¬ (pool_read reg.pool i).ref_count = 0)]
    rw [if_pos (by omega : (pool_read reg.pool i).ref_count - 1 = 0)]
    rw [hfind]
    rw [if_pos (by simp [tc_handle_is_invalid]; omega :
      ¬ tc_handle_is_invalid (⟨i, reg.pool.generations.getD i 0⟩ : tc_handle) = true)]
    dsimp only
    unfold tc_shader_destroy
    rw [hget1]
    dsimp only
    constructor
    · unfold tc_pool_free_slot
      dsimp only [pool_write]
      rw [if_neg (by omega : ¬ i ≥ reg.pool.capacity)]
      rw [if_neg (by rw [hstate]; exact fun hne => hne rfl)]
      rw [if_neg (fun hne => hne rfl)]
      dsimp only
      exact getD_set_self reg.pool.states i false false hslen
    · exact map_remove_get_self reg.uuid_to_index (pool_read reg.pool i).uuid hWF
  · intro reg i n hn1 hnU hlen h0
    obtain ⟨ha1, ha2⟩ := shader_add_ref_iterate reg i n hlen (by rw [h0]; omega)
    have hrcN : (pool_read ((fun r => tc_shader_add_ref r i)^[n] reg).pool i).ref_count = n := by
      rw [ha1]
      dsimp only
      omega
    constructor
    · intro j hj
      obtain ⟨hr1, hr2⟩ := shader_release_iterate ((fun r => tc_shader_add_ref r i)^[n] reg)
        i j (by rw [ha2]; exact hlen) (by rw [hrcN]; omega)
      have h2 : 2 ≤ (pool_read ((fun r => (tc_shader_release r i).2.1)^[j]
          ((fun r => tc_shader_add_ref r i)^[n] reg)).pool i).ref_count := by
        rw [hr1]
        dsimp only
        rw [hrcN]
        omega
      rw [shader_release_decrement _ i h2]
      exact ⟨rfl, rfl⟩
    · obtain ⟨hr1, hr2⟩ := shader_release_iterate ((fun r => tc_shader_add_ref r i)^[n] reg)
        i (n - 1) (by rw [ha2]; exact hlen) (by rw [hrcN]; omega)
      have hrc1 : (pool_read ((fun r => (tc_shader_release r i).2.1)^[n - 1]
          ((fun r => tc_shader_add_ref r i)^[n] reg)).pool i).ref_count = 1 := by
        rw [hr1]
        dsimp only
        rw [hrcN]
        omega
      exact (shader_release_one _ i hrc1).1
  · intro reg i h0
    simp only [tc_mesh_release]
    rw [if_pos h0]
  · intro reg i h2
    simp only [tc_mesh_release]
    split_ifs with ha hb
    · omega
    · omega
    · rfl
  · intro reg i h1
    simp only [tc_mesh_release]
    split_ifs with ha hb
    · omega
    · exact ⟨rfl, rfl⟩
    · omega
  · intro sreg reg i h0
    simp only [tc_material_release]
    rw [if_pos h0]
  · intro sreg reg i h2
    simp only [tc_material_release]
    split_ifs with ha hb hc
    · omega
    · omega
    · omega
    · rfl
  · intro sreg reg i h1
    simp only [tc_material_release]
    split_ifs with ha hb hc
    · omega
    · exact ⟨rfl, rfl⟩
    · exact ⟨rfl, rfl⟩
    · omega
  · intro tex h0
    simp [tc_texture_release, h0]
  · intro tex h1
    simp [tc_texture_release, h1]
  · intro tex h2
    unfold tc_texture_release
    rw [if_pos (by omega : tex.header.ref_count > 0)]
    dsimp only
    refine Prod.ext ?_ rfl
    simp only [beq_eq_false_iff_ne, ne_eq]
    omega
  · intro reg i
    exact ⟨rfl, rfl, rfl⟩

/-- An empty shader registry and one-slot material/texture registries
for the release counterexample. -/
def C4sreg : ShaderRegistry :=
  ⟨⟨[], 0, [], [], [], 0⟩, tc_resource_map_new, tc_resource_map_new, 1⟩

def C4mat : tc_material :=
  { zeroMaterial with header := { zeroHeader with uuid := "m" } }

def C4mreg : MaterialRegistry :=
  ⟨⟨[C4mat], 1, [true], [1], [], 1⟩, tc_resource_map_new, 1⟩

def C4tex : tc_texture :=
  { zeroTexture with header := { zeroHeader with uuid := "t", ref_count := 1 } }

def C4treg : TextureRegistry :=
  ⟨⟨[C4tex], 1, [true], [1], [], 1⟩, tc_resource_map_new, 1⟩

/-- C4 counterexample: `tc_material_release` on a zero-ref material is
a silent no-op (the warned flag — true exactly when the C code logs the
zero-ref warning — is false, 4th component), and `tc_texture_release`
on a texture whose count reaches zero reports true yet destroys
nothing: the slot stays occupied, the pool count and uuid map are
untouched. -/
theorem C4_counterexample :
    tc_material_release C4sreg C4mreg 0 = (false, C4sreg, C4mreg, false) ∧
    (tc_texture_release_at C4treg 0).1 = true ∧
    (tc_texture_release_at C4treg 0).2.pool.states.getD 0 false = true ∧
    (tc_texture_release_at C4treg 0).2.uuid_to_index = C4treg.uuid_to_index ∧
    (tc_texture_release_at C4treg 0).2.pool.count = C4treg.pool.count := by
  decide

/-- One-slot shader registries with ref_count 0 and 1 for the release
witness. -/
def C4wreg0 : ShaderRegistry :=
  ⟨⟨[{ zeroShader with uuid := "s" }], 1, [true], [1], [], 1⟩,
   tc_resource_map_new, tc_resource_map_new, 1⟩

def C4wreg1 : ShaderRegistry :=
  ⟨⟨[{ zeroShader with uuid := "s", ref_count := 1 }], 1, [true], [1], [], 1⟩,
   tc_resource_map_new, tc_resource_map_new, 1⟩

/-- Witness for C4 at concrete registries: a zero-ref shader release is
a warned no-op, and releasing the last reference reports destruction
without warning. -/
theorem C4_release_semantics_witness :
    tc_shader_release C4wreg0 0 = (false, C4wreg0, true) ∧
    ((tc_shader_release C4wreg1 0).1 = true ∧ (tc_shader_release C4wreg1 0).2.2 = false) :=
  ⟨C4_release_semantics.1 C4wreg0 0 (by decide),
   C4_release_semantics.2.2.1 C4wreg1 0 (by decide)⟩

theorem is_valid_index_lt {α : Type} (p : tc_pool α) (h : tc_handle)
    (hv : tc_pool_is_valid p h = true) : h.index < p.capacity := by
  unfold tc_pool_is_valid at hv
  split_ifs at hv with h1 h2 h3
  omega

theorem is_valid_states {α : Type} (p : tc_pool α) (h : tc_handle)
    (hv : tc_pool_is_valid p h = true) : p.states.getD h.index false = true := by
  unfold tc_pool_is_valid at hv
  split_ifs at hv with h1 h2 h3
  exact not_not.mp h2

theorem is_valid_gen {α : Type} (p : tc_pool α) (h : tc_handle)
    (hv : tc_pool_is_valid p h = true) : p.generations.getD h.index 0 = h.generation := by
  unfold tc_pool_is_valid at hv
  split_ifs at hv with h1 h2 h3
  exact not_not.mp h3

theorem poolWF_write {α : Type} (p : tc_pool α) (i : Nat) (x : α) (hwf : poolWF p) :
    poolWF (pool_write p i x) := by
  obtain ⟨hd, hs, hg, hf, hgen⟩ := hwf
  exact ⟨by simp only [pool_write]; rw [List.length_set]; exact hd, hs, hg, hf, hgen⟩

/-- The result of `tc_pool_alloc` when the free list is non-empty:
pop its last element. -/
theorem alloc_result {α : Type} (zero : α) (p : tc_pool α) (last : Nat)
    (hlast : p.free_list.getLast? = some last) :
    (tc_pool_alloc zero p).1 = ⟨last, p.generations.getD last 0⟩ ∧
    (tc_pool_alloc zero p).2 =
      { p with
          data := p.data.set last zero
          states := p.states.set last true
          free_list := p.free_list.dropLast
          count := p.count + 1 } := by
  have hne : p.free_list.isEmpty = false := by
    cases hfl : p.free_list with
    | nil => rw [hfl] at hlast; simp at hlast
    | cons a l => rfl
  unfold tc_pool_alloc
  rw [if_neg (by simp [hne])]
  dsimp only
  rw [hlast]
  exact ⟨rfl, rfl⟩

/-- `tc_resource_map_get` on the fresh 16-slot map is NULL for every
key. -/
theorem fresh_map_get (k : String) : tc_resource_map_get tc_resource_map_new k = 0 := by
  unfold tc_resource_map_get
  apply getLoop_zero_of_no_match
  intro p hp
  show ¬ entryMatches ((List.replicate 16 emptyEntry).getD p emptyEntry) k
  rw [getD_replicate]
  simp [entryMatches, emptyEntry]

theorem hex16_ne_empty (n : Nat) : hex16 n ≠ "" := by
  intro h
  have hd : (hex16 n).data = ("" : String).data := by rw [h]
  simp [hex16] at hd

theorem compute_hash_ne_empty (v f g : Option String) :
    tc_shader_compute_hash v f g ≠ "" :=
  hex16_ne_empty _

/-- Adding any key to the fresh map succeeds and occupies exactly one
slot of the otherwise-empty table. -/
theorem fresh_add_struct (k : String) (v : Nat) :
    (tc_resource_map_add tc_resource_map_new k v).1 = true ∧
    ∃ q, q < 16 ∧
      (tc_resource_map_add tc_resource_map_new k v).2.entries =
        (List.replicate 16 emptyEntry).set q ⟨some k, v, .occupied⟩ ∧
      (tc_resource_map_add tc_resource_map_new k v).2.capacity = 16 := by
  have hcont : tc_resource_map_contains tc_resource_map_new k = false := by
    simp [tc_resource_map_contains, fresh_map_get]
  have hmr : mapMaybeResize tc_resource_map_new = tc_resource_map_new := by decide
  unfold tc_resource_map_add
  rw [if_neg (by simp [hcont])]
  dsimp only
  rw [hmr]
  have hsucc : (mapAddLoop tc_resource_map_new.entries tc_resource_map_new.capacity k v
      (hash_string k % tc_resource_map_new.capacity) none 0
      tc_resource_map_new.capacity).1 = true := by
    apply addLoop_success
    refine ⟨0, by decide, ?_⟩
    show ((List.replicate 16 emptyEntry).getD _ emptyEntry).state = .empty
    rw [getD_replicate]
    rfl
  rcases hr : mapAddLoop tc_resource_map_new.entries tc_resource_map_new.capacity k v
      (hash_string k % tc_resource_map_new.capacity) none 0
      tc_resource_map_new.capacity with ⟨b, es, ud⟩
  rw [hr] at hsucc
  simp only at hsucc
  subst hsucc
  obtain ⟨jt, hjt, hes, -⟩ := addLoop_insert_spec tc_resource_map_new.entries
    tc_resource_map_new.capacity k v (hash_string k % tc_resource_map_new.capacity)
    tc_resource_map_new.capacity 0 none
    (fun j2 hj2 => absurd hj2 (by omega)) (fun d hd => by simp at hd) es ud hr
  refine ⟨rfl, (hash_string k % 16 + jt) % 16, Nat.mod_lt _ (by decide), ?_, rfl⟩
  exact hes

/-- No entry of the one-slot map holds a different key. -/
theorem fresh_add_no_match (k k' : String) (v : Nat) (hne : k' ≠ k) :
    ∀ p < (tc_resource_map_add tc_resource_map_new k v).2.entries.length,
      ¬ entryMatches ((tc_resource_map_add tc_resource_map_new k v).2.entries.getD p
        emptyEntry) k' := by
  obtain ⟨-, q, hq, hes, -⟩ := fresh_add_struct k v
  intro p hp
  rw [hes] at hp ⊢
  rw [List.length_set, List.length_replicate] at hp
  by_cases hpq : p = q
  · subst hpq
    rw [getD_set_self _ _ _ _ (by simpa using hp)]
    rintro ⟨-, hkey⟩
    injection hkey with hk
    exact hne hk.symm
  · rw [getD_set_ne _ _ _ _ _ (Ne.symm hpq), getD_replicate]
    simp [entryMatches, emptyEntry]

/-- Looking up a different key after the first add on a fresh map is
NULL. -/
theorem fresh_add_other_get (k k' : String) (v : Nat) (hne : k' ≠ k) :
    tc_resource_map_get (tc_resource_map_add tc_resource_map_new k v).2 k' = 0 := by
  unfold tc_resource_map_get
  apply getLoop_zero_of_no_match
  exact fresh_add_no_match k k' v hne

/-- `tc_shader_set_sources` on a slot whose content hash was never set
(`""`): succeed, register the new hash for the slot, bump the version. -/
theorem set_sources_spec2 (reg : ShaderRegistry) (j : Nat) (vs fs gs n sp : Option String)
    (hhash0 : (pool_read reg.pool j).source_hash = "")
    (hocc : reg.pool.states.getD j false = true) :
    (tc_shader_set_sources reg j vs fs gs n sp).1 = true ∧
    ∃ s4,
      (tc_shader_set_sources reg j vs fs gs n sp).2 =
        { reg with
            pool := pool_write reg.pool j s4
            hash_to_index := (tc_resource_map_add reg.hash_to_index
              (tc_shader_compute_hash vs fs gs) (tc_pack_index j)).2 } ∧
      s4.source_hash = tc_shader_compute_hash vs fs gs ∧
      s4.version = ((pool_read reg.pool j).version + 1) % U32 := by
  simp only [tc_shader_set_sources]
  rw [if_neg (show ¬((pool_read reg.pool j).source_hash ≠ "" ∧
    (pool_read reg.pool j).source_hash = tc_shader_compute_hash vs fs gs) from
    fun hc => hc.1 hhash0)]
  rw [if_neg (show ¬((pool_read reg.pool j).source_hash ≠ "") from fun hc => hc hhash0)]
  rw [if_pos (show tc_shader_compute_hash vs fs gs ≠ "" ∧
    reg.pool.states.getD j false = true from ⟨compute_hash_ne_empty vs fs gs, hocc⟩)]
  refine ⟨rfl, _, rfl, ?_, ?_⟩
  · rcases sp with _ | pp <;> rcases n with _ | nn <;> dsimp only <;> split_ifs <;> rfl
  · rcases sp with _ | pp <;> rcases n with _ | nn <;> dsimp only <;> split_ifs <;> rfl

/-- `shader_create_with` when the pool allocation and the uuid-map add
both succeed. -/
theorem shader_create_with_success (reg : ShaderRegistry) (u : String) (next : Nat)
    (hinv : tc_handle_is_invalid (tc_pool_alloc zeroShader reg.pool).1 = false)
    (hadd : (tc_resource_map_add reg.uuid_to_index (uuidTrunc u)
      (tc_pack_index (tc_pool_alloc zeroShader reg.pool).1.index)).1 = true) :
    shader_create_with reg u next =
      ((tc_pool_alloc zeroShader reg.pool).1,
       { reg with
          pool := pool_write (tc_pool_alloc zeroShader reg.pool).2
            (tc_pool_alloc zeroShader reg.pool).1.index
            ({ zeroShader with
                uuid := uuidTrunc u
                version := 1
                ref_count := 0
                pool_index := (tc_pool_alloc zeroShader reg.pool).1.index
                original_handle := TC_HANDLE_INVALID })
          uuid_to_index := (tc_resource_map_add reg.uuid_to_index (uuidTrunc u)
            (tc_pack_index (tc_pool_alloc zeroShader reg.pool).1.index)).2
          next_uuid := next }) := by
  simp only [shader_create_with]
  rw [if_neg (by simp [hinv])]
  rw [if_pos hadd]

/-- `tc_shader_from_sources` without a uuid when the content hash is
*not* registered: allocate a slot, register the generated uuid and the
content hash, store the sources with version 2 (creation writes 1, the
set-sources step bumps it). -/
theorem from_sources_create_spec (reg : ShaderRegistry) (vs fs : String)
    (gs n sp : Option String)
    (hwfp : poolWF reg.pool)
    (hno : ∀ p < reg.hash_to_index.entries.length,
      ¬ entryMatches (reg.hash_to_index.entries.getD p emptyEntry)
        (tc_shader_compute_hash (some vs) (some fs) gs))
    (hinv : tc_handle_is_invalid (tc_pool_alloc zeroShader reg.pool).1 = false)
    (hadd : (tc_resource_map_add reg.uuid_to_index
      (uuidTrunc ("shader-" ++ hex16 reg.next_uuid))
      (tc_pack_index (tc_pool_alloc zeroShader reg.pool).1.index)).1 = true) :
    ∃ s4,
      tc_shader_from_sources reg (some vs) (some fs) gs n sp none =
        ((tc_pool_alloc zeroShader reg.pool).1,
         { reg with
            pool := pool_write (pool_write (tc_pool_alloc zeroShader reg.pool).2 (tc_pool_alloc zeroShader reg.pool).1.index ({ zeroShader with uuid := uuidTrunc ("shader-" ++ hex16 reg.next_uuid), version := 1, ref_count := 0, pool_index := (tc_pool_alloc zeroShader reg.pool).1.index, original_handle := TC_HANDLE_INVALID })) (tc_pool_alloc zeroShader reg.pool).1.index s4
            uuid_to_index := (tc_resource_map_add reg.uuid_to_index (uuidTrunc ("shader-" ++ hex16 reg.next_uuid)) (tc_pack_index (tc_pool_alloc zeroShader reg.pool).1.index)).2
            hash_to_index := (tc_resource_map_add reg.hash_to_index (tc_shader_compute_hash (some vs) (some fs) gs) (tc_pack_index (tc_pool_alloc zeroShader reg.pool).1.index)).2
            next_uuid := reg.next_uuid + 1 }) ∧
      s4.source_hash = tc_shader_compute_hash (some vs) (some fs) gs ∧
      s4.version = 2 := by
  have hv := alloc_is_valid zeroShader reg.pool hwfp
  have hwf2 := poolWF_alloc zeroShader reg.pool hwfp
  have hdl : (tc_pool_alloc zeroShader reg.pool).1.index <
      (tc_pool_alloc zeroShader reg.pool).2.data.length := by
    rw [hwf2.1]
    exact is_valid_index_lt _ _ hv
  have hfind1 : tc_shader_find_by_hash reg
      (tc_shader_compute_hash (some vs) (some fs) gs) = TC_HANDLE_INVALID := by
    unfold tc_shader_find_by_hash
    rw [show tc_resource_map_get reg.hash_to_index
        (tc_shader_compute_hash (some vs) (some fs) gs) = 0 from by
      unfold tc_resource_map_get
      exact getLoop_zero_of_no_match _ _ _ _ hno _ _]
    rw [if_pos (by simp [tc_has_index])]
  have hcw2 : tc_shader_create reg none =
      ((tc_pool_alloc zeroShader reg.pool).1,
       { reg with
          pool := pool_write (tc_pool_alloc zeroShader reg.pool).2 (tc_pool_alloc zeroShader reg.pool).1.index ({ zeroShader with uuid := uuidTrunc ("shader-" ++ hex16 reg.next_uuid), version := 1, ref_count := 0, pool_index := (tc_pool_alloc zeroShader reg.pool).1.index, original_handle := TC_HANDLE_INVALID })
          uuid_to_index := (tc_resource_map_add reg.uuid_to_index (uuidTrunc ("shader-" ++ hex16 reg.next_uuid)) (tc_pack_index (tc_pool_alloc zeroShader reg.pool).1.index)).2
          next_uuid := reg.next_uuid + 1 }) :=
    shader_create_with_success reg ("shader-" ++ hex16 reg.next_uuid)
      (reg.next_uuid + 1) hinv hadd
  have hhash0 : (pool_read ({ reg with
      pool := pool_write (tc_pool_alloc zeroShader reg.pool).2 (tc_pool_alloc zeroShader reg.pool).1.index ({ zeroShader with uuid := uuidTrunc ("shader-" ++ hex16 reg.next_uuid), version := 1, ref_count := 0, pool_index := (tc_pool_alloc zeroShader reg.pool).1.index, original_handle := TC_HANDLE_INVALID })
      uuid_to_index := (tc_resource_map_add reg.uuid_to_index (uuidTrunc ("shader-" ++ hex16 reg.next_uuid)) (tc_pack_index (tc_pool_alloc zeroShader reg.pool).1.index)).2
      next_uuid := reg.next_uuid + 1 } : ShaderRegistry).pool
      (tc_pool_alloc zeroShader reg.pool).1.index).source_hash = "" := by
    show (((tc_pool_alloc zeroShader reg.pool).2.data.set
      (tc_pool_alloc zeroShader reg.pool).1.index _).getD
      (tc_pool_alloc zeroShader reg.pool).1.index default).source_hash = ""
    rw [getD_set_self _ _ _ _ hdl]
    rfl
  have hocc2 : ({ reg with
      pool := pool_write (tc_pool_alloc zeroShader reg.pool).2 (tc_pool_alloc zeroShader reg.pool).1.index ({ zeroShader with uuid := uuidTrunc ("shader-" ++ hex16 reg.next_uuid), version := 1, ref_count := 0, pool_index := (tc_pool_alloc zeroShader reg.pool).1.index, original_handle := TC_HANDLE_INVALID })
      uuid_to_index := (tc_resource_map_add reg.uuid_to_index (uuidTrunc ("shader-" ++ hex16 reg.next_uuid)) (tc_pack_index (tc_pool_alloc zeroShader reg.pool).1.index)).2
      next_uuid := reg.next_uuid + 1 } : ShaderRegistry).pool.states.getD
      (tc_pool_alloc zeroShader reg.pool).1.index false = true := by
    show (tc_pool_alloc zeroShader reg.pool).2.states.getD
      (tc_pool_alloc zeroShader reg.pool).1.index false = true
    exact is_valid_states _ _ hv
  obtain ⟨hss1, s4, hsseq, hs4h, hs4v⟩ := set_sources_spec2 _
    (tc_pool_alloc zeroShader reg.pool).1.index (some vs) (some fs) gs n sp hhash0 hocc2
  have hs4v2 : s4.version = 2 := by
    rw [hs4v]
    rw [show (pool_read ({ reg with
        pool := pool_write (tc_pool_alloc zeroShader reg.pool).2 (tc_pool_alloc zeroShader reg.pool).1.index ({ zeroShader with uuid := uuidTrunc ("shader-" ++ hex16 reg.next_uuid), version := 1, ref_count := 0, pool_index := (tc_pool_alloc zeroShader reg.pool).1.index, original_handle := TC_HANDLE_INVALID })
        uuid_to_index := (tc_resource_map_add reg.uuid_to_index (uuidTrunc ("shader-" ++ hex16 reg.next_uuid)) (tc_pack_index (tc_pool_alloc zeroShader reg.pool).1.index)).2
        next_uuid := reg.next_uuid + 1 } : ShaderRegistry).pool
        (tc_pool_alloc zeroShader reg.pool).1.index).version = 1 from by
      show (((tc_pool_alloc zeroShader reg.pool).2.data.set
        (tc_pool_alloc zeroShader reg.pool).1.index _).getD
        (tc_pool_alloc zeroShader reg.pool).1.index default).version = 1
      rw [getD_set_self _ _ _ _ hdl]]
    decide
  refine ⟨s4, ?_, hs4h, hs4v2⟩
  simp only [tc_shader_from_sources]
  rw [hfind1]
  rw [if_neg (by decide : ¬ ¬ tc_handle_is_invalid TC_HANDLE_INVALID = true)]
  rw [hcw2]
  dsimp only
  rw [if_neg (by simp [hinv])]
  rw [hss1, if_pos rfl, hsseq]

/-- `tc_shader_from_sources` without a uuid when the content hash is
already registered: return the mapped handle, registry untouched. -/
theorem from_sources_found (reg : ShaderRegistry) (vs fs : String) (gs n sp : Option String)
    (h : tc_handle)
    (hfind : tc_shader_find_by_hash reg (tc_shader_compute_hash (some vs) (some fs) gs) = h)
    (hinv : tc_handle_is_invalid h = false) :
    tc_shader_from_sources reg (some vs) (some fs) gs n sp none = (h, reg) := by
  simp only [tc_shader_from_sources]
  rw [hfind]
  rw [if_pos (by simp [hinv])]

/-- The handle returned by the creating path of `tc_shader_from_sources`
is the pool-allocator's handle. -/
theorem from_sources_create_fst (reg : ShaderRegistry) (vs fs : String)
    (gs n sp : Option String)
    (hwfp : poolWF reg.pool)
    (hno : ∀ p < reg.hash_to_index.entries.length,
      ¬ entryMatches (reg.hash_to_index.entries.getD p emptyEntry)
        (tc_shader_compute_hash (some vs) (some fs) gs))
    (hinv : tc_handle_is_invalid (tc_pool_alloc zeroShader reg.pool).1 = false)
    (hadd : (tc_resource_map_add reg.uuid_to_index
      (uuidTrunc ("shader-" ++ hex16 reg.next_uuid))
      (tc_pack_index (tc_pool_alloc zeroShader reg.pool).1.index)).1 = true) :
    (tc_shader_from_sources reg (some vs) (some fs) gs n sp none).1 =
      (tc_pool_alloc zeroShader reg.pool).1 := by
  obtain ⟨s4, heq, -, -⟩ := from_sources_create_spec reg vs fs gs n sp hwfp hno hinv hadd
  rw [heq]

/-- No entry of the fresh shader registry's hash map matches any key. -/
theorem init_hash_no_match (k : String) :
    ∀ p < tc_shader_init.hash_to_index.entries.length,
      ¬ entryMatches (tc_shader_init.hash_to_index.entries.getD p emptyEntry) k := by
  intro p hp
  show ¬ entryMatches ((List.replicate 16 emptyEntry).getD p emptyEntry) k
  rw [getD_replicate]
  simp [entryMatches, emptyEntry]

/-- `tc_shader_from_sources` with an existing uuid: update that
shader's sources in place and return its handle. -/
theorem from_sources_uuid_update (reg : ShaderRegistry) (vs fs : String)
    (gs n sp : Option String) (u : String) (h : tc_handle)
    (hu : u ≠ "")
    (hfind : tc_shader_find reg u = h)
    (hinv : tc_handle_is_invalid h = false) :
    tc_shader_from_sources reg (some vs) (some fs) gs n sp (some u) =
      (h, (tc_shader_set_sources reg h.index (some vs) (some fs) gs n sp).2) := by
  simp only [tc_shader_from_sources]
  rw [if_pos hu]
  rw [hfind]
  rw [if_pos (by simp [hinv])]

/-- A creating `tc_shader_from_sources` call on the fresh registry's
pool after its slot 63 was written twice (creation, then set-sources)
allocates slot 62, whatever the stored shader values and maps are. -/
theorem from_sources_second_handle (x y : tc_shader) (h1 h2 : tc_resource_map) (nx : Nat)
    (vs2 fs2 : String) (gs2 : Option String)
    (hno : ∀ p < h2.entries.length, ¬ entryMatches (h2.entries.getD p emptyEntry)
      (tc_shader_compute_hash (some vs2) (some fs2) gs2))
    (hadd : (tc_resource_map_add h1 (uuidTrunc ("shader-" ++ hex16 nx))
      (tc_pack_index 62)).1 = true) :
    (tc_shader_from_sources
      ⟨pool_write (pool_write (tc_pool_alloc zeroShader tc_shader_init.pool).2
          (tc_pool_alloc zeroShader tc_shader_init.pool).1.index x)
        (tc_pool_alloc zeroShader tc_shader_init.pool).1.index y, h1, h2, nx⟩
      (some vs2) (some fs2) gs2 none none none).1 = (⟨62, 1⟩ : tc_handle) := by
  have hlast : (pool_write (pool_write (tc_pool_alloc zeroShader tc_shader_init.pool).2
      (tc_pool_alloc zeroShader tc_shader_init.pool).1.index x)
      (tc_pool_alloc zeroShader tc_shader_init.pool).1.index y).free_list.getLast? =
      some 62 := by
    show (tc_pool_alloc zeroShader tc_shader_init.pool).2.free_list.getLast? = some 62
    decide
  have hallocfst := (alloc_result zeroShader
    (pool_write (pool_write (tc_pool_alloc zeroShader tc_shader_init.pool).2
      (tc_pool_alloc zeroShader tc_shader_init.pool).1.index x)
      (tc_pool_alloc zeroShader tc_shader_init.pool).1.index y) 62 hlast).1
  have hgen62 : (pool_write (pool_write (tc_pool_alloc zeroShader tc_shader_init.pool).2
      (tc_pool_alloc zeroShader tc_shader_init.pool).1.index x)
      (tc_pool_alloc zeroShader tc_shader_init.pool).1.index y).generations.getD 62 0 =
      1 := by
    show (tc_pool_alloc zeroShader tc_shader_init.pool).2.generations.getD 62 0 = 1
    decide
  refine Eq.trans (from_sources_create_fst _ vs2 fs2 gs2 none none ?_ ?_ ?_ ?_) ?_
  · exact poolWF_write _ _ _ (poolWF_write _ _ _
      (poolWF_alloc zeroShader tc_shader_init.pool (by decide)))
  · exact hno
  · show tc_handle_is_invalid (tc_pool_alloc zeroShader
      (pool_write (pool_write (tc_pool_alloc zeroShader tc_shader_init.pool).2
        (tc_pool_alloc zeroShader tc_shader_init.pool).1.index x)
        (tc_pool_alloc zeroShader tc_shader_init.pool).1.index y)).1 = false
    rw [hallocfst, hgen62]
    decide
  · show (tc_resource_map_add h1 (uuidTrunc ("shader-" ++ hex16 nx))
      (tc_pack_index (tc_pool_alloc zeroShader
        (pool_write (pool_write (tc_pool_alloc zeroShader tc_shader_init.pool).2
          (tc_pool_alloc zeroShader tc_shader_init.pool).1.index x)
          (tc_pool_alloc zeroShader tc_shader_init.pool).1.index y)).1.index)).1 = true
    rw [hallocfst]
    exact hadd
  · show (tc_pool_alloc zeroShader
      (pool_write (pool_write (tc_pool_alloc zeroShader tc_shader_init.pool).2
        (tc_pool_alloc zeroShader tc_shader_init.pool).1.index x)
        (tc_pool_alloc zeroShader tc_shader_init.pool).1.index y)).1 = (⟨62, 1⟩ : tc_handle)
    rw [hallocfst, hgen62]

/-- C5: `tc_shader_from_sources` deduplication.  (1) On any registry in
which the content hash of the given sources is not yet registered
(well-formed hash map, allocator and uuid-map coherent), a second call
with the identical sources returns the very handle produced by the
first call and leaves the registry untouched.  (2) Starting from the
fresh registry, a call with sources whose content hash differs returns
a different handle (slot 62 instead of 63).  (3) Passing the first
shader's uuid explicitly returns the same handle and bumps the stored
shader's version from 2 to 3. -/
theorem C5_from_sources_dedup :
    (∀ reg : ShaderRegistry, ∀ vs fs : String, ∀ gs n sp : Option String,
      poolWF reg.pool →
      MapWF reg.hash_to_index →
      (∀ p < reg.hash_to_index.entries.length,
        ¬ entryMatches (reg.hash_to_index.entries.getD p emptyEntry)
          (tc_shader_compute_hash (some vs) (some fs) gs)) →
      tc_handle_is_invalid (tc_pool_alloc zeroShader reg.pool).1 = false →
      (tc_resource_map_add reg.uuid_to_index
        (uuidTrunc ("shader-" ++ hex16 reg.next_uuid))
        (tc_pack_index (tc_pool_alloc zeroShader reg.pool).1.index)).1 = true →
      tc_shader_from_sources
          (tc_shader_from_sources reg (some vs) (some fs) gs n sp none).2
          (some vs) (some fs) gs n sp none =
        ((tc_shader_from_sources reg (some vs) (some fs) gs n sp none).1,
         (tc_shader_from_sources reg (some vs) (some fs) gs n sp none).2)) ∧
    (∀ vs fs vs2 fs2 : String, ∀ gs gs2 : Option String,
      tc_shader_compute_hash (some vs2) (some fs2) gs2 ≠
        tc_shader_compute_hash (some vs) (some fs) gs →
      (tc_shader_from_sources tc_shader_init (some vs) (some fs) gs none none none).1 =
        (⟨63, 1⟩ : tc_handle) ∧
      (tc_shader_from_sources
        (tc_shader_from_sources tc_shader_init (some vs) (some fs) gs none none none).2
        (some vs2) (some fs2) gs2 none none none).1 = (⟨62, 1⟩ : tc_handle)) ∧
    (∀ vs fs vs2 fs2 : String, ∀ gs gs2 : Option String,
      tc_shader_compute_hash (some vs2) (some fs2) gs2 ≠
        tc_shader_compute_hash (some vs) (some fs) gs →
      (tc_shader_from_sources
          (tc_shader_from_sources tc_shader_init (some vs) (some fs) gs none none none).2
          (some vs2) (some fs2) gs2 none none (some "shader-0000000000000001")).1 =
        (tc_shader_from_sources tc_shader_init (some vs) (some fs) gs none none none).1 ∧
      (∃ m2, tc_shader_get
          (tc_shader_from_sources tc_shader_init (some vs) (some fs) gs none none none).2
          (tc_shader_from_sources tc_shader_init (some vs) (some fs) gs none none none).1 =
          some m2 ∧ m2.version = 2) ∧
      (∃ m, tc_shader_get
          (tc_shader_from_sources
            (tc_shader_from_sources tc_shader_init (some vs) (some fs) gs none none none).2
            (some vs2) (some fs2) gs2 none none (some "shader-0000000000000001")).2
          (tc_shader_from_sources tc_shader_init (some vs) (some fs) gs none none none).1 =
          some m ∧ m.version = 3)) := by
  refine ⟨?_, ?_, ?_⟩
  · intro reg vs fs gs n sp hwfp hwfm hno hinv hadd
    obtain ⟨s4, heq, -, -⟩ := from_sources_create_spec reg vs fs gs n sp hwfp hno hinv hadd
    have hv := alloc_is_valid zeroShader reg.pool hwfp
    have hlt := is_valid_index_lt _ _ hv
    have hfind2 : tc_shader_find_by_hash
        (tc_shader_from_sources reg (some vs) (some fs) gs n sp none).2
        (tc_shader_compute_hash (some vs) (some fs) gs) =
        (tc_pool_alloc zeroShader reg.pool).1 := by
      rw [congrArg Prod.snd heq]
      dsimp only
      unfold tc_shader_find_by_hash
      dsimp only [pool_write]
      rw [(map_add_found reg.hash_to_index (tc_shader_compute_hash (some vs) (some fs) gs)
        (tc_pack_index (tc_pool_alloc zeroShader reg.pool).1.index)
        hwfm.1 hwfm.2.1 hwfm.2.2.1 hwfm.2.2.2.1 hno).2]
      rw [if_neg (by simp [tc_has_index, tc_pack_index])]
      simp only [tc_unpack_index, tc_pack_index, Nat.add_sub_cancel]
      rw [if_neg (by omega : ¬ (tc_pool_alloc zeroShader reg.pool).1.index ≥
        (tc_pool_alloc zeroShader reg.pool).2.capacity)]
      rw [if_neg (by rw [is_valid_states _ _ hv]; exact fun hc => hc rfl)]
      rw [is_valid_gen _ _ hv]
    have hfst : (tc_shader_from_sources reg (some vs) (some fs) gs n sp none).1 =
        (tc_pool_alloc zeroShader reg.pool).1 := by
      rw [heq]
    rw [hfst]
    exact from_sources_found _ vs fs gs n sp _ hfind2 hinv
  · intro vs fs vs2 fs2 gs gs2 hne
    obtain ⟨s4, heq, hs4h, hs4v⟩ := from_sources_create_spec tc_shader_init vs fs gs
      none none (by decide) (init_hash_no_match _) (by decide) (by decide)
    constructor
    · rw [heq]
      exact (by decide : (tc_pool_alloc zeroShader tc_shader_init.pool).1 =
        (⟨63, 1⟩ : tc_handle))
    · rw [congrArg Prod.snd heq]
      dsimp only
      refine from_sources_second_handle _ _ _ _ _ vs2 fs2 gs2 ?_ ?_
      · exact fresh_add_no_match (tc_shader_compute_hash (some vs) (some fs) gs)
          (tc_shader_compute_hash (some vs2) (some fs2) gs2)
          (tc_pack_index (tc_pool_alloc zeroShader tc_shader_init.pool).1.index) hne
      · decide
  · intro vs fs vs2 fs2 gs gs2 hne
    obtain ⟨s4, heq, hs4h, hs4v⟩ := from_sources_create_spec tc_shader_init vs fs gs
      none none (by decide) (init_hash_no_match _) (by decide) (by decide)
    have hfind4 : tc_shader_find
        (tc_shader_from_sources tc_shader_init (some vs) (some fs) gs none none none).2
        "shader-0000000000000001" = (⟨63, 1⟩ : tc_handle) := by
      rw [congrArg Prod.snd heq]
      dsimp only
      unfold tc_shader_find
      dsimp only [pool_write]
      rw [show tc_resource_map_get (tc_resource_map_add tc_shader_init.uuid_to_index
        (uuidTrunc ("shader-" ++ hex16 tc_shader_init.next_uuid))
        (tc_pack_index (tc_pool_alloc zeroShader tc_shader_init.pool).1.index)).2
        "shader-0000000000000001" = 64 from by decide]
      rw [if_neg (by decide : ¬ ¬ tc_has_index 64 = true)]
      rw [show tc_unpack_index 64 = 63 from by decide]
      rw [if_neg (by decide : ¬ 63 ≥ (tc_pool_alloc zeroShader tc_shader_init.pool).2.capacity)]
      rw [if_neg (by decide :
        ¬ (tc_pool_alloc zeroShader tc_shader_init.pool).2.states.getD 63 false ≠ true)]
      exact (by decide :
        (⟨63, (tc_pool_alloc zeroShader tc_shader_init.pool).2.generations.getD 63 0⟩ :
          tc_handle) = (⟨63, 1⟩ : tc_handle))
    have hread63 : pool_read
        (tc_shader_from_sources tc_shader_init (some vs) (some fs) gs none none none).2.pool
        63 = s4 := by
      rw [congrArg Prod.snd heq]
      dsimp only
      show (((tc_pool_alloc zeroShader tc_shader_init.pool).2.data.set
        (tc_pool_alloc zeroShader tc_shader_init.pool).1.index _).set
        (tc_pool_alloc zeroShader tc_shader_init.pool).1.index s4).getD 63 default = s4
      rw [show (tc_pool_alloc zeroShader tc_shader_init.pool).1.index = 63 from by decide]
      refine getD_set_self _ _ _ _ ?_
      rw [List.length_set]
      decide
    have hguard4 : ¬((pool_read
        (tc_shader_from_sources tc_shader_init (some vs) (some fs) gs none none
          none).2.pool 63).source_hash ≠ "" ∧
        (pool_read (tc_shader_from_sources tc_shader_init (some vs) (some fs) gs none none
          none).2.pool 63).source_hash =
          tc_shader_compute_hash (some vs2) (some fs2) gs2) := by
      rw [hread63, hs4h]
      rintro ⟨-, he⟩
      exact hne he.symm
    obtain ⟨hss1, s4b, hm4, hsseq, hs4bver⟩ := set_sources_spec
      (tc_shader_from_sources tc_shader_init (some vs) (some fs) gs none none none).2
      63 (some vs2) (some fs2) gs2 none none hguard4
    have hcall4 := from_sources_uuid_update
      (tc_shader_from_sources tc_shader_init (some vs) (some fs) gs none none none).2
      vs2 fs2 gs2 none none "shader-0000000000000001" ⟨63, 1⟩ (by decide) hfind4 (by decide)
    have hfst1 : (tc_shader_from_sources tc_shader_init (some vs) (some fs) gs none none
        none).1 = (⟨63, 1⟩ : tc_handle) := by
      rw [heq]
      exact (by decide : (tc_pool_alloc zeroShader tc_shader_init.pool).1 =
        (⟨63, 1⟩ : tc_handle))
    have hvalid63 : tc_pool_is_valid
        (tc_shader_from_sources tc_shader_init (some vs) (some fs) gs none none
          none).2.pool (⟨63, 1⟩ : tc_handle) = true := by
      rw [congrArg Prod.snd heq]
      exact (by decide : tc_pool_is_valid (tc_pool_alloc zeroShader tc_shader_init.pool).2
        (⟨63, 1⟩ : tc_handle) = true)
    have hdlen63 : (63 : Nat) <
        (tc_shader_from_sources tc_shader_init (some vs) (some fs) gs none none
          none).2.pool.data.length := by
      rw [congrArg Prod.snd heq]
      show (63 : Nat) < (((tc_pool_alloc zeroShader tc_shader_init.pool).2.data.set
        (tc_pool_alloc zeroShader tc_shader_init.pool).1.index _).set
        (tc_pool_alloc zeroShader tc_shader_init.pool).1.index s4).length
      rw [List.length_set, List.length_set]
      decide
    refine ⟨?_, ⟨s4, ?_, hs4v⟩, ⟨s4b, ?_, ?_⟩⟩
    · rw [hcall4, hfst1]
    · rw [hfst1]
      show tc_pool_get (tc_shader_from_sources tc_shader_init (some vs) (some fs) gs none
        none none).2.pool (⟨63, 1⟩ : tc_handle) = some s4
      rw [show (tc_shader_from_sources tc_shader_init (some vs) (some fs) gs none none
        none).2.pool = pool_write (pool_write (tc_pool_alloc zeroShader
          tc_shader_init.pool).2 (tc_pool_alloc zeroShader tc_shader_init.pool).1.index
          ({ zeroShader with uuid := uuidTrunc ("shader-" ++ hex16 tc_shader_init.next_uuid), version := 1, ref_count := 0, pool_index := (tc_pool_alloc zeroShader tc_shader_init.pool).1.index, original_handle := TC_HANDLE_INVALID }))
          (tc_pool_alloc zeroShader tc_shader_init.pool).1.index s4 from by
        rw [congrArg Prod.snd heq]]
      refine pool_get_write_self _ _ _ _ ?_ (by decide) ?_
      · rw [pool_write_is_valid]
        exact (by decide : tc_pool_is_valid
          (tc_pool_alloc zeroShader tc_shader_init.pool).2 (⟨63, 1⟩ : tc_handle) = true)
      · show (tc_pool_alloc zeroShader tc_shader_init.pool).1.index <
          ((tc_pool_alloc zeroShader tc_shader_init.pool).2.data.set
            (tc_pool_alloc zeroShader tc_shader_init.pool).1.index _).length
        rw [List.length_set]
        decide
    · rw [hcall4, hfst1]
      dsimp only
      rw [hsseq]
      show tc_pool_get (pool_write (tc_shader_from_sources tc_shader_init (some vs)
        (some fs) gs none none none).2.pool 63 s4b) (⟨63, 1⟩ : tc_handle) = some s4b
      exact pool_get_write_self _ _ _ _ hvalid63 (by decide) hdlen63
    · rw [hs4bver, hread63, hs4v]
      decide

/-- Witness for C5 on the fresh registry with concrete sources: the
repeated call returns the identical handle and registry, and a call
with different sources returns slot 62 instead of 63. -/
theorem C5_from_sources_dedup_witness :
    (tc_shader_from_sources
        (tc_shader_from_sources tc_shader_init (some "v") (some "f") none none none none).2
        (some "v") (some "f") none none none none =
      ((tc_shader_from_sources tc_shader_init (some "v") (some "f") none none none none).1,
       (tc_shader_from_sources tc_shader_init (some "v") (some "f") none none none
         none).2)) ∧
    ((tc_shader_from_sources tc_shader_init (some "v") (some "f") none none none none).1 =
        (⟨63, 1⟩ : tc_handle) ∧
      (tc_shader_from_sources
        (tc_shader_from_sources tc_shader_init (some "v") (some "f") none none none none).2
        (some "v2") (some "f2") none none none none).1 = (⟨62, 1⟩ : tc_handle)) :=
  ⟨C5_from_sources_dedup.1 tc_shader_init "v" "f" none none none (by decide) (by decide)
     (by decide) (by decide) (by decide),
   C5_from_sources_dedup.2.1 "v" "f" "v2" "f2" none none (by decide)⟩

/-- A two-slot registry holding an original shader (slot 0, version 1)
and a variant of it (slot 1, snapshot version 1): concrete instance for
the variant-staleness claim. -/
def C8orig : tc_shader :=
  { zeroShader with uuid := "o", version := 1 }

def C8var : tc_shader :=
  { zeroShader with
      uuid := "w"
      version := 1
      is_variant := true
      original_handle := ⟨0, 1⟩
      original_version := 1
      pool_index := 1 }

def C8reg : ShaderRegistry :=
  ⟨⟨[C8orig, C8var], 2, [true, true], [1, 1], [], 2⟩,
   tc_resource_map_new, tc_resource_map_new, 1⟩

/-- C6: amended version semantics.  Every resource *created* through a
registry (mesh, shader, texture, material) starts with header version
1; a mesh *declared* as a lazy placeholder starts at version 0 (not 1)
and unloaded; and the data mutators each set the version to exactly
`(old + 1) mod 2^32`, which is a strict increase precisely while the
32-bit counter has not reached `2^32 - 1`. -/
theorem C6_version_semantics :
    (∀ reg : MeshRegistry, ∀ u : String, ∀ next : Nat, poolWF reg.pool →
      tc_handle_is_invalid (mesh_create_with reg u next).1 = false →
      ∃ m, tc_mesh_get (mesh_create_with reg u next).2 (mesh_create_with reg u next).1 =
        some m ∧ m.header.version = 1) ∧
    (∀ reg : ShaderRegistry, ∀ u : String, ∀ next : Nat, poolWF reg.pool →
      tc_handle_is_invalid (shader_create_with reg u next).1 = false →
      ∃ s, tc_shader_get (shader_create_with reg u next).2 (shader_create_with reg u next).1 =
        some s ∧ s.version = 1) ∧
    (∀ reg : TextureRegistry, ∀ u : String, ∀ next : Nat, poolWF reg.pool →
      tc_handle_is_invalid (texture_create_with reg u next).1 = false →
      ∃ t, tc_texture_get (texture_create_with reg u next).2 (texture_create_with reg u next).1 =
        some t ∧ t.header.version = 1) ∧
    (∀ reg : MaterialRegistry, ∀ u nm : String, ∀ next : Nat, poolWF reg.pool →
      tc_handle_is_invalid (material_create_with reg u nm next).1 = false →
      ∃ m, tc_material_get (material_create_with reg u nm next).2
        (material_create_with reg u nm next).1 = some m ∧ m.header.version = 1) ∧
    (∀ reg : MeshRegistry, ∀ u : String, ∀ nm : Option String, poolWF reg.pool →
      tc_handle_is_invalid (tc_mesh_find reg u) = true →
      tc_handle_is_invalid (tc_mesh_declare reg u nm).1 = false →
      ∃ m, tc_mesh_get (tc_mesh_declare reg u nm).2 (tc_mesh_declare reg u nm).1 =
        some m ∧ m.header.version = 0 ∧ m.header.is_loaded = false) ∧
    (∀ mesh data vc layout,
      (tc_mesh_set_vertices mesh data vc layout).2.header.version =
        (mesh.header.version + 1) % U32) ∧
    (∀ mesh data ic,
      (tc_mesh_set_indices mesh data ic).2.header.version =
        (mesh.header.version + 1) % U32) ∧
    (∀ mesh vs vc layout ids ic nm,
      (tc_mesh_set_data mesh vs vc layout ids ic nm).2.header.version =
        (mesh.header.version + 1) % U32) ∧
    (∀ reg : ShaderRegistry, ∀ j : Nat, ∀ vs fs gs n sp : Option String,
      j < reg.pool.data.length →
      ¬((pool_read reg.pool j).source_hash ≠ "" ∧
        (pool_read reg.pool j).source_hash = tc_shader_compute_hash vs fs gs) →
      (pool_read ((tc_shader_set_sources reg j vs fs gs n sp).2).pool j).version =
        ((pool_read reg.pool j).version + 1) % U32) ∧
    (∀ mesh data vc layout, mesh.header.version < U32 - 1 →
      (tc_mesh_set_vertices mesh data vc layout).2.header.version =
        mesh.header.version + 1) := by
  have hcreate : ∀ {α : Type} [Inhabited α] (p : tc_pool α) (x y : α), poolWF p →
      tc_pool_get (pool_write (tc_pool_alloc x p).2 (tc_pool_alloc x p).1.index y)
        (tc_pool_alloc x p).1 = some y := by
    intro α _ p x y hwf
    have hv := alloc_is_valid x p hwf
    have hwf2 := poolWF_alloc x p hwf
    have hlt : (tc_pool_alloc x p).1.index < (tc_pool_alloc x p).2.capacity :=
      is_valid_index_lt _ _ hv
    have hdl : (tc_pool_alloc x p).1.index < (tc_pool_alloc x p).2.data.length := by
      rw [hwf2.1]; exact hlt
    exact pool_get_write_self _ _ _ _ hv rfl hdl
  refine ⟨?_, ?_, ?_, ?_, ?_, ?_, ?_, ?_, ?_, ?_⟩
  · intro reg u next hwf hval
    simp only [mesh_create_with] at hval ⊢
    split_ifs at hval ⊢ with h1 h2
    · exact absurd hval (by simp [tc_handle_is_invalid, TC_HANDLE_INVALID])
    · exact ⟨_, hcreate reg.pool _ _ hwf, rfl⟩
    · exact absurd hval (by simp [tc_handle_is_invalid, TC_HANDLE_INVALID])
  · intro reg u next hwf hval
    simp only [shader_create_with] at hval ⊢
    split_ifs at hval ⊢ with h1 h2
    · exact absurd hval (by simp [tc_handle_is_invalid, TC_HANDLE_INVALID])
    · exact ⟨_, hcreate reg.pool _ _ hwf, rfl⟩
    · exact absurd hval (by simp [tc_handle_is_invalid, TC_HANDLE_INVALID])
  · intro reg u next hwf hval
    simp only [texture_create_with] at hval ⊢
    split_ifs at hval ⊢ with h1 h2
    · exact absurd hval (by simp [tc_handle_is_invalid, TC_HANDLE_INVALID])
    · exact ⟨_, hcreate reg.pool _ _ hwf, rfl⟩
    · exact absurd hval (by simp [tc_handle_is_invalid, TC_HANDLE_INVALID])
  · intro reg u nm next hwf hval
    simp only [material_create_with] at hval ⊢
    split_ifs at hval ⊢ with h1 h2
    · exact absurd hval (by simp [tc_handle_is_invalid, TC_HANDLE_INVALID])
    · refine ⟨{ zeroMaterial with header := { zeroHeader with uuid := uuidTrunc u, name := some nm, version := 1, ref_count := 0, is_loaded := true } }, ?_, rfl⟩
      unfold tc_material_get
      rw [if_neg (by simp_all)]
      exact hcreate reg.pool _ _ hwf
    · exact absurd hval (by simp [tc_handle_is_invalid, TC_HANDLE_INVALID])
  · intro reg u nm hwf hfind hval
    simp only [tc_mesh_declare] at hval ⊢
    rw [if_neg (by simp [hfind])] at hval ⊢
    split_ifs at hval ⊢ with h1 h2
    · exact absurd hval (by simp [tc_handle_is_invalid, TC_HANDLE_INVALID])
    · refine ⟨_, hcreate reg.pool _ _ hwf, ?_, ?_⟩ <;> cases nm <;> dsimp only <;>
        split_ifs <;> rfl
    · exact absurd hval (by simp [tc_handle_is_invalid, TC_HANDLE_INVALID])
  · intro mesh data vc layout
    rfl
  · intro mesh data ic
    rfl
  · intro mesh vs vc layout ids ic nm
    cases nm <;> rfl
  · intro reg j vs fs gs n sp hlen hguard
    obtain ⟨-, s4, hm, hreg, hver4⟩ := set_sources_spec reg j vs fs gs n sp hguard
    rw [hreg]
    show ((reg.pool.data.set j s4).getD j default).version =
      ((pool_read reg.pool j).version + 1) % U32
    rw [getD_set_self reg.pool.data j s4 default hlen]
    exact hver4
  · intro mesh data vc layout hlt
    show (mesh.header.version + 1) % U32 = mesh.header.version + 1
    apply Nat.mod_eq_of_lt
    simp only [U32] at hlt ⊢
    omega

/-- A one-slot fresh mesh registry for the version counterexample and
witness, and a mesh whose 32-bit version counter is at its maximum. -/
def C6reg0 : MeshRegistry :=
  ⟨⟨[zeroMesh], 1, [false], [1], [0], 0⟩, tc_resource_map_new, 1⟩

def C6mesh : tc_mesh :=
  { zeroMesh with header := { zeroHeader with version := U32 - 1 } }

/-- C6 counterexample: `tc_mesh_declare` registers a mesh whose version
is 0, not 1 (the placeholder equals the zero mesh with only the uuid
set); and one `tc_mesh_set_vertices` call on a mesh at version
`2^32 - 1` wraps the version down to 0 — a decrease. -/
theorem C6_counterexample :
    (tc_mesh_declare C6reg0 "u" none).1 = (⟨0, 1⟩ : tc_handle) ∧
    tc_mesh_get (tc_mesh_declare C6reg0 "u" none).2 ⟨0, 1⟩ =
      some ({ zeroMesh with header := { zeroHeader with uuid := "u" } }) ∧
    C6mesh.header.version = U32 - 1 ∧
    (tc_mesh_set_vertices C6mesh none 0 ⟨0, 0, []⟩).2.header.version = 0 := by
  decide

/-- Witness for C6: on a concrete fresh registry, mesh creation stores
version 1, and a set_vertices call on the zero mesh sets version
`(0 + 1) % 2^32`. -/
theorem C6_version_semantics_witness :
    (∃ m, tc_mesh_get (mesh_create_with C6reg0 "w" 1).2 (mesh_create_with C6reg0 "w" 1).1 =
      some m ∧ m.header.version = 1) ∧
    (tc_mesh_set_vertices zeroMesh none 0 ⟨0, 0, []⟩).2.header.version = (0 + 1) % U32 :=
  ⟨C6_version_semantics.1 C6reg0 "w" 1 (by decide) (by decide),
   C6_version_semantics.2.2.2.2.2.1 zeroMesh none 0 ⟨0, 0, []⟩⟩

/-- C7: set_data/accessor round-trip.  Writing `vc` vertices (a byte
buffer of exactly `vc * stride` bytes) and `ic` indices into a pooled
mesh through `tc_mesh_set_data`, then reading back through the export
accessors, returns the identical buffers and counts; and the header
version becomes `(old + 1) mod 2^32`, which is exactly `old + 1`
whenever the 32-bit counter has not reached `2^32 - 1`. -/
theorem C7_set_data_roundtrip
    (reg : MeshRegistry) (i : Nat) (h : tc_handle) (vs ids : List Nat) (vc ic : Nat)
    (layout : tc_vertex_layout) (nm : Option String)
    (hv : tc_pool_is_valid reg.pool h = true)
    (hidx : h.index = i)
    (hdlen : i < reg.pool.data.length)
    (hpos : 0 < vc * layout.stride)
    (hipos : 0 < ic)
    (hvs : vs.length = vc * layout.stride)
    (his : ids.length = ic) :
    (tc_mesh_set_data_at reg i (some vs) vc layout (some ids) ic nm).1 = true ∧
    tc_mesh_get_vertices (tc_mesh_set_data_at reg i (some vs) vc layout (some ids) ic nm).2
      h = some vs ∧
    tc_mesh_get_vertex_count (tc_mesh_set_data_at reg i (some vs) vc layout (some ids) ic nm).2
      h = vc ∧
    tc_mesh_get_indices (tc_mesh_set_data_at reg i (some vs) vc layout (some ids) ic nm).2
      h = some ids ∧
    tc_mesh_get_index_count (tc_mesh_set_data_at reg i (some vs) vc layout (some ids) ic nm).2
      h = ic ∧
    (∃ m, tc_mesh_get (tc_mesh_set_data_at reg i (some vs) vc layout (some ids) ic nm).2
        h = some m ∧
      m.header.version = ((pool_read reg.pool i).header.version + 1) % U32 ∧
      ((pool_read reg.pool i).header.version < U32 - 1 →
        m.header.version = (pool_read reg.pool i).header.version + 1)) := by
  have hsd1 : (tc_mesh_set_data (pool_read reg.pool i) (some vs) vc layout (some ids) ic nm).1
      = true := by
    simp only [tc_mesh_set_data]
  have htake : vs.take (vc * layout.stride) = vs := by
    rw [← hvs, List.take_length]
  have htake2 : ids.take ic = ids := by
    rw [← his, List.take_length]
  have hverts : (tc_mesh_set_data (pool_read reg.pool i) (some vs) vc layout (some ids) ic
      nm).2.vertices = some vs := by
    simp only [tc_mesh_set_data]
    cases nm <;> simp [hpos, htake]
  have hinds : (tc_mesh_set_data (pool_read reg.pool i) (some vs) vc layout (some ids) ic
      nm).2.indices = some ids := by
    simp only [tc_mesh_set_data]
    cases nm <;> simp [hipos, htake2]
  have hvcnt : (tc_mesh_set_data (pool_read reg.pool i) (some vs) vc layout (some ids) ic
      nm).2.vertex_count = vc := by
    simp only [tc_mesh_set_data]
  have hicnt : (tc_mesh_set_data (pool_read reg.pool i) (some vs) vc layout (some ids) ic
      nm).2.index_count = ic := by
    simp only [tc_mesh_set_data]
  have hver : (tc_mesh_set_data (pool_read reg.pool i) (some vs) vc layout (some ids) ic
      nm).2.header.version = ((pool_read reg.pool i).header.version + 1) % U32 := by
    simp only [tc_mesh_set_data]
    cases nm <;> rfl
  have hget : tc_mesh_get (tc_mesh_set_data_at reg i (some vs) vc layout (some ids) ic nm).2
      h = some ((tc_mesh_set_data (pool_read reg.pool i) (some vs) vc layout (some ids) ic
        nm).2) := by
    show tc_pool_get (pool_write reg.pool i _) h = _
    exact pool_get_write_self reg.pool i _ h hv hidx hdlen
  refine ⟨hsd1, ?_, ?_, ?_, ?_, ?_⟩
  · unfold tc_mesh_get_vertices
    rw [hget]
    exact hverts
  · unfold tc_mesh_get_vertex_count
    rw [hget]
    exact hvcnt
  · unfold tc_mesh_get_indices
    rw [hget]
    exact hinds
  · unfold tc_mesh_get_index_count
    rw [hget]
    exact hicnt
  · refine ⟨_, hget, hver, fun hlt => ?_⟩
    rw [hver]
    apply Nat.mod_eq_of_lt
    simp only [U32] at hlt ⊢
    omega

/-- A mesh whose 32-bit version counter is at its maximum, for the
round-trip version counterexample. -/
def C7mesh : tc_mesh :=
  { zeroMesh with header := { zeroHeader with version := U32 - 1 } }

/-- C7 counterexample: a successful `tc_mesh_set_data` on a mesh whose
version is `2^32 - 1` leaves the version at 0, not at
`(2^32 - 1) + 1`: the uint32_t version wraps, so "exactly one plus the
version before" fails at the wrap point. -/
theorem C7_counterexample :
    C7mesh.header.version = U32 - 1 ∧
    (tc_mesh_set_data C7mesh (some [1]) 1 ⟨1, 1, []⟩ (some [2]) 1 none).1 = true ∧
    (tc_mesh_set_data C7mesh (some [1]) 1 ⟨1, 1, []⟩ (some [2]) 1 none).2.header.version = 0 ∧
    ¬ (tc_mesh_set_data C7mesh (some [1]) 1 ⟨1, 1, []⟩ (some [2]) 1
        none).2.header.version = C7mesh.header.version + 1 := by
  decide

/-- A one-slot registry holding the zero mesh (version 0), for the
round-trip witness. -/
def C7wreg : MeshRegistry :=
  ⟨⟨[zeroMesh], 1, [true], [1], [], 1⟩, tc_resource_map_new, 1⟩

/-- Witness for C7 at a concrete registry: two one-byte vertices and
one index round-trip, and the version goes 0 to 1. -/
theorem C7_set_data_roundtrip_witness :
    (tc_mesh_set_data_at C7wreg 0 (some [5, 6]) 2 ⟨1, 0, []⟩ (some [7]) 1 none).1 = true ∧
    tc_mesh_get_vertices (tc_mesh_set_data_at C7wreg 0 (some [5, 6]) 2 ⟨1, 0, []⟩
      (some [7]) 1 none).2 ⟨0, 1⟩ = some [5, 6] ∧
    tc_mesh_get_vertex_count (tc_mesh_set_data_at C7wreg 0 (some [5, 6]) 2 ⟨1, 0, []⟩
      (some [7]) 1 none).2 ⟨0, 1⟩ = 2 ∧
    tc_mesh_get_indices (tc_mesh_set_data_at C7wreg 0 (some [5, 6]) 2 ⟨1, 0, []⟩
      (some [7]) 1 none).2 ⟨0, 1⟩ = some [7] ∧
    tc_mesh_get_index_count (tc_mesh_set_data_at C7wreg 0 (some [5, 6]) 2 ⟨1, 0, []⟩
      (some [7]) 1 none).2 ⟨0, 1⟩ = 1 ∧
    (∃ m, tc_mesh_get (tc_mesh_set_data_at C7wreg 0 (some [5, 6]) 2 ⟨1, 0, []⟩
        (some [7]) 1 none).2 ⟨0, 1⟩ = some m ∧
      m.header.version = ((pool_read C7wreg.pool 0).header.version + 1) % U32 ∧
      ((pool_read C7wreg.pool 0).header.version < U32 - 1 →
        m.header.version = (pool_read C7wreg.pool 0).header.version + 1)) :=
  C7_set_data_roundtrip C7wreg 0 ⟨0, 1⟩ [5, 6] [7] 2 1 ⟨1, 0, []⟩ none
    (by decide) (by decide) (by decide) (by decide) (by decide) (by decide) (by decide)

/-- Witness for C8 at a concrete registry: the variant is not stale,
re-sourcing the original leaves the variant's slot byte-identical, and
the variant is then stale. -/
theorem C8_shader_variant_staleness_witness :
    tc_shader_variant_is_stale C8reg ⟨1, 1⟩ = false ∧
    tc_shader_get ((tc_shader_set_sources C8reg 0 (some "a") (some "b")
        none none none).2) ⟨1, 1⟩ = some C8var ∧
    tc_shader_variant_is_stale ((tc_shader_set_sources C8reg 0 (some "a") (some "b")
        none none none).2) ⟨1, 1⟩ = true :=
  (C8_shader_variant_staleness C8reg ⟨1, 1⟩ C8var (by decide) (by decide)).2
    (some "a") (some "b") none none none C8orig (by decide) (by decide) (by decide)
    (by decide) (by decide) (by decide)

end TcGraphics
